import Mathlib

/-!
# go-tetris: playfield, movement, locking, line clearing, scoring, spawning and gravity

A shallow embedding of `internal/game/types.go`, `internal/game/physics.go`,
`internal/game/piece.go`, `internal/game/state.go` and the event loop of
`internal/game/loop.go`.

Modelling conventions.

* Go `int` is modelled by `Int`; no 64-bit wrap-around is modelled (scores, levels and
  coordinates are taken to stay inside the machine range).
* `Game.Playfield`, the Go array `[PlayWidth][TotalHeight]int`, is a function of the two
  indices; only the values at `0 ≤ x < PlayWidth`, `0 ≤ y < TotalHeight` stand for array cells.
* `Game.Current`, a `*Piece`, is an `Option Piece` (`none` is the nil pointer). A function that
  dereferences `g.Current` without a nil check returns `Option Game`, `none` being the
  nil-dereference crash.
* Fields used only for drawing, sound and scheduling (`Piece.Color`, `app`, `gravityTicker`,
  views, channels) are not part of the model. The one effect of the ticker that is modelled is
  the panic of `Ticker.Reset` on an interval that is not positive, in `adjustGravity` (the ticker
  itself is taken to exist, as `NewGame` creates it): it is a crash, `none`. The flash animation
  of `clearLines` (redraw requests and sleeps between setting `State` to `Animating` and back to
  `Playing`) has no effect on the fields modelled here and is left out.
* `clearLines` iterates over a Go map, whose iteration order is unspecified; the order is an
  explicit parameter `order`, applied to the list of distinct keys.
* `rand.Shuffle` in `refillBag` is an arbitrary list of calls `swap(i, j)` with `i, j < 7`, an
  explicit parameter; `Shuffles` holds the outcomes for the two places where a function calls
  `refillBag`, and `Chance` what one call of `lockPiece` takes from the run time (map order and
  shuffles).
* An index out of range (`NextQueue[0]` on an empty queue, a fifth block written to a `[4]Point`,
  a negative rotation state as index) is a crash, `none`, like the nil dereference; functions that
  reach `spawnNext` therefore return `Option Game`. `spawnNext` is shown to return `some` state,
  and `lockPiece` to return `some` state except when its level-up panics in `adjustGravity`.
* `time.Duration` is an `Int` number of nanoseconds, `/` on Go integers is `Int.tdiv` and `%` is
  `Int.tmod` (both truncate toward zero).
* The functions that index the grid are given a second time with the bounds check of the Go
  array at each access (`readCell`, `writeCell`, names ending in `Checked`); they are shown to
  return the result of the functions without the check, which all other statements use.
* `HandleInput` reads of its event the key and the rune only (`EventKey`); keys that no branch
  compares with are `Key.KeyOther`. The goroutine `loop` handles one event at a time, so a run
  of the game is a list of events (`Event`), each applied to the state left by the one before.
-/

namespace Tetris

/-! ## Data model (types.go) -/

def PlayWidth : Int := 10

def TotalHeight : Int := 40

def VisibleHeight : Int := 20

inductive GameState where
  | MainMenu
  | Playing
  | Paused
  | GameOver
  | Animating
deriving DecidableEq, Repr

abbrev PieceID := Int

def I : PieceID := 1

def O : PieceID := 2

def T : PieceID := 3

def J : PieceID := 4

def L : PieceID := 5

def S : PieceID := 6

def Z : PieceID := 7

structure Point where
  X : Int
  Y : Int
deriving DecidableEq, Repr

/-- The Go array type `[4]Point`. -/
structure Blocks where
  b0 : Point
  b1 : Point
  b2 : Point
  b3 : Point
deriving DecidableEq, Repr

/-- The elements of a `[4]Point` in index order, as visited by `for _, b := range p.Blocks`. -/
def Blocks.toList (b : Blocks) : List Point := [b.b0, b.b1, b.b2, b.b3]

structure Piece where
  ID : PieceID
  RotationState : Int
  Position : Point
  Blocks : Blocks
deriving DecidableEq, Repr

/-- The contents of `[PlayWidth][TotalHeight]int`, indexed `[x][y]`. -/
abbrev Grid := Int → Int → Int

/-- The assignment `field[x][y] = v`. -/
def setCell (f : Grid) (x y v : Int) : Grid :=
  fun i j => if i = x ∧ j = y then v else f i j

structure Game where
  Playfield : Grid
  Current : Option Piece
  NextQueue : List PieceID
  Score : Int
  Level : Int
  LinesCleared : Int
  B2B : Bool
  Combo : Int
  State : GameState
  LastMoveWasRotation : Bool

/-- The values taken by the counter of `for v := lo; v < lo + n; v++`. -/
def intRange (lo : Int) : Nat → List Int
  | 0 => []
  | n + 1 => lo :: intRange (lo + 1) n

/-- The values taken by the counter of `for v := lo; v < hi; v++`. -/
def loopRange (lo hi : Int) : List Int := intRange lo (hi - lo).toNat

/-! ## Collision (types.go) -/

/-- The body of the loop of `checkCollision` for the blocks still to visit: `true` is the
early `return true`, the empty list the final `return false`. -/
def collidesAt (f : Grid) (pos : Point) : List Point → Bool
  | [] => false
  | b :: rest =>
    let x := pos.X + b.X
    let y := pos.Y + b.Y
    if x < 0 ∨ x ≥ PlayWidth then true
    else if y < 0 then true
    else if y ≥ TotalHeight then true
    else if f x y ≠ 0 then true
    else collidesAt f pos rest

def checkCollision (g : Game) : Bool :=
  match g.Current with
  | none => false
  | some p => collidesAt g.Playfield p.Position p.Blocks.toList

/-! ## Horizontal movement (types.go) -/

def moveLeft (g : Game) : Option Game :=
  let g1 := { g with LastMoveWasRotation := false }
  match g1.Current with
  | none => none
  | some p =>
    let p2 := { p with Position := { p.Position with X := p.Position.X - 1 } }
    let g2 := { g1 with Current := some p2 }
    if checkCollision g2 then
      some { g2 with Current := some { p2 with Position := { p2.Position with X := p2.Position.X + 1 } } }
    else some g2

def moveRight (g : Game) : Option Game :=
  let g1 := { g with LastMoveWasRotation := false }
  match g1.Current with
  | none => none
  | some p =>
    let p2 := { p with Position := { p.Position with X := p.Position.X + 1 } }
    let g2 := { g1 with Current := some p2 }
    if checkCollision g2 then
      some { g2 with Current := some { p2 with Position := { p2.Position with X := p2.Position.X - 1 } } }
    else some g2

/-! ## Line clearing (physics.go) -/

/-- The keys of the map `rows` built by `clearLines`: the distinct rows `p.Position.Y + b.Y`. -/
def rowKeys (p : Piece) : List Int :=
  (p.Blocks.toList.map fun b => p.Position.Y + b.Y).dedup

/-- The flag `full` after the scan `for x := 0; x < PlayWidth; x++` of one row. -/
def rowFull (f : Grid) (row : Int) : Bool :=
  (loopRange 0 PlayWidth).all fun x => f x row != 0

/-- The slice `toClear` after the loop over the map keys visited in the order `keys`. -/
def findFull (f : Grid) (keys : List Int) : List Int :=
  keys.filter fun row => !(decide (row < 0) || decide (row ≥ VisibleHeight)) && rowFull f row

/-- The loop `for x := 0; x < PlayWidth; x++ { field[x][y] = field[x][y+1] }`. -/
def shiftRow (f : Grid) (y : Int) : Grid :=
  (loopRange 0 PlayWidth).foldl (fun f x => setCell f x y (f x (y + 1))) f

/-- The second loop over `x` of one removal: the top visible row takes the lowest hidden row,
which is zeroed. -/
def pullHidden (f : Grid) : Grid :=
  (loopRange 0 PlayWidth).foldl
    (fun f x =>
      if VisibleHeight < TotalHeight then
        let f1 := setCell f x (VisibleHeight - 1) (f x VisibleHeight)
        setCell f1 x VisibleHeight 0
      else setCell f x (VisibleHeight - 1) 0)
    f

/-- One iteration of `for _, row := range toClear`. -/
def removeRow (f : Grid) (row : Int) : Grid :=
  pullHidden ((loopRange row (VisibleHeight - 1)).foldl shiftRow f)

/-- The function `clearLines`, `order` being the iteration order of the map `rows`; the result is
the new game state and the returned count. -/
def clearLines (order : List Int → List Int) (g : Game) (p : Piece) : Game × Int :=
  let toClear := findFull g.Playfield (order (rowKeys p))
  if toClear.length = 0 then (g, 0)
  else
    let field := toClear.foldl removeRow g.Playfield
    ({ g with Playfield := field, State := GameState.Playing,
              LinesCleared := g.LinesCleared + toClear.length },
     toClear.length)

/-! ## Scoring (physics.go) -/

/-- The map `basePoints`; a key that is absent reads as 0. -/
def basePoints (n : Int) : Int :=
  if n = 1 then 100 else if n = 2 then 300 else if n = 3 then 500 else if n = 4 then 800 else 0

def comboBonus : Int := 50

/-- The expression `int(float64(pts) * 1.5)`: the conversion to float64 and the product are exact
for `|pts| < 2^52`, and the conversion back truncates toward zero. -/
def timesOneAndHalf (pts : Int) : Int := Int.tdiv (pts * 3) 2

def detectTSpin (g : Game) (p : Piece) : Bool :=
  if !g.LastMoveWasRotation then false
  else
    let cx := p.Position.X + 1
    let cy := p.Position.Y + 1
    let corners : List Point :=
      [⟨cx - 1, cy - 1⟩, ⟨cx + 1, cy - 1⟩, ⟨cx - 1, cy + 1⟩, ⟨cx + 1, cy + 1⟩]
    let occupied : Int :=
      corners.foldl
        (fun occupied c =>
          if c.X < 0 ∨ c.X ≥ PlayWidth ∨ c.Y < 0 ∨ c.Y ≥ TotalHeight ∨ g.Playfield c.X c.Y ≠ 0
          then occupied + 1 else occupied)
        0
    decide (occupied ≥ 3)

def updateScore (g : Game) (linesCleared : Int) (p : Piece) : Game :=
  let isTspin : Bool := decide (p.ID = T) && detectTSpin g p
  if linesCleared = 0 then g
  else
    let pts : Int :=
      if isTspin then
        (if linesCleared = 1 then 800
         else if linesCleared = 2 then 1200
         else if linesCleared = 3 then 1600
         else 0)
      else basePoints linesCleared
    let pts := pts * g.Level
    let pts := if (linesCleared = 4 ∨ isTspin = true) ∧ g.B2B = true then timesOneAndHalf pts else pts
    let b2b : Bool :=
      if linesCleared = 4 ∨ isTspin = true then true
      else if linesCleared > 0 then false
      else g.B2B
    if linesCleared > 0 then
      let combo := g.Combo + 1
      let pts := if combo > 1 then pts + (combo - 1) * comboBonus * g.Level else pts
      { g with B2B := b2b, Combo := combo, Score := g.Score + pts }
    else
      { g with B2B := b2b, Combo := 0, Score := g.Score + pts }


/-! ## Piece catalog (piece.go) -/

/-- The entry `PieceShapes[I]`: the masks of the rotation states 0, R, 2, L, each indexed `[y][x]`. -/
def shapesI : List (List (List Bool)) :=
  [[[false, false, false, false],
    [true, true, true, true],
    [false, false, false, false],
    [false, false, false, false]],
   [[false, false, true, false],
    [false, false, true, false],
    [false, false, true, false],
    [false, false, true, false]],
   [[false, false, false, false],
    [false, false, false, false],
    [true, true, true, true],
    [false, false, false, false]],
   [[false, true, false, false],
    [false, true, false, false],
    [false, true, false, false],
    [false, true, false, false]]]

/-- The entry `PieceShapes[O]`: the masks of the rotation states 0, R, 2, L, each indexed `[y][x]`. -/
def shapesO : List (List (List Bool)) :=
  [[[false, false, false, false],
    [false, true, true, false],
    [false, true, true, false],
    [false, false, false, false]],
   [[false, false, false, false],
    [false, true, true, false],
    [false, true, true, false],
    [false, false, false, false]],
   [[false, false, false, false],
    [false, true, true, false],
    [false, true, true, false],
    [false, false, false, false]],
   [[false, false, false, false],
    [false, true, true, false],
    [false, true, true, false],
    [false, false, false, false]]]

/-- The entry `PieceShapes[T]`: the masks of the rotation states 0, R, 2, L, each indexed `[y][x]`. -/
def shapesT : List (List (List Bool)) :=
  [[[false, false, false, false],
    [false, true, true, true],
    [false, false, true, false],
    [false, false, false, false]],
   [[false, false, false, false],
    [false, false, true, false],
    [false, true, true, false],
    [false, false, true, false]],
   [[false, false, false, false],
    [false, false, true, false],
    [false, true, true, true],
    [false, false, false, false]],
   [[false, false, false, false],
    [false, true, false, false],
    [false, true, true, false],
    [false, true, false, false]]]

/-- The entry `PieceShapes[J]`: the masks of the rotation states 0, R, 2, L, each indexed `[y][x]`. -/
def shapesJ : List (List (List Bool)) :=
  [[[false, false, false, false],
    [false, true, true, true],
    [false, false, false, true],
    [false, false, false, false]],
   [[false, false, false, false],
    [false, false, true, false],
    [false, false, true, false],
    [false, true, true, false]],
   [[false, false, false, false],
    [false, true, false, false],
    [false, true, true, true],
    [false, false, false, false]],
   [[false, false, false, false],
    [false, true, true, false],
    [false, true, false, false],
    [false, true, false, false]]]

/-- The entry `PieceShapes[L]`: the masks of the rotation states 0, R, 2, L, each indexed `[y][x]`. -/
def shapesL : List (List (List Bool)) :=
  [[[false, false, false, false],
    [false, true, true, true],
    [false, true, false, false],
    [false, false, false, false]],
   [[false, false, false, false],
    [false, true, true, false],
    [false, false, true, false],
    [false, false, true, false]],
   [[false, false, false, false],
    [false, false, false, true],
    [false, true, true, true],
    [false, false, false, false]],
   [[false, false, false, false],
    [false, true, false, false],
    [false, true, false, false],
    [false, true, true, false]]]

/-- The entry `PieceShapes[S]`: the masks of the rotation states 0, R, 2, L, each indexed `[y][x]`. -/
def shapesS : List (List (List Bool)) :=
  [[[false, false, false, false],
    [false, false, true, true],
    [false, true, true, false],
    [false, false, false, false]],
   [[false, false, false, false],
    [false, true, false, false],
    [false, true, true, false],
    [false, false, true, false]],
   [[false, false, false, false],
    [false, false, true, true],
    [false, true, true, false],
    [false, false, false, false]],
   [[false, false, false, false],
    [false, true, false, false],
    [false, true, true, false],
    [false, false, true, false]]]

/-- The entry `PieceShapes[Z]`: the masks of the rotation states 0, R, 2, L, each indexed `[y][x]`. -/
def shapesZ : List (List (List Bool)) :=
  [[[false, false, false, false],
    [false, true, true, false],
    [false, false, true, true],
    [false, false, false, false]],
   [[false, false, false, false],
    [false, false, true, false],
    [false, true, true, false],
    [false, true, false, false]],
   [[false, false, false, false],
    [false, true, true, false],
    [false, false, true, true],
    [false, false, false, false]],
   [[false, false, false, false],
    [false, false, true, false],
    [false, true, true, false],
    [false, true, false, false]]]

/-- The zero value of `[4][4][4]bool`, which a map lookup yields for a key that is absent. -/
def shapesZero : List (List (List Bool)) :=
  List.replicate 4 (List.replicate 4 (List.replicate 4 false))

/-- The map `PieceShapes`. -/
def PieceShapes (id : PieceID) : List (List (List Bool)) :=
  if id = I then shapesI
  else if id = O then shapesO
  else if id = T then shapesT
  else if id = J then shapesJ
  else if id = L then shapesL
  else if id = S then shapesS
  else if id = Z then shapesZ
  else shapesZero

/-- The value `mask[y][x]` of a `[4][4]bool` for indices in `[0, 4)`. -/
def maskCell (mask : List (List Bool)) (y x : Int) : Bool :=
  (mask.getD y.toNat []).getD x.toNat false

/-- The zero value of `[4]Point`. -/
def zeroBlocks : Blocks := ⟨⟨0, 0⟩, ⟨0, 0⟩, ⟨0, 0⟩, ⟨0, 0⟩⟩

/-- The assignment `blocks[idx] = v`; `none` is the index-out-of-range crash. -/
def Blocks.set (b : Blocks) (idx : Nat) (v : Point) : Option Blocks :=
  match idx with
  | 0 => some { b with b0 := v }
  | 1 => some { b with b1 := v }
  | 2 => some { b with b2 := v }
  | 3 => some { b with b3 := v }
  | _ => none

/-- The loops `for y := 0; y < 4; y++ { for x := 0; x < 4; x++ { ... } }` of `rotate` and
`spawnNext` that fill a `[4]Point` from a mask, starting from the zero array with `idx = 0`. -/
def fillBlocks (mask : List (List Bool)) : Option Blocks :=
  ((loopRange 0 4).foldl
    (fun acc y =>
      (loopRange 0 4).foldl
        (fun acc x =>
          match acc with
          | none => none
          | some (blocks, idx) =>
            if maskCell mask y x then
              (Blocks.set blocks idx ⟨x, y⟩).map fun b => (b, idx + 1)
            else some (blocks, idx))
        acc)
    (some (zeroBlocks, 0))).map Prod.fst

/-- The blocks built from the mask `PieceShapes[id][state]`, for `state` in `[0, 4)`. -/
def buildBlocks (id : PieceID) (state : Int) : Option Blocks :=
  fillBlocks ((PieceShapes id).getD state.toNat [])

/-! ## Rotation (types.go) -/

/-- The function `rotate`; `none` is a crash (nil piece, negative index into the masks). -/
def rotate (g : Game) : Option Game :=
  match g.Current with
  | none => none
  | some p =>
    let oldState := p.RotationState
    let newState := Int.tmod (p.RotationState + 1) 4
    if newState < 0 then none
    else
      match buildBlocks p.ID newState with
      | none => none
      | some newBlocks =>
        let oldBlocks := p.Blocks
        let p2 := { p with RotationState := newState, Blocks := newBlocks }
        let g2 := { g with Current := some p2 }
        if checkCollision g2 then
          some { g2 with Current := some { p2 with RotationState := oldState, Blocks := oldBlocks } }
        else some { g2 with LastMoveWasRotation := true }

/-! ## Bag and spawning (state.go) -/

/-- One call `swap(i, j)` made by `rand.Shuffle` on a slice of length 7. -/
abbrev Swap := Fin 7 × Fin 7

/-- The swap `bag[i], bag[j] = bag[j], bag[i]`. -/
def swapAt (bag : List PieceID) (i j : Nat) : List PieceID :=
  (bag.set i (bag.getD j 0)).set j (bag.getD i 0)

/-- The slice `bag` of `refillBag` after `rand.Shuffle` made the swaps `sw`. -/
def shuffledBag (sw : List Swap) : List PieceID :=
  sw.foldl (fun bag s => swapAt bag s.1 s.2) [I, O, T, J, L, S, Z]

def refillBag (sw : List Swap) (g : Game) : Game :=
  { g with NextQueue := g.NextQueue ++ shuffledBag sw }

/-- The outcomes of the shuffles at the two places where a function calls `refillBag`. -/
structure Shuffles where
  first : List Swap
  second : List Swap

/-- The loop `for attempts := 0; attempts < 3; attempts++` of `spawnNext` with `n` attempts
left; the result is the piece when the loop is left. -/
def spawnRetry (g : Game) (p : Piece) : Nat → Piece
  | 0 => p
  | n + 1 =>
    let p1 := { p with Position := { p.Position with Y := p.Position.Y + 1 } }
    if !checkCollision { g with Current := some p1 } then p1
    else spawnRetry g p1 n

/-- The part of `spawnNext` from the first collision check on, for the new piece `p`: up to
three retries one row higher, then `GameOver` or the reset of the rotation flag. -/
def placeSpawn (g : Game) (p : Piece) : Game :=
  let g4 := { g with Current := some p }
  if checkCollision g4 then
    let g5 := { g4 with Current := some (spawnRetry g4 p 3) }
    if checkCollision g5 then { g5 with State := GameState.GameOver }
    else { g5 with LastMoveWasRotation := false }
  else { g4 with LastMoveWasRotation := false }

/-- The function `spawnNext`; `none` is a crash (empty queue at `NextQueue[0]`, more than 4
cells in a mask). -/
def spawnNext (sh : Shuffles) (g : Game) : Option Game :=
  let g1 := if g.NextQueue.length < 2 then refillBag sh.first g else g
  match g1.NextQueue with
  | [] => none
  | pid :: rest =>
    let g2 := { g1 with NextQueue := rest }
    let g3 := if g2.NextQueue.length < 1 then refillBag sh.second g2 else g2
    match buildBlocks pid 0 with
    | none => none
    | some blocks =>
      let spawnX := if Int.tdiv PlayWidth 2 - 2 < 0 then 0 else Int.tdiv PlayWidth 2 - 2
      let spawnY := VisibleHeight + 2
      some (placeSpawn g3
        { ID := pid, RotationState := 0, Position := ⟨spawnX, spawnY⟩, Blocks := blocks })

/-- The function `StartGame`: `own` are the shuffles of its own calls of `refillBag`, `spawn`
those of its call of `spawnNext`. -/
def StartGame (own spawn : Shuffles) (g : Game) : Option Game :=
  let g1 := { g with Playfield := fun _ _ => 0 }
  let g2 := { g1 with Score := 0, Level := 1, LinesCleared := 0 }
  let g3 := { g2 with Current := none }
  let g4 := { g3 with NextQueue := [] }
  let g5 := refillBag own.first g4
  let g6 := if g5.NextQueue.length < 2 then refillBag own.second g5 else g5
  let g7 := { g6 with State := GameState.Playing }
  spawnNext spawn g7

/-! ## Gravity interval (physics.go) -/

/-- The constant `time.Second`, in nanoseconds, the unit of `time.Duration`. -/
def Second : Int := 1000000000

/-- The function `gravityForLevel`; the result is a `time.Duration`, in nanoseconds. -/
def gravityForLevel (level : Int) : Int :=
  if level < 10 then Int.tdiv (Second * (48 - level * 5)) 60
  else if level < 20 then Int.tdiv (Second * (28 - (level - 10) * 2)) 60
  else if level < 30 then Int.tdiv (Second * (8 - (level - 20))) 60
  else Int.tdiv Second 60

/-! ## Locking (physics.go) -/

/-- What one call of `lockPiece` takes from the run time: the iteration order of the map in
`clearLines` and the shuffles of `spawnNext`. -/
structure Chance where
  order : List Int → List Int
  shuffles : Shuffles

/-- The loop of `lockPiece` that paints the blocks of `p` into the playfield. -/
def paintBlocks (f : Grid) (p : Piece) : Grid :=
  p.Blocks.toList.foldl
    (fun f b =>
      let x := p.Position.X + b.X
      let y := p.Position.Y + b.Y
      if x ≥ 0 ∧ x < PlayWidth ∧ y ≥ 0 ∧ y < TotalHeight then setCell f x y p.ID else f)
    f

/-- The function `adjustGravity`: it resets the gravity ticker to `gravityForLevel(g.Level)`. The
ticker is not part of the model, but `Ticker.Reset` panics when the interval is not positive;
`none` is that panic. -/
def adjustGravity (g : Game) : Option Game :=
  if gravityForLevel g.Level ≤ 0 then none else some g

/-- The block `// Level up?` of `lockPiece`: the level is raised and `adjustGravity` is called
when `LinesCleared / 10 + 1` exceeds the level. -/
def levelUp (g : Game) : Option Game :=
  if Int.tdiv g.LinesCleared 10 + 1 > g.Level then
    adjustGravity { g with Level := Int.tdiv g.LinesCleared 10 + 1 }
  else some g

/-- The part of `lockPiece` after the painting loop, for the locked piece `p`: line clearing,
scoring, level, and the spawn of the next piece; `none` is the panic of `adjustGravity`, which
ends the program before the active piece is cleared and the next one spawned. -/
def lockTail (c : Chance) (g : Game) (p : Piece) : Option Game :=
  let r := clearLines c.order g p
  let g2 := updateScore r.1 r.2 p
  match levelUp g2 with
  | none => none
  | some g3 => spawnNext c.shuffles { g3 with Current := none }

def lockPiece (c : Chance) (g : Game) : Option Game :=
  match g.Current with
  | none => some g
  | some p => lockTail c { g with Playfield := paintBlocks g.Playfield p } p

/-! ## Vertical movement (types.go) -/

def softDrop (c : Chance) (g : Game) : Option Game :=
  let g1 := { g with LastMoveWasRotation := false }
  match g1.Current with
  | none => none
  | some p =>
    let originalY := p.Position.Y
    let p2 := { p with Position := { p.Position with Y := p.Position.Y - 1 } }
    let g2 := { g1 with Current := some p2 }
    if checkCollision g2 then
      lockPiece c { g2 with Current := some { p2 with Position := { p2.Position with Y := originalY } } }
    else some g2

/-- The loop `for { ... }` of `hardDrop` entered with the piece `p` and the counter
`dropDistance`; the result is the piece and the counter when the loop is left. -/
def dropLoop (g : Game) (p : Piece) (dropDistance : Int) : Piece × Int :=
  let p1 := { p with Position := { p.Position with Y := p.Position.Y - 1 } }
  if checkCollision { g with Current := some p1 } then
    ({ p1 with Position := { p1.Position with Y := p1.Position.Y + 1 } }, dropDistance)
  else
    if dropDistance + 1 > TotalHeight then (p1, dropDistance + 1)
    else dropLoop g p1 (dropDistance + 1)
termination_by (TotalHeight + 1 - dropDistance).toNat
decreasing_by
  simp only [TotalHeight] at *
  omega

def hardDrop (c : Chance) (g : Game) : Option Game :=
  match g.Current with
  | none => some g
  | some p =>
    let g1 := { g with LastMoveWasRotation := false }
    let startY := p.Position.Y
    let r := dropLoop g1 p 0
    let g2 := { g1 with Current := some r.1 }
    if startY ≠ r.1.Position.Y then lockPiece c g2 else some g2

/-- The function `ApplyGravity`; `c1` and `c2` serve its first and second call of `lockPiece`. -/
def ApplyGravity (c1 c2 : Chance) (g : Game) : Option Game :=
  if g.State ≠ GameState.Playing then some g
  else
    match g.Current with
    | none => some g
    | some p =>
      let g1 := { g with LastMoveWasRotation := false }
      let originalY := p.Position.Y
      let p2 := { p with Position := { p.Position with Y := p.Position.Y - 1 } }
      let g2 := { g1 with Current := some p2 }
      let afterMove : Option Game :=
        if checkCollision g2 then
          let g3 := { g2 with
            Current := some { p2 with Position := { p2.Position with Y := originalY } } }
          if originalY ≥ 0 ∧ originalY < TotalHeight then lockPiece c1 g3
          else some { g3 with State := GameState.GameOver }
        else some g2
      match afterMove with
      | none => none
      | some g4 =>
        match g4.Current with
        | none => some g4
        | some q =>
          if q.Position.Y < 0 then
            lockPiece c2 { g4 with Current := some { q with Position := { q.Position with Y := 0 } } }
          else some g4

/-! ## Named intermediate values of `updateScore` -/

/-- The flag `isTspin` computed at the start of `updateScore`. -/
def isTspinOf (g : Game) (p : Piece) : Bool := decide (p.ID = T) && detectTSpin g p

/-- The value of `pts` in `updateScore` after the base points calculation. -/
def basePts (isTspin : Bool) (linesCleared : Int) : Int :=
  if isTspin then
    (if linesCleared = 1 then 800
     else if linesCleared = 2 then 1200
     else if linesCleared = 3 then 1600
     else 0)
  else basePoints linesCleared

/-- The value of `pts` in `updateScore` when the combo system is reached: the base points times
the level, with the back-to-back adjustment. -/
def ptsBeforeCombo (g : Game) (linesCleared : Int) (p : Piece) : Int :=
  if (linesCleared = 4 ∨ isTspinOf g p = true) ∧ g.B2B = true then
    timesOneAndHalf (basePts (isTspinOf g p) linesCleared * g.Level)
  else basePts (isTspinOf g p) linesCleared * g.Level

/-- The combo bonus of a clearing lock whose prior combo counter is `c`. -/
def comboPoints (c level : Int) : Int := if 1 ≤ c then c * 50 * level else 0

/-- Whether the cell `(x, y)` counts as occupied for the T-spin test: outside the grid or holding
a locked cell. -/
def cornerOccupied (f : Grid) (x y : Int) : Bool :=
  decide (x < 0 ∨ PlayWidth ≤ x ∨ y < 0 ∨ TotalHeight ≤ y ∨ f x y ≠ 0)

/-- The number of occupied diagonal corners of the pivot `position + (1,1)`. -/
def occupiedCorners (g : Game) (p : Piece) : Nat :=
  let cx := p.Position.X + 1
  let cy := p.Position.Y + 1
  (([⟨cx - 1, cy - 1⟩, ⟨cx + 1, cy - 1⟩, ⟨cx - 1, cy + 1⟩, ⟨cx + 1, cy + 1⟩] : List Point).filter
    fun c => cornerOccupied g.Playfield c.X c.Y).length

/-- A sequence of `updateScore` calls, each with its line count and locked piece. -/
def runScores (g : Game) (calls : List (Int × Piece)) : Game :=
  calls.foldl (fun g c => updateScore g c.1 c.2) g

/-! ## Concrete states used to evaluate the model -/

def emptyGrid : Grid := fun _ _ => 0

/-- A T piece in rotation state 0 lying on the floor against the left wall; its pivot is the
cell `(0, 0)`. -/
def cornerT : Piece := ⟨T, 0, ⟨-1, -1⟩, ⟨⟨1, 1⟩, ⟨2, 1⟩, ⟨3, 1⟩, ⟨2, 2⟩⟩⟩

/-- An O piece in the bottom-left corner, covering the cells (0,0), (1,0), (0,1), (1,1). -/
def cornerO : Piece := ⟨O, 0, ⟨-1, -1⟩, ⟨⟨1, 1⟩, ⟨2, 1⟩, ⟨1, 2⟩, ⟨2, 2⟩⟩⟩

/-- An empty grid at level 1 with score, combo and back-to-back cleared. -/
def freshGame : Game :=
  { Playfield := emptyGrid, Current := none, NextQueue := [], Score := 0, Level := 1,
    LinesCleared := 0, B2B := false, Combo := 0, State := GameState.Playing,
    LastMoveWasRotation := false }

/-- The state `freshGame` after a successful rotation. -/
def rotatedGame : Game := { freshGame with LastMoveWasRotation := true }

/-! ## Collision as a property of the placement -/

/-- The piece with block offsets `bs` placed at `pos` has a block outside
`[0, PlayWidth) x [0, TotalHeight)` or on a non-zero cell. -/
def Blocked (f : Grid) (pos : Point) (bs : Blocks) : Prop :=
  ∃ b ∈ bs.toList,
    pos.X + b.X < 0 ∨ PlayWidth ≤ pos.X + b.X ∨ pos.Y + b.Y < 0 ∨ TotalHeight ≤ pos.Y + b.Y ∨
    f (pos.X + b.X) (pos.Y + b.Y) ≠ 0

instance (f : Grid) (pos : Point) (bs : Blocks) : Decidable (Blocked f pos bs) := by
  unfold Blocked
  infer_instance

/-- The T piece of `cornerT` as the active piece of an otherwise fresh game. -/
def cornerGame : Game := { freshGame with Current := some cornerT, LastMoveWasRotation := true }

/-! ## Line clearing: iteration order and the stated effects -/

/-- The map iteration order that visits the keys from the lowest to the highest row. -/
def ascending (keys : List Int) : List Int := keys.insertionSort (fun a b => a ≤ b)

/-- The effect of removing the single row `r` on the whole stack, visible and hidden rows alike:
every row `y` with `r ≤ y < TotalHeight - 1` holds the former row `y + 1`, the row
`TotalHeight - 1` is zero and the rows below `r` are unchanged. -/
def ShiftedWholeStack (old new : Grid) (r : Int) : Prop :=
  ∀ x y : Int, 0 ≤ x → x < PlayWidth → 0 ≤ y → y < TotalHeight →
    (r ≤ y → y < TotalHeight - 1 → new x y = old x (y + 1)) ∧
    (y = TotalHeight - 1 → new x y = 0) ∧
    (y < r → new x y = old x y)

/-- The visible rows that were not cleared, from the bottom up, are the rows `0, 1, ...` of the
new grid: row `i` of `new` is the `i`-th former visible row outside `cleared`. -/
def CompactedInOrder (old new : Grid) (cleared : List Int) : Prop :=
  ∀ (i : Nat) (y : Int),
    ((loopRange 0 VisibleHeight).filter fun v => decide (v ∉ cleared))[i]? = some y →
    ∀ x : Int, 0 ≤ x → x < PlayWidth → new x i = old x y

/-- An I piece in rotation state 0 lying on the floor in columns 0 to 3. -/
def flatI : Piece := ⟨I, 0, ⟨0, -1⟩, ⟨⟨0, 1⟩, ⟨1, 1⟩, ⟨2, 1⟩, ⟨3, 1⟩⟩⟩

/-- The grid after `flatI` was locked into a row 0 that is now full, with one locked cell in the
hidden buffer at column 0, row 22. -/
def hiddenBlockGame : Game :=
  { freshGame with
    Playfield := fun x y => if y = 0 then 1 else if x = 0 ∧ y = 22 then 5 else 0 }

/-- The grid after `cornerO` was locked and completed rows 0 and 1, with one locked cell in
row 2 at column 0. -/
def twoRowGame : Game :=
  { freshGame with
    Playfield := fun x y =>
      if y = 0 ∨ y = 1 then (if x < 2 then 2 else 1) else if x = 0 ∧ y = 2 then 5 else 0 }

/-! ## Gravity, new game: stated values and concrete states -/

/-- The number `n` of sixtieths of a second that the gravity interval of a level is stated to
last: `48 - 5 * level` for levels up to 9, `28 - 2 * (level - 10)` for levels 10 to 19,
`8 - (level - 20)` for levels 20 to 29 and 1 from level 30 on. -/
def gravityTicks (level : Int) : Int :=
  if level < 10 then 48 - 5 * level
  else if level < 20 then 28 - 2 * (level - 10)
  else if level < 30 then 8 - (level - 20)
  else 1

/-- The shuffles that make no swap. -/
def noShuffles : Shuffles := ⟨[], []⟩

/-- The map order `ascending` with the shuffles that make no swap. -/
def plainChance : Chance := ⟨ascending, noShuffles⟩

/-- A finished game with a combo counter of 3 and the back-to-back flag set. -/
def finishedGame : Game :=
  { freshGame with Score := 4200, Level := 2, LinesCleared := 12, Combo := 3, B2B := true,
                   State := GameState.GameOver }

/-! ## Spawning: the stated result -/

/-- The queue of `spawnNext` when it reads `NextQueue[0]`. -/
def queueAtPop (sh : Shuffles) (g : Game) : List PieceID :=
  if g.NextQueue.length < 2 then g.NextQueue ++ shuffledBag sh.first else g.NextQueue

/-- The queue that `spawnNext` leaves when `rest` remains after the pop. -/
def queueAfterPop (sh : Shuffles) (rest : List PieceID) : List PieceID :=
  if rest.length < 1 then rest ++ shuffledBag sh.second else rest

/-- The state that `placeSpawn` returns for a piece of kind `pid` with blocks `bs`: the piece is
at column 3 in the lowest of the rows 22 to 25 where it is not blocked, or in row 25 with the
phase `GameOver` when it is blocked in all four. -/
def spawnPlaced (g : Game) (pid : PieceID) (bs : Blocks) : Game :=
  if ¬ Blocked g.Playfield ⟨3, 22⟩ bs then
    { g with Current := some ⟨pid, 0, ⟨3, 22⟩, bs⟩, LastMoveWasRotation := false }
  else if ¬ Blocked g.Playfield ⟨3, 23⟩ bs then
    { g with Current := some ⟨pid, 0, ⟨3, 23⟩, bs⟩, LastMoveWasRotation := false }
  else if ¬ Blocked g.Playfield ⟨3, 24⟩ bs then
    { g with Current := some ⟨pid, 0, ⟨3, 24⟩, bs⟩, LastMoveWasRotation := false }
  else if ¬ Blocked g.Playfield ⟨3, 25⟩ bs then
    { g with Current := some ⟨pid, 0, ⟨3, 25⟩, bs⟩, LastMoveWasRotation := false }
  else
    { g with Current := some ⟨pid, 0, ⟨3, 25⟩, bs⟩, State := GameState.GameOver }

/-! ## Dropping: concrete states -/

/-- An I piece in rotation state 0 whose blocks lie in row 6, columns 0 to 3. -/
def floatingI : Piece := ⟨I, 0, ⟨0, 5⟩, ⟨⟨0, 1⟩, ⟨1, 1⟩, ⟨2, 1⟩, ⟨3, 1⟩⟩⟩

/-- The piece `floatingI` active on the empty grid, with two kinds queued. -/
def floatGame : Game := { freshGame with Current := some floatingI, NextQueue := [O, T] }

/-- An I piece in rotation state 0 at `Position.Y = 0`: its blocks lie in row 1, columns 0
to 3, and row 0 below it is free. -/
def lowI : Piece := ⟨I, 0, ⟨0, 0⟩, ⟨⟨0, 1⟩, ⟨1, 1⟩, ⟨2, 1⟩, ⟨3, 1⟩⟩⟩

/-- The piece `lowI` active on the empty grid in the phase `Playing`, with two kinds queued. -/
def lowGame : Game := { freshGame with Current := some lowI, NextQueue := [O, T] }

/-- The piece `flatI`, which lies on the floor, active on the empty grid. -/
def floorGame : Game := { freshGame with Current := some flatI, NextQueue := [O, T] }

/-- The block `b` of `p` lies inside the grid, on the cell `(x, y)`. -/
def PaintsCell (p : Piece) (b : Point) (x y : Int) : Prop :=
  (p.Position.X + b.X ≥ 0 ∧ p.Position.X + b.X < PlayWidth ∧
    p.Position.Y + b.Y ≥ 0 ∧ p.Position.Y + b.Y < TotalHeight) ∧
  x = p.Position.X + b.X ∧ y = p.Position.Y + b.Y

instance (p : Piece) (b : Point) (x y : Int) : Decidable (PaintsCell p b x y) := by
  unfold PaintsCell
  infer_instance

/-! ## The sequence of spawned kinds -/

/-- One round of play that ends with a spawn: `play` is what happens to the state before
`spawnNext` is called, `shuffles` the outcomes of the shuffles of that call. -/
structure Round where
  play : Game → Game
  shuffles : Shuffles

/-- The kinds of the pieces spawned by the successive calls of `spawnNext` in the rounds. -/
def spawnedKinds : Game → List Round → List PieceID
  | _, [] => []
  | g, r :: rest =>
    match spawnNext r.shuffles (r.play g) with
    | none => []
    | some g1 =>
      match g1.Current with
      | none => spawnedKinds g1 rest
      | some p => p.ID :: spawnedKinds g1 rest

/-- The bags that `refillBag` appends during the rounds, in order, when the queue holds `qlen`
kinds at the start: a round refills when fewer than 2 kinds are queued, and pops one kind. -/
def appendedBags : Nat → List Round → List (List PieceID)
  | _, [] => []
  | qlen, r :: rest =>
    if qlen < 2 then shuffledBag r.shuffles.first :: appendedBags (qlen + 7 - 1) rest
    else appendedBags (qlen - 1) rest

/-! ## Catalog, queue and lock: stated values -/

/-- The number of `true` cells of a mask. -/
def trueCells (mask : List (List Bool)) : Nat :=
  (mask.map fun row => row.count true).sum

/-- The map iteration order `order` visits each key of the map exactly once: it returns a
permutation of the keys. -/
def Reorders (order : List Int → List Int) : Prop :=
  ∀ keys : List Int, (order keys).Perm keys

/-- The row `y` contains a block of the piece `p`. -/
def TouchesRow (p : Piece) (y : Int) : Prop :=
  ∃ b ∈ p.Blocks.toList, p.Position.Y + b.Y = y

instance (p : Piece) (y : Int) : Decidable (TouchesRow p y) := by
  unfold TouchesRow
  infer_instance

/-- All `PlayWidth` cells of the row `y` are non-zero. -/
def RowAllNonZero (f : Grid) (y : Int) : Prop :=
  ∀ x : Int, 0 ≤ x → x < PlayWidth → f x y ≠ 0

instance (f : Grid) (y : Int) : Decidable (RowAllNonZero f y) := by
  unfold RowAllNonZero
  infer_instance

/-- The number of distinct rows `y` with `0 ≤ y < VisibleHeight` that contain a block of `p` and
have all their cells non-zero in `f`. -/
def fullRowCount (f : Grid) (p : Piece) : Nat :=
  ((Finset.Ico 0 VisibleHeight).filter fun y => TouchesRow p y ∧ RowAllNonZero f y).card

/-- A lock that clears `n` rows in the state `g` raises the level (to `(LinesCleared + n) / 10 + 1`)
and the gravity interval of the new level is not positive: `adjustGravity` panics. -/
def LevelUpPanics (g : Game) (n : Int) : Prop :=
  g.Level < Int.tdiv (g.LinesCleared + n) 10 + 1 ∧
  gravityForLevel (Int.tdiv (g.LinesCleared + n) 10 + 1) ≤ 0

instance (g : Game) (n : Int) : Decidable (LevelUpPanics g n) := by
  unfold LevelUpPanics
  infer_instance

/-- The number of rows that `clearLines` removes when the piece `p` is locked in the grid of
`g`: the value that `lockPiece` passes to `updateScore`. -/
def lockedRows (c : Chance) (g : Game) (p : Piece) : Int :=
  (clearLines c.order { g with Playfield := paintBlocks g.Playfield p } p).2

/-- The relation between the level and the line total that `StartGame` sets up and every lock
keeps: the level is at least `LinesCleared / 10 + 1`. -/
def LevelReached (g : Game) : Prop := Int.tdiv g.LinesCleared 10 + 1 ≤ g.Level

instance (g : Game) : Decidable (LevelReached g) := by
  unfold LevelReached
  infer_instance

/-- Row 0 holds locked cells in the columns 4 to 9, nine lines were cleared at level 1, and the
piece `flatI`, which completes row 0, is active. -/
def ninthLineGame : Game :=
  { freshGame with
    Playfield := fun x y => if y = 0 ∧ 4 ≤ x then 1 else 0,
    Current := some flatI, NextQueue := [O, T], LinesCleared := 9 }

/-! ## Input (types.go) -/

/-- The values of `tcell.Key` that `HandleInput` compares with; `KeyOther` is any other key. -/
inductive Key
  | KeyEnter | KeyEscape | KeyLeft | KeyRight | KeyDown | KeyUp | KeyRune | KeyOther
  deriving DecidableEq, Repr

/-- What `HandleInput` reads of a `tcell.EventKey`: the results of `Key()` and `Rune()`. -/
structure EventKey where
  key : Key
  rune : Char

/-- The rune of the space bar. -/
def space : Char := Char.ofNat 32

/-- The function `HandleInput`: `own` are the shuffles of `StartGame` itself, `c` serves the
call of `lockPiece` or `spawnNext` that the event may lead to; `none` is a crash. -/
def HandleInput (own : Shuffles) (c : Chance) (g : Game) (ev : EventKey) : Option Game :=
  match g.State with
  | GameState.MainMenu =>
    if ev.key = Key.KeyEnter ∨ (ev.key = Key.KeyRune ∧ ev.rune = space) then
      StartGame own c.shuffles g
    else some g
  | GameState.GameOver =>
    if ev.key = Key.KeyEnter ∨ (ev.key = Key.KeyRune ∧ ev.rune = space) then
      StartGame own c.shuffles g
    else some g
  | GameState.Playing =>
    if ev.key = Key.KeyEscape ∨ (ev.key = Key.KeyRune ∧ (ev.rune = 'p' ∨ ev.rune = 'P')) then
      some { g with State := GameState.Paused }
    else
      match g.Current with
      | none => some g
      | some _ =>
        match ev.key with
        | Key.KeyLeft => moveLeft g
        | Key.KeyRight => moveRight g
        | Key.KeyDown => softDrop c g
        | Key.KeyUp => rotate g
        | Key.KeyRune => if ev.rune = space then hardDrop c g else some g
        | _ => some g
  | GameState.Paused =>
    if ev.key = Key.KeyEscape ∨ ev.key = Key.KeyEnter ∨
        (ev.key = Key.KeyRune ∧ (ev.rune = space ∨ ev.rune = 'p' ∨ ev.rune = 'P')) then
      some { g with State := GameState.Playing }
    else some g
  | GameState.Animating => some g

/-- The event is a pause key: Escape, or the rune p or P. -/
def PauseKey (ev : EventKey) : Prop :=
  ev.key = Key.KeyEscape ∨ (ev.key = Key.KeyRune ∧ (ev.rune = 'p' ∨ ev.rune = 'P'))

instance (ev : EventKey) : Decidable (PauseKey ev) := by
  unfold PauseKey
  infer_instance

/-- The event is a resume key: Escape, Enter, or the rune space, p or P. -/
def ResumeKey (ev : EventKey) : Prop :=
  ev.key = Key.KeyEscape ∨ ev.key = Key.KeyEnter ∨
    (ev.key = Key.KeyRune ∧ (ev.rune = space ∨ ev.rune = 'p' ∨ ev.rune = 'P'))

instance (ev : EventKey) : Decidable (ResumeKey ev) := by
  unfold ResumeKey
  infer_instance

/-! ## Grid accesses with the bounds check of Go arrays

The array `Playfield` has the type `[PlayWidth][TotalHeight]int`: an index expression
`g.Playfield[x][y]` with `x` or `y` outside the array panics. The definitions of this section are
the four functions that index the grid, with that check at every access; `none` is the panic. -/

/-- The cell `(x, y)` exists in the array `Playfield`. -/
def InGrid (x y : Int) : Prop := 0 ≤ x ∧ x < PlayWidth ∧ 0 ≤ y ∧ y < TotalHeight

instance (x y : Int) : Decidable (InGrid x y) := by
  unfold InGrid
  infer_instance

/-- The read `g.Playfield[x][y]`. -/
def readCell (f : Grid) (x y : Int) : Option Int :=
  if InGrid x y then some (f x y) else none

/-- The assignment `g.Playfield[x][y] = v`. -/
def writeCell (f : Grid) (x y v : Int) : Option Grid :=
  if InGrid x y then some (setCell f x y v) else none

/-- The loop of `checkCollision` with checked reads. -/
def collidesAtChecked (f : Grid) (pos : Point) : List Point → Option Bool
  | [] => some false
  | b :: rest =>
    let x := pos.X + b.X
    let y := pos.Y + b.Y
    if x < 0 ∨ x ≥ PlayWidth then some true
    else if y < 0 then some true
    else if y ≥ TotalHeight then some true
    else
      match readCell f x y with
      | none => none
      | some v => if v ≠ 0 then some true else collidesAtChecked f pos rest

/-- The function `checkCollision` with checked reads. -/
def checkCollisionChecked (g : Game) : Option Bool :=
  match g.Current with
  | none => some false
  | some p => collidesAtChecked g.Playfield p.Position p.Blocks.toList

/-- The painting loop of `lockPiece` with checked assignments. -/
def paintBlocksChecked (f : Grid) (p : Piece) : Option Grid :=
  p.Blocks.toList.foldlM
    (fun f b =>
      let x := p.Position.X + b.X
      let y := p.Position.Y + b.Y
      if x ≥ 0 ∧ x < PlayWidth ∧ y ≥ 0 ∧ y < TotalHeight then writeCell f x y p.ID else some f)
    f

/-- The scan of one row in `clearLines`, for the columns still to visit, with checked reads:
`some false` is the `break` at the first zero cell. -/
def rowFullChecked (f : Grid) (row : Int) : List Int → Option Bool
  | [] => some true
  | x :: rest =>
    match readCell f x row with
    | none => none
    | some v => if v = 0 then some false else rowFullChecked f row rest

/-- The slice `toClear` of `clearLines`, with checked reads. -/
def findFullChecked (f : Grid) : List Int → Option (List Int)
  | [] => some []
  | row :: rest =>
    if row < 0 ∨ row ≥ VisibleHeight then findFullChecked f rest
    else
      match rowFullChecked f row (loopRange 0 PlayWidth) with
      | none => none
      | some full =>
        match findFullChecked f rest with
        | none => none
        | some found => some (if full then row :: found else found)

/-- The loop `field[x][y] = field[x][y+1]` over `x`, with checked accesses. -/
def shiftRowChecked (f : Grid) (y : Int) : Option Grid :=
  (loopRange 0 PlayWidth).foldlM
    (fun f x =>
      match readCell f x (y + 1) with
      | none => none
      | some v => writeCell f x y v)
    f

/-- The second loop over `x` of one removal, with checked accesses. -/
def pullHiddenChecked (f : Grid) : Option Grid :=
  (loopRange 0 PlayWidth).foldlM
    (fun f x =>
      if VisibleHeight < TotalHeight then
        match readCell f x VisibleHeight with
        | none => none
        | some v =>
          match writeCell f x (VisibleHeight - 1) v with
          | none => none
          | some f1 => writeCell f1 x VisibleHeight 0
      else writeCell f x (VisibleHeight - 1) 0)
    f

/-- One iteration of `for _, row := range toClear`, with checked accesses. -/
def removeRowChecked (f : Grid) (row : Int) : Option Grid :=
  match (loopRange row (VisibleHeight - 1)).foldlM shiftRowChecked f with
  | none => none
  | some f1 => pullHiddenChecked f1

/-- The function `clearLines` with checked accesses. -/
def clearLinesChecked (order : List Int → List Int) (g : Game) (p : Piece) :
    Option (Game × Int) :=
  match findFullChecked g.Playfield (order (rowKeys p)) with
  | none => none
  | some toClear =>
    if toClear.length = 0 then some (g, 0)
    else
      match toClear.foldlM removeRowChecked g.Playfield with
      | none => none
      | some field =>
        some ({ g with Playfield := field, State := GameState.Playing,
                       LinesCleared := g.LinesCleared + toClear.length },
              toClear.length)

/-- The function `detectTSpin` with checked reads: the read is reached only when the four
comparisons before it in the condition are false. -/
def detectTSpinChecked (g : Game) (p : Piece) : Option Bool :=
  if !g.LastMoveWasRotation then some false
  else
    let cx := p.Position.X + 1
    let cy := p.Position.Y + 1
    let corners : List Point :=
      [⟨cx - 1, cy - 1⟩, ⟨cx + 1, cy - 1⟩, ⟨cx - 1, cy + 1⟩, ⟨cx + 1, cy + 1⟩]
    match
      corners.foldlM
        (fun (occupied : Int) (c : Point) =>
          if c.X < 0 ∨ c.X ≥ PlayWidth ∨ c.Y < 0 ∨ c.Y ≥ TotalHeight then some (occupied + 1)
          else
            match readCell g.Playfield c.X c.Y with
            | none => none
            | some v => if v ≠ 0 then some (occupied + 1) else some occupied)
        0
    with
    | none => none
    | some occupied => some (decide (occupied ≥ 3))

/-! ## The active piece and its catalog entry -/

/-- The id is one of the seven kinds of the catalog. -/
def IsKind (id : PieceID) : Prop :=
  id = I ∨ id = O ∨ id = T ∨ id = J ∨ id = L ∨ id = S ∨ id = Z

instance (id : PieceID) : Decidable (IsKind id) := by
  unfold IsKind
  infer_instance

/-- The offsets `(x, y)` of `[0, 4) x [0, 4)`, in row-major order, at which the mask
`PieceShapes[id][state][y][x]` is true. -/
def catalogOffsets (id : PieceID) (state : Int) : List Point :=
  ((loopRange 0 4).map fun y =>
    ((loopRange 0 4).filter fun x => maskCell ((PieceShapes id).getD state.toNat []) y x).map
      fun x => (⟨x, y⟩ : Point)).flatten

/-- The piece is of a kind of the catalog, its rotation state is in `[0, 4)` and its blocks are
the offsets of the mask of that kind and rotation state. -/
def WellShaped (p : Piece) : Prop :=
  IsKind p.ID ∧ 0 ≤ p.RotationState ∧ p.RotationState < 4 ∧
  p.Blocks.toList = catalogOffsets p.ID p.RotationState

instance (p : Piece) : Decidable (WellShaped p) := by
  unfold WellShaped
  infer_instance

/-- The queue holds kinds of the catalog only. -/
def KindsOnly (g : Game) : Prop := ∀ k ∈ g.NextQueue, IsKind k

/-- The queue holds kinds only, and there is an active piece, which is well shaped. -/
def Shaped (g : Game) : Prop :=
  KindsOnly g ∧ ∃ p, g.Current = some p ∧ WellShaped p

/-- The operations on the active piece. -/
inductive Op
  | moveLeft
  | moveRight
  | softDrop (c : Chance)
  | hardDrop (c : Chance)
  | rotate
  | ApplyGravity (c1 c2 : Chance)

/-- One operation applied to a state. -/
def runOp (op : Op) (g : Game) : Option Game :=
  match op with
  | Op.moveLeft => moveLeft g
  | Op.moveRight => moveRight g
  | Op.softDrop c => softDrop c g
  | Op.hardDrop c => hardDrop c g
  | Op.rotate => rotate g
  | Op.ApplyGravity c1 c2 => ApplyGravity c1 c2 g

/-- A sequence of operations applied from left to right; `none` as soon as one crashes. -/
def runOps : List Op → Game → Option Game
  | [], g => some g
  | op :: rest, g =>
    match runOp op g with
    | none => none
    | some g1 => runOps rest g1

/-! ## Events of the game loop (loop.go) -/

/-- The case `<-g.gravityTicker.C` of `loop`: `ApplyGravity` is called in the phase `Playing`
when the active piece has `0 ≤ Position.Y < TotalHeight`. -/
def gravityTick (c1 c2 : Chance) (g : Game) : Option Game :=
  if g.State = GameState.Playing then
    match g.Current with
    | none => some g
    | some p =>
      if p.Position.Y ≥ 0 ∧ p.Position.Y < TotalHeight then ApplyGravity c1 c2 g else some g
  else some g

/-- What changes the state during play: a key event passed to `HandleInput`, a call of
`ApplyGravity`, and a firing of the gravity ticker in `loop`. -/
inductive Event
  | input (own : Shuffles) (c : Chance) (ev : EventKey)
  | gravity (c1 c2 : Chance)
  | tick (c1 c2 : Chance)

/-- One event applied to a state. -/
def runEvent (e : Event) (g : Game) : Option Game :=
  match e with
  | Event.input own c ev => HandleInput own c g ev
  | Event.gravity c1 c2 => ApplyGravity c1 c2 g
  | Event.tick c1 c2 => gravityTick c1 c2 g

/-- A sequence of events applied from left to right; `none` as soon as one crashes. -/
def runEvents : List Event → Game → Option Game
  | [], g => some g
  | e :: rest, g =>
    match runEvent e g with
    | none => none
    | some g1 => runEvents rest g1

/-- In the phases `Playing` and `Paused` the active piece, if there is one, does not collide. -/
def Free (g : Game) : Prop :=
  ∀ p, g.Current = some p → g.State = GameState.Playing ∨ g.State = GameState.Paused →
    ¬ Blocked g.Playfield p.Position p.Blocks

/-- The piece `flatI` active in row 0 of a grid whose only locked cell is at column 0 of row 1,
above the piece. -/
def overhangGame : Game :=
  { freshGame with
    Playfield := fun x y => if x = 0 ∧ y = 1 then 5 else 0,
    Current := some flatI, NextQueue := [O, T] }

/-! ## Locks during play: stated values -/

/-- The points that `updateScore` adds for `n` cleared rows when the lock is not a T-spin: the
entry of `basePoints` times the level, times 1.5 for a fourth row with the back-to-back flag set,
plus the combo bonus; nothing for `n = 0`. -/
def plainDelta (level : Int) (b2b : Bool) (combo : Int) (n : Int) : Int :=
  if n = 0 then 0
  else
    (if n = 4 ∧ b2b = true then timesOneAndHalf (basePoints n * level)
     else basePoints n * level)
    + comboPoints combo level

/-- The state `g1` comes from `g` without a lock: grid, score, line total, level, combo,
back-to-back flag and queue are those of `g`. -/
def Unlocked (g g1 : Game) : Prop :=
  g1.Playfield = g.Playfield ∧ g1.Score = g.Score ∧ g1.LinesCleared = g.LinesCleared ∧
  g1.Level = g.Level ∧ g1.Combo = g.Combo ∧ g1.B2B = g.B2B ∧ g1.NextQueue = g.NextQueue

/-- The state `g1` is returned by one call `lockPiece` on a state `g2` whose rotation flag is
false and which has the grid, score, line total, level, combo and back-to-back flag of `g` and as active
piece the piece `p` at some position. -/
def LockedWithFlagFalse (c : Chance) (g : Game) (p : Piece) (g1 : Game) : Prop :=
  ∃ (g2 : Game) (pos : Point),
    g2.LastMoveWasRotation = false ∧ g2.Current = some { p with Position := pos } ∧
    g2.Playfield = g.Playfield ∧ g2.Score = g.Score ∧ g2.LinesCleared = g.LinesCleared ∧
    g2.Level = g.Level ∧ g2.Combo = g.Combo ∧ g2.B2B = g.B2B ∧ lockPiece c g2 = some g1

/-- The call `lockPiece` on a state `g2` whose rotation flag is false and which has the grid,
score, line total, level, combo and back-to-back flag of `g` and as active piece the piece `p`
at some position does not return: it panics in `adjustGravity`. -/
def PanickedWithFlagFalse (c : Chance) (g : Game) (p : Piece) : Prop :=
  ∃ (g2 : Game) (pos : Point),
    g2.LastMoveWasRotation = false ∧ g2.Current = some { p with Position := pos } ∧
    g2.Playfield = g.Playfield ∧ g2.Score = g.Score ∧ g2.LinesCleared = g.LinesCleared ∧
    g2.Level = g.Level ∧ g2.Combo = g.Combo ∧ g2.B2B = g.B2B ∧ lockPiece c g2 = none

/-- A T piece on the floor in the left corner, with the rotation flag set: row 0 holds locked
cells in the columns 3 to 9, so that the piece completes it, and 3 of the 4 corners of the pivot
are outside the grid. -/
def tspinGame : Game :=
  { freshGame with
    Playfield := fun x y => if y = 0 ∧ 3 ≤ x then 1 else 0,
    Current := some cornerT, NextQueue := [O, T], LastMoveWasRotation := true }

/-! ## The own corner of the T piece: stated values and concrete states -/

/-- The number of occupied corners among the three other than `(cx + 1, cy + 1)`. -/
def otherCorners (g : Game) (p : Piece) : Nat :=
  let cx := p.Position.X + 1
  let cy := p.Position.Y + 1
  (([⟨cx - 1, cy - 1⟩, ⟨cx + 1, cy - 1⟩, ⟨cx - 1, cy + 1⟩] : List Point).filter
    fun c => cornerOccupied g.Playfield c.X c.Y).length

/-- A T piece in rotation state 0 against the left wall, covering the cells (0,1), (1,1), (2,1)
and, with its stem, (1,2); its pivot is the cell (0,1). -/
def stemT : Piece := ⟨T, 0, ⟨-1, 0⟩, ⟨⟨1, 1⟩, ⟨2, 1⟩, ⟨3, 1⟩, ⟨2, 2⟩⟩⟩

/-- The piece `stemT` active with the rotation flag set: it rests on the locked cells (0,0) and
(2,0), the cell (1,0) under its middle is empty, and row 1 holds locked cells in the columns
3 to 9, so that the piece completes row 1. -/
def stemGame : Game :=
  { freshGame with
    Playfield := fun x y =>
      if y = 1 ∧ 3 ≤ x then 1 else if y = 0 ∧ (x = 0 ∨ x = 2) then 1 else 0,
    Current := some stemT, NextQueue := [O, T], LastMoveWasRotation := true }

/-! ## Runs that end in the panic of `adjustGravity` -/

/-- The chances that an operation passes to `lockPiece`. -/
def opChances : Op → List Chance
  | Op.softDrop c => [c]
  | Op.hardDrop c => [c]
  | Op.ApplyGravity c1 c2 => [c1, c2]
  | _ => []

/-- The chances that an event passes to `lockPiece`. -/
def eventChances : Event → List Chance
  | Event.input _ c _ => [c]
  | Event.gravity c1 c2 => [c1, c2]
  | Event.tick c1 c2 => [c1, c2]

/-- A lock made in the state `g` panics in `adjustGravity`: for one of the chances `cs` and the
active piece of `g` at some position, the rows cleared raise the level to one whose gravity
interval is not positive. -/
def PanicsIn (cs : List Chance) (g : Game) : Prop :=
  ∃ c ∈ cs, ∃ (p : Piece) (pos : Point),
    g.Current = some p ∧ LevelUpPanics g (lockedRows c g { p with Position := pos })

/-- The result `r` of a call made in the state `g` is a state that satisfies `P`, or the call
ended in the panic of `adjustGravity`. -/
def ReturnsOrPanics (cs : List Chance) (g : Game) (r : Option Game) (P : Game → Prop) : Prop :=
  (∃ g1, r = some g1 ∧ P g1) ∨ (r = none ∧ PanicsIn cs g)

/-- The run of `ops` from `g` ends in the panic of `adjustGravity`: some operations of the list
return a state `g1` that satisfies `P`, and the next operation panics there. -/
def OpsPanic (ops : List Op) (g : Game) (P : Game → Prop) : Prop :=
  ∃ (pre : List Op) (op : Op) (post : List Op) (g1 : Game),
    ops = pre ++ op :: post ∧ runOps pre g = some g1 ∧ P g1 ∧ runOp op g1 = none ∧
    PanicsIn (opChances op) g1

/-- The run of `events` from `g` ends in the panic of `adjustGravity`: some events of the list
return a state `g1` that satisfies `P`, and the next event panics there. -/
def EventsPanic (events : List Event) (g : Game) (P : Game → Prop) : Prop :=
  ∃ (pre : List Event) (e : Event) (post : List Event) (g1 : Game),
    events = pre ++ e :: post ∧ runEvents pre g = some g1 ∧ P g1 ∧ runEvent e g1 = none ∧
    PanicsIn (eventChances e) g1

/-- The queue and the active piece are well shaped and the active piece does not collide during
play. -/
abbrev Sound (g : Game) : Prop := Shaped g ∧ Free g

/-! ## Scoring: lemmas -/

theorem updateScore_zero (g : Game) (p : Piece) : updateScore g 0 p = g := by
  simp [updateScore]

theorem updateScore_score (g : Game) (n : Int) (p : Piece) (hn : 0 < n) :
    (updateScore g n p).Score = g.Score + ptsBeforeCombo g n p + comboPoints g.Combo g.Level := by
  have h0 : n ≠ 0 := by omega
  have h1 : (g.Combo + 1 > 1) ↔ 1 ≤ g.Combo := by constructor <;> intro h <;> omega
  simp only [updateScore, ptsBeforeCombo, comboPoints, basePts, isTspinOf, comboBonus, h0, hn,
    if_true, if_false, h1]
  split_ifs <;> simp <;> ring

theorem updateScore_combo_field (g : Game) (n : Int) (p : Piece) (hn : 0 < n) :
    (updateScore g n p).Combo = g.Combo + 1 := by
  have h0 : n ≠ 0 := by omega
  simp [updateScore, h0, hn]

theorem updateScore_b2b_field (g : Game) (n : Int) (p : Piece) (hn : 0 < n) :
    (updateScore g n p).B2B = (decide (n = 4) || isTspinOf g p) := by
  have h0 : n ≠ 0 := by omega
  simp only [updateScore, isTspinOf, h0, hn, if_true, if_false]
  split_ifs with h <;> simp_all

theorem updateScore_frame (g : Game) (n : Int) (p : Piece) :
    (updateScore g n p).Playfield = g.Playfield ∧ (updateScore g n p).Level = g.Level ∧
    (updateScore g n p).LastMoveWasRotation = g.LastMoveWasRotation := by
  unfold updateScore
  split_ifs <;> simp

theorem isTspinOf_updateScore (g : Game) (n : Int) (q p : Piece) :
    isTspinOf (updateScore g n q) p = isTspinOf g p := by
  obtain ⟨h1, _, h3⟩ := updateScore_frame g n q
  simp [isTspinOf, detectTSpin, h1, h3]

theorem timesOneAndHalf_floor (pts : Int) (h : 0 ≤ pts) :
    timesOneAndHalf pts = ⌊(3 / 2 : ℚ) * (pts : ℚ)⌋ := by
  unfold timesOneAndHalf
  rw [Int.tdiv_eq_ediv (by omega) (by norm_num)]
  symm
  rw [Int.floor_eq_iff]
  have h2 : ((pts * 3 / 2 : Int) : ℚ) * 2 ≤ (pts : ℚ) * 3 := by
    have := Int.ediv_mul_le (pts * 3) (show (2 : Int) ≠ 0 by norm_num)
    exact_mod_cast this
  have h3 : (pts : ℚ) * 3 < ((pts * 3 / 2 : Int) : ℚ) * 2 + 2 := by
    have := Int.lt_ediv_add_one_mul_self (pts * 3) (show (0 : Int) < 2 by norm_num)
    have h4 : pts * 3 < (pts * 3 / 2) * 2 + 2 := by linarith
    exact_mod_cast h4
  constructor <;> linarith


theorem countOccupied_fold (f : Grid) (l : List Point) (k : Int) :
    l.foldl
        (fun occupied c =>
          if c.X < 0 ∨ c.X ≥ PlayWidth ∨ c.Y < 0 ∨ c.Y ≥ TotalHeight ∨ f c.X c.Y ≠ 0
          then occupied + 1 else occupied)
        k
      = k + ((l.filter fun c => cornerOccupied f c.X c.Y).length : Int) := by
  induction l generalizing k with
  | nil => simp
  | cons c rest ih =>
    rw [List.foldl_cons, ih]
    by_cases h : c.X < 0 ∨ c.X ≥ PlayWidth ∨ c.Y < 0 ∨ c.Y ≥ TotalHeight ∨ f c.X c.Y ≠ 0
    · have hc : cornerOccupied f c.X c.Y = true := by
        simpa [cornerOccupied] using h
      rw [if_pos h]
      simp only [List.filter_cons, hc, if_true, List.length_cons]
      push_cast
      ring
    · have hc : ¬ (cornerOccupied f c.X c.Y = true) := by
        simpa [cornerOccupied] using h
      rw [if_neg h]
      simp only [List.filter_cons, hc, if_false]
      simp

theorem detectTSpin_eq (g : Game) (p : Piece) :
    detectTSpin g p = (g.LastMoveWasRotation && decide (3 ≤ occupiedCorners g p)) := by
  cases hflag : g.LastMoveWasRotation
  · simp [detectTSpin, hflag]
  · simp only [detectTSpin, hflag, occupiedCorners, Bool.not_true, Bool.false_eq_true, if_false,
      Bool.true_and, countOccupied_fold, zero_add]
    congr 1
    simp only [ge_iff_le, eq_iff_iff]
    constructor <;> intro h
    · exact_mod_cast h
    · exact_mod_cast h

theorem basePts_nonneg (t : Bool) (n : Int) : 0 ≤ basePts t n := by
  unfold basePts basePoints
  split_ifs <;> norm_num

theorem timesOneAndHalf_even (k : Int) : timesOneAndHalf (2 * k) = 3 * k := by
  unfold timesOneAndHalf
  have h : 2 * k * 3 = (3 * k) * 2 := by ring
  rw [h, Int.mul_tdiv_cancel _ (by norm_num)]

/-! ## Scoring: the claims -/

/-- C3 (evaluation of the code): with a combo counter of 2, `updateScore` with
`linesCleared = 0` returns before the combo reset, so the counter is still 2 (and the score is
unchanged), and a single-line clear that follows receives the combo bonus 2 * 50 * level = 100
on top of its 100 base points. -/
theorem updateScore_zero_lines_keeps_combo :
    (updateScore { freshGame with Combo := 2 } 0 cornerO).Combo = 2 ∧
    (updateScore { freshGame with Combo := 2 } 0 cornerO).Score = 0 ∧
    (updateScore (updateScore { freshGame with Combo := 2 } 0 cornerO) 1 cornerO).Score = 200 := by
  decide

/-- C4: for a clear of 1, 2, 3 or 4 lines that is not a T-spin, at any level (in particular at
every level >= 1) with prior combo 0 and back-to-back false, `updateScore` adds exactly 100, 300,
500 or 800 times the level; a single line at level 1 adds exactly 100. -/
theorem updateScore_plain_clear_points (g : Game) (n : Int) (p : Piece)
    (hn : n = 1 ∨ n = 2 ∨ n = 3 ∨ n = 4)
    (ht : ¬ (p.ID = T ∧ detectTSpin g p = true)) (hc : g.Combo = 0) (hb : g.B2B = false) :
    (n = 1 → (updateScore g n p).Score = g.Score + 100 * g.Level) ∧
    (n = 2 → (updateScore g n p).Score = g.Score + 300 * g.Level) ∧
    (n = 3 → (updateScore g n p).Score = g.Score + 500 * g.Level) ∧
    (n = 4 → (updateScore g n p).Score = g.Score + 800 * g.Level) ∧
    (n = 1 → g.Level = 1 → (updateScore g n p).Score = g.Score + 100) := by
  have hpos : 0 < n := by omega
  have hts : isTspinOf g p = false := by
    simp only [isTspinOf, Bool.and_eq_false_iff, decide_eq_false_iff_not]
    by_cases h : p.ID = T
    · right
      simpa [h] using ht
    · left
      exact h
  have hs := updateScore_score g n p hpos
  simp only [ptsBeforeCombo, hts, hb, comboPoints, hc, basePts, basePoints] at hs
  refine ⟨?_, ?_, ?_, ?_, ?_⟩
  · intro h
    rw [hs]
    simp [h]
  · intro h
    rw [hs]
    simp [h]
  · intro h
    rw [hs]
    simp [h]
  · intro h
    rw [hs]
    simp [h]
  · intro h h1
    rw [hs]
    simp [h, h1]

/-- Witness for C4: a single line at level 1 in a fresh game adds 100. -/
theorem updateScore_plain_clear_points_witness :
    (updateScore freshGame 1 cornerO).Score = freshGame.Score + 100 :=
  (updateScore_plain_clear_points freshGame 1 cornerO (by decide) (by decide) (by decide)
    (by decide)).2.2.2.2 (by decide) (by decide)

/-- C5: a clearing lock with prior combo `c` sets the combo counter to `c + 1`; when `c >= 1` the
score grows by the level-multiplied, back-to-back adjusted base points plus `c * 50 * level`, and
when `c = 0` by those points alone; a single line that is not a T-spin at level 1 with prior
combo 1 and back-to-back false adds exactly 150. -/
theorem updateScore_combo_bonus (g : Game) (n : Int) (p : Piece) (hn : 0 < n) :
    (updateScore g n p).Combo = g.Combo + 1 ∧
    (1 ≤ g.Combo →
      (updateScore g n p).Score = g.Score + ptsBeforeCombo g n p + g.Combo * 50 * g.Level) ∧
    (g.Combo = 0 → (updateScore g n p).Score = g.Score + ptsBeforeCombo g n p) ∧
    (n = 1 → isTspinOf g p = false → g.Level = 1 → g.Combo = 1 → g.B2B = false →
      (updateScore g n p).Score = g.Score + 150) := by
  have hs := updateScore_score g n p hn
  refine ⟨updateScore_combo_field g n p hn, ?_, ?_, ?_⟩
  · intro hc
    rw [hs]
    simp [comboPoints, hc]
  · intro hc
    rw [hs]
    simp [comboPoints, hc]
  · intro h1 ht hl hc hb
    rw [hs]
    simp [ptsBeforeCombo, basePts, basePoints, comboPoints, h1, ht, hl, hc, hb]
    ring

/-- Witness for C5: a single line at level 1 with prior combo 1 adds 150. -/
theorem updateScore_combo_bonus_witness :
    (updateScore { freshGame with Combo := 1 } 1 cornerO).Score = 0 + 150 :=
  (updateScore_combo_bonus { freshGame with Combo := 1 } 1 cornerO (by decide)).2.2.2
    (by decide) (by decide) (by decide) (by decide) (by decide)

/-- C6: at level >= 1, for a Tetris or a T-spin with back-to-back already true, the points
before the combo bonus are the floor of 1.5 * base * level; with back-to-back false, or for a clear
that is neither a Tetris nor a T-spin, they are base * level; a Tetris that is not a T-spin at
level 1 with back-to-back true adds 1200 plus the combo bonus. -/
theorem updateScore_back_to_back (g : Game) (n : Int) (p : Piece) (hn : 0 < n)
    (hl : 1 ≤ g.Level) :
    ((n = 4 ∨ isTspinOf g p = true) → g.B2B = true →
      (updateScore g n p).Score
        = g.Score + ⌊(3 / 2 : ℚ) * ((basePts (isTspinOf g p) n * g.Level : Int) : ℚ)⌋
          + comboPoints g.Combo g.Level) ∧
    ((g.B2B = false ∨ (n ≠ 4 ∧ isTspinOf g p = false)) →
      (updateScore g n p).Score
        = g.Score + basePts (isTspinOf g p) n * g.Level + comboPoints g.Combo g.Level) ∧
    (n = 4 → isTspinOf g p = false → g.Level = 1 → g.B2B = true →
      (updateScore g n p).Score = g.Score + 1200 + comboPoints g.Combo g.Level) := by
  have hs := updateScore_score g n p hn
  refine ⟨?_, ?_, ?_⟩
  · intro hq hb
    have hnn : 0 ≤ basePts (isTspinOf g p) n * g.Level :=
      Int.mul_nonneg (basePts_nonneg _ _) (by omega)
    rw [hs, ptsBeforeCombo, if_pos ⟨hq, hb⟩, timesOneAndHalf_floor _ hnn]
  · intro h
    have hq : ¬ ((n = 4 ∨ isTspinOf g p = true) ∧ g.B2B = true) := by
      rcases h with h | ⟨h1, h2⟩
      · simp [h]
      · simp [h1, h2]
    rw [hs, ptsBeforeCombo, if_neg hq]
  · intro h4 ht h1 hb
    rw [hs, ptsBeforeCombo, if_pos ⟨Or.inl h4, hb⟩]
    have h800 : basePts (isTspinOf g p) n * g.Level = 2 * 400 := by
      simp [basePts, basePoints, h4, ht, h1]
    rw [h800, timesOneAndHalf_even]
    norm_num

/-- Witness for C6: a Tetris at level 1 with back-to-back true and combo 0 adds 1200. -/
theorem updateScore_back_to_back_witness :
    (updateScore { freshGame with B2B := true } 4 cornerO).Score
      = 0 + 1200 + comboPoints 0 1 :=
  (updateScore_back_to_back { freshGame with B2B := true } 4 cornerO (by decide)
    (by decide)).2.2 (by decide) (by decide) (by decide) (by decide)

theorem runScores_append (g : Game) (a b : List (Int × Piece)) :
    runScores g (a ++ b) = runScores (runScores g a) b := by
  simp [runScores, List.foldl_append]

theorem runScores_zero_lines (g : Game) (zs : List Piece) :
    runScores g (zs.map fun q => (0, q)) = g := by
  induction zs with
  | nil => rfl
  | cons q rest ih =>
    simp only [runScores, List.map_cons, List.foldl_cons, updateScore_zero] at ih ⊢
    exact ih

/-- C7: after a clearing lock the back-to-back flag is true iff the clear was a Tetris or a
T-spin, and a zero-line lock leaves the flag unchanged; so in Tetris, single line (no T-spin),
Tetris the second Tetris scores 800 * level plus the combo bonus, and in Tetris, any number of
zero-line locks, Tetris it scores 1200 * level plus the combo bonus. -/
theorem updateScore_b2b_tracking :
    (∀ (g : Game) (n : Int) (p : Piece), 0 < n →
      ((updateScore g n p).B2B = true ↔ (n = 4 ∨ isTspinOf g p = true))) ∧
    (∀ (g : Game) (p : Piece), (updateScore g 0 p).B2B = g.B2B) ∧
    (∀ (g : Game) (p1 p2 p3 : Piece), isTspinOf g p2 = false → isTspinOf g p3 = false →
      (updateScore (runScores g [(4, p1), (1, p2)]) 4 p3).Score
        = (runScores g [(4, p1), (1, p2)]).Score + 800 * g.Level
          + comboPoints (runScores g [(4, p1), (1, p2)]).Combo g.Level) ∧
    (∀ (g : Game) (p1 p3 : Piece) (zs : List Piece), isTspinOf g p3 = false →
      (updateScore (runScores g ((4, p1) :: zs.map fun q => (0, q))) 4 p3).Score
        = (runScores g ((4, p1) :: zs.map fun q => (0, q))).Score + 1200 * g.Level
          + comboPoints (runScores g ((4, p1) :: zs.map fun q => (0, q))).Combo g.Level) := by
  refine ⟨?_, ?_, ?_, ?_⟩
  · intro g n p hn
    rw [updateScore_b2b_field g n p hn]
    simp
  · intro g p
    rw [updateScore_zero]
  · intro g p1 p2 p3 h2 h3
    have e : runScores g [(4, p1), (1, p2)] = updateScore (updateScore g 4 p1) 1 p2 := rfl
    rw [e, updateScore_score _ 4 p3 (by norm_num)]
    have hb : (updateScore (updateScore g 4 p1) 1 p2).B2B = false := by
      rw [updateScore_b2b_field _ 1 p2 (by norm_num), isTspinOf_updateScore, h2]
      decide
    have ht : isTspinOf (updateScore (updateScore g 4 p1) 1 p2) p3 = false := by
      rw [isTspinOf_updateScore, isTspinOf_updateScore, h3]
    have hlv : (updateScore (updateScore g 4 p1) 1 p2).Level = g.Level := by
      rw [(updateScore_frame _ 1 p2).2.1, (updateScore_frame g 4 p1).2.1]
    simp [ptsBeforeCombo, hb, ht, hlv, basePts, basePoints]
  · intro g p1 p3 zs h3
    have e : runScores g ((4, p1) :: zs.map fun q => (0, q)) = updateScore g 4 p1 := by
      have := runScores_append g [(4, p1)] (zs.map fun q => (0, q))
      simp only [List.singleton_append] at this
      rw [this, runScores_zero_lines]
      rfl
    rw [e, updateScore_score _ 4 p3 (by norm_num)]
    have hb : (updateScore g 4 p1).B2B = true := by
      rw [updateScore_b2b_field _ 4 p1 (by norm_num)]
      simp
    have ht : isTspinOf (updateScore g 4 p1) p3 = false := by
      rw [isTspinOf_updateScore, h3]
    have hlv : (updateScore g 4 p1).Level = g.Level := (updateScore_frame g 4 p1).2.1
    have h800 : (800 : Int) * g.Level = 2 * (400 * g.Level) := by ring
    simp only [ptsBeforeCombo, hb, ht, hlv, basePts, basePoints]
    simp only [true_or, and_self, if_true, Bool.false_eq_true, if_false]
    norm_num
    rw [h800, timesOneAndHalf_even]
    ring

/-- Witness for C7: Tetris, single line, Tetris from a fresh game at level 1: the second
Tetris adds 800 and the combo bonus for a prior combo of 2. -/
theorem updateScore_b2b_tracking_witness :
    (updateScore (runScores freshGame [(4, cornerO), (1, cornerO)]) 4 cornerO).Score
      = (runScores freshGame [(4, cornerO), (1, cornerO)]).Score + 800 * freshGame.Level
        + comboPoints (runScores freshGame [(4, cornerO), (1, cornerO)]).Combo freshGame.Level :=
  updateScore_b2b_tracking.2.2.1 freshGame cornerO cornerO cornerO (by decide) (by decide)

theorem move_clears_rotation_flag (g g1 : Game)
    (h : moveLeft g = some g1 ∨ moveRight g = some g1) : g1.LastMoveWasRotation = false := by
  rcases h with h | h
  · unfold moveLeft at h
    cases hc : g.Current with
    | none => simp [hc] at h
    | some p =>
      simp only [hc] at h
      split_ifs at h <;> simp only [Option.some.injEq] at h <;> rw [← h]
  · unfold moveRight at h
    cases hc : g.Current with
    | none => simp [hc] at h
    | some p =>
      simp only [hc] at h
      split_ifs at h <;> simp only [Option.some.injEq] at h <;> rw [← h]

/-- C8: for a locked T piece and 1, 2 or 3 lines: with the rotation flag set and at least 3 of
the 4 diagonal corners of the pivot position + (1,1) occupied (out of bounds or a locked cell),
`updateScore` scores the T-spin base 800, 1200 or 1600 times the level (with the back-to-back
adjustment a T-spin is entitled to); with the rotation flag false, as it is in every state
returned by `moveLeft` or `moveRight`, it scores the base 100, 300 or 500 times the level whatever
the corners hold; a piece that is not a T is never a T-spin and scores the base 100, 300 or 500
as well. The combo bonus is added in each case. -/
theorem updateScore_tspin_base (g : Game) (n : Int) (p : Piece) (hT : p.ID = T)
    (hn : n = 1 ∨ n = 2 ∨ n = 3) :
    (g.LastMoveWasRotation = true → 3 ≤ occupiedCorners g p →
      (updateScore g n p).Score
        = g.Score
          + (if g.B2B = true
             then timesOneAndHalf ((if n = 1 then 800 else if n = 2 then 1200 else 1600) * g.Level)
             else (if n = 1 then 800 else if n = 2 then 1200 else 1600) * g.Level)
          + comboPoints g.Combo g.Level) ∧
    (g.LastMoveWasRotation = false →
      (updateScore g n p).Score
        = g.Score + (if n = 1 then 100 else if n = 2 then 300 else 500) * g.Level
          + comboPoints g.Combo g.Level) ∧
    (∀ g0 : Game, (moveLeft g0 = some g ∨ moveRight g0 = some g) →
      g.LastMoveWasRotation = false) ∧
    (∀ q : Piece, q.ID ≠ T →
      isTspinOf g q = false ∧
      (updateScore g n q).Score
        = g.Score + (if n = 1 then 100 else if n = 2 then 300 else 500) * g.Level
          + comboPoints g.Combo g.Level) := by
  have hpos : 0 < n := by omega
  have h4 : n ≠ 4 := by omega
  have plain : ∀ q : Piece, isTspinOf g q = false →
      (updateScore g n q).Score
        = g.Score + (if n = 1 then 100 else if n = 2 then 300 else 500) * g.Level
          + comboPoints g.Combo g.Level := by
    intro q hq
    rw [updateScore_score g n q hpos]
    simp only [ptsBeforeCombo, hq, h4, basePts, basePoints, Bool.false_eq_true, or_self,
      false_and, if_false]
    rcases hn with h | h | h <;> simp [h]
  refine ⟨?_, ?_, fun g0 h0 => move_clears_rotation_flag g0 g h0, ?_⟩
  · intro hflag hc
    have ht : isTspinOf g p = true := by
      simp [isTspinOf, hT, detectTSpin_eq, hflag, hc]
    rw [updateScore_score g n p hpos]
    simp only [ptsBeforeCombo, ht, basePts, or_true, true_and, if_true]
    rcases hn with h | h | h <;> simp [h]
  · intro hflag
    apply plain
    simp [isTspinOf, detectTSpin_eq, hflag]
  · intro q hq
    have ht : isTspinOf g q = false := by
      simp [isTspinOf, hq]
    exact ⟨ht, plain q ht⟩

/-- Witness for C8: a T piece in the bottom-left corner after a rotation has 3 occupied corners
(all out of bounds) and a single line scores 800 at level 1. -/
theorem updateScore_tspin_base_witness :
    (updateScore rotatedGame 1 cornerT).Score
      = rotatedGame.Score
        + (if rotatedGame.B2B = true
           then timesOneAndHalf
             ((if (1 : Int) = 1 then 800 else if (1 : Int) = 2 then 1200 else 1600)
               * rotatedGame.Level)
           else (if (1 : Int) = 1 then 800 else if (1 : Int) = 2 then 1200 else 1600)
             * rotatedGame.Level)
        + comboPoints rotatedGame.Combo rotatedGame.Level :=
  (updateScore_tspin_base rotatedGame 1 cornerT (by decide) (by decide)).1 (by decide)
    (by decide)

/-- C9, counterexample to the claim as stated: for the T piece in the bottom-left corner after
a rotation (`detectTSpin` holds: 3 corners are out of bounds), `updateScore` with
`linesCleared = 4` at level 1 with combo 0 adds nothing to the score: the T-spin branch has no
case for 4 lines and `pts` stays 0, where the table for a Tetris has 800, which the same call
adds for an O piece. -/
theorem updateScore_tspin_four_lines :
    detectTSpin rotatedGame cornerT = true ∧
    (updateScore rotatedGame 4 cornerT).Score = rotatedGame.Score ∧
    (updateScore rotatedGame 4 cornerO).Score = rotatedGame.Score + 800 := by
  decide

/-! ## Horizontal movement -/

theorem collidesAt_iff (f : Grid) (pos : Point) (l : List Point) :
    collidesAt f pos l = true ↔
      ∃ b ∈ l, pos.X + b.X < 0 ∨ PlayWidth ≤ pos.X + b.X ∨ pos.Y + b.Y < 0 ∨
        TotalHeight ≤ pos.Y + b.Y ∨ f (pos.X + b.X) (pos.Y + b.Y) ≠ 0 := by
  induction l with
  | nil => simp [collidesAt]
  | cons b rest ih =>
    simp only [collidesAt, List.mem_cons, exists_eq_or_imp, ← ih]
    split_ifs with h1 h2 h3 h4
    · rcases h1 with h | h
      · simp [h]
      · simp [(show PlayWidth ≤ pos.X + b.X from h)]
    · simp [h2]
    · simp [(show TotalHeight ≤ pos.Y + b.Y from h3)]
    · simp [h4]
    · have a1 : ¬ pos.X + b.X < 0 := fun h => h1 (Or.inl h)
      have a2 : ¬ PlayWidth ≤ pos.X + b.X := fun h => h1 (Or.inr h)
      have a3 : ¬ TotalHeight ≤ pos.Y + b.Y := h3
      have a4 : f (pos.X + b.X) (pos.Y + b.Y) = 0 := by
        by_contra h
        exact h4 h
      simp [a1, a2, h2, a3, a4]

theorem checkCollision_iff (g : Game) (p : Piece) (hc : g.Current = some p) :
    checkCollision g = true ↔ Blocked g.Playfield p.Position p.Blocks := by
  simp only [checkCollision, hc, collidesAt_iff, Blocked]

/-- C10: for every state with an active piece `p` (in particular every Playing state): if the
piece shifted one column to the left (right) has a block outside the grid or on a non-zero cell,
`moveLeft` (`moveRight`) returns the state with the piece exactly as before; otherwise only
`Position.X` of the piece changes, by -1 (+1). In both cases nothing else changes (grid, score
state, queue, phase) and the rotation flag is false. -/
theorem move_horizontal (g : Game) (p : Piece) (hc : g.Current = some p) :
    (Blocked g.Playfield ⟨p.Position.X - 1, p.Position.Y⟩ p.Blocks →
      moveLeft g = some { g with LastMoveWasRotation := false, Current := some p }) ∧
    (¬ Blocked g.Playfield ⟨p.Position.X - 1, p.Position.Y⟩ p.Blocks →
      moveLeft g = some { g with
        LastMoveWasRotation := false,
        Current := some { p with Position := ⟨p.Position.X - 1, p.Position.Y⟩ } }) ∧
    (Blocked g.Playfield ⟨p.Position.X + 1, p.Position.Y⟩ p.Blocks →
      moveRight g = some { g with LastMoveWasRotation := false, Current := some p }) ∧
    (¬ Blocked g.Playfield ⟨p.Position.X + 1, p.Position.Y⟩ p.Blocks →
      moveRight g = some { g with
        LastMoveWasRotation := false,
        Current := some { p with Position := ⟨p.Position.X + 1, p.Position.Y⟩ } }) := by
  have hl : checkCollision { g with
        LastMoveWasRotation := false,
        Current := some { p with Position := { p.Position with X := p.Position.X - 1 } } } = true
      ↔ Blocked g.Playfield ⟨p.Position.X - 1, p.Position.Y⟩ p.Blocks :=
    checkCollision_iff _ _ rfl
  have hr : checkCollision { g with
        LastMoveWasRotation := false,
        Current := some { p with Position := { p.Position with X := p.Position.X + 1 } } } = true
      ↔ Blocked g.Playfield ⟨p.Position.X + 1, p.Position.Y⟩ p.Blocks :=
    checkCollision_iff _ _ rfl
  refine ⟨?_, ?_, ?_, ?_⟩
  · intro hb
    simp only [moveLeft, hc]
    rw [if_pos (hl.mpr hb)]
    simp only [sub_add_cancel]
  · intro hb
    simp only [moveLeft, hc]
    rw [if_neg (fun h => hb (hl.mp h))]
  · intro hb
    simp only [moveRight, hc]
    rw [if_pos (hr.mpr hb)]
    simp only [add_sub_cancel_right]
  · intro hb
    simp only [moveRight, hc]
    rw [if_neg (fun h => hb (hr.mp h))]

/-- Witness for C10: the T piece against the left wall cannot move left and may move right. -/
theorem move_horizontal_witness :
    moveLeft cornerGame
      = some { cornerGame with LastMoveWasRotation := false, Current := some cornerT } ∧
    moveRight cornerGame
      = some { cornerGame with
          LastMoveWasRotation := false,
          Current := some { cornerT with
            Position := ⟨cornerT.Position.X + 1, cornerT.Position.Y⟩ } } :=
  ⟨(move_horizontal cornerGame cornerT rfl).1 (by decide),
   (move_horizontal cornerGame cornerT rfl).2.2.2 (by decide)⟩

/-! ## Line clearing: the effect of one removal -/

theorem mem_intRange (n : Nat) (lo i : Int) : i ∈ intRange lo n ↔ lo ≤ i ∧ i < lo + n := by
  induction n generalizing lo with
  | zero =>
    simp only [intRange, List.not_mem_nil, Nat.cast_zero, add_zero, false_iff]
    omega
  | succ k ih =>
    simp only [intRange, List.mem_cons, ih, Nat.cast_succ]
    omega

theorem mem_loopRange (lo hi i : Int) : i ∈ loopRange lo hi ↔ lo ≤ i ∧ i < hi := by
  rw [loopRange, mem_intRange]
  omega

theorem intRange_nodup (n : Nat) (lo : Int) : (intRange lo n).Nodup := by
  induction n generalizing lo with
  | zero => simp [intRange]
  | succ k ih =>
    simp only [intRange, List.nodup_cons, mem_intRange]
    exact ⟨by omega, ih _⟩

theorem shiftCells_apply (y : Int) (xs : List Int) (f : Grid) (i j : Int) :
    xs.foldl (fun f x => setCell f x y (f x (y + 1))) f i j
      = if j = y ∧ i ∈ xs then f i (y + 1) else f i j := by
  induction xs generalizing f with
  | nil => simp
  | cons x rest ih =>
    rw [List.foldl_cons, ih]
    have hy : ¬ (y + 1 = y) := by omega
    simp only [setCell, hy, and_false, if_false, List.mem_cons]
    by_cases hj : j = y
    · by_cases hr : i ∈ rest
      · simp [hj, hr]
      · by_cases hx : i = x
        · simp [hj, hx]
        · simp [hj, hr, hx]
    · simp [hj]

theorem shiftRow_apply (f : Grid) (y i j : Int) :
    shiftRow f y i j = if j = y ∧ 0 ≤ i ∧ i < PlayWidth then f i (y + 1) else f i j := by
  rw [shiftRow, shiftCells_apply]
  simp only [mem_loopRange]

theorem pullCells_apply (xs : List Int) (hx : xs.Nodup) (f : Grid) (i j : Int) :
    xs.foldl
        (fun f x =>
          if VisibleHeight < TotalHeight then
            let f1 := setCell f x (VisibleHeight - 1) (f x VisibleHeight)
            setCell f1 x VisibleHeight 0
          else setCell f x (VisibleHeight - 1) 0)
        f i j
      = if i ∈ xs then
          (if j = VisibleHeight - 1 then f i VisibleHeight
           else if j = VisibleHeight then 0 else f i j)
        else f i j := by
  induction xs generalizing f with
  | nil => simp
  | cons x rest ih =>
    rw [List.foldl_cons, ih (List.nodup_cons.mp hx).2]
    have hlt : VisibleHeight < TotalHeight := by decide
    have hne : ¬ (VisibleHeight = VisibleHeight - 1) := by decide
    have hxr : x ∉ rest := (List.nodup_cons.mp hx).1
    simp only [hlt, if_true, setCell, List.mem_cons]
    by_cases hr : i ∈ rest
    · have hix : i ≠ x := fun h => hxr (h ▸ hr)
      simp [hr, hix]
    · by_cases hix : i = x
      · subst hix
        by_cases h19 : j = VisibleHeight - 1
        · subst h19
          simp [hr, hne, Ne.symm hne]
        · by_cases h20 : j = VisibleHeight
          · simp [hr, h20, hne]
          · simp [hr, h19, h20]
      · simp [hr, hix]

theorem pullHidden_apply (f : Grid) (i j : Int) :
    pullHidden f i j
      = if 0 ≤ i ∧ i < PlayWidth then
          (if j = VisibleHeight - 1 then f i VisibleHeight
           else if j = VisibleHeight then 0 else f i j)
        else f i j := by
  have hnd : (loopRange 0 PlayWidth).Nodup := intRange_nodup _ _
  unfold pullHidden
  rw [pullCells_apply _ hnd]
  simp only [mem_loopRange]

theorem shiftRows_apply (n : Nat) (r : Int) (f : Grid) (i j : Int) :
    (intRange r n).foldl shiftRow f i j
      = if (r ≤ j ∧ j < r + n) ∧ 0 ≤ i ∧ i < PlayWidth then f i (j + 1) else f i j := by
  induction n generalizing r f with
  | zero =>
    have h : ¬ ((r ≤ j ∧ j < r + ((0 : Nat) : Int)) ∧ 0 ≤ i ∧ i < PlayWidth) := by
      intro h
      have := h.1
      simp only [Nat.cast_zero, add_zero] at this
      omega
    rw [if_neg h]
    rfl
  | succ k ih =>
    rw [intRange, List.foldl_cons, ih]
    simp only [shiftRow_apply, Nat.cast_succ]
    by_cases hi : 0 ≤ i ∧ i < PlayWidth
    · by_cases hj : j = r
      · subst hj
        have h1 : ¬ (j + 1 ≤ j ∧ j < j + 1 + (k : Int)) := by omega
        have h2 : j ≤ j ∧ j < j + ((k : Int) + 1) := by omega
        simp [hi, h1, h2]
      · by_cases hj2 : r + 1 ≤ j ∧ j < r + 1 + (k : Int)
        · have h2 : r ≤ j ∧ j < r + ((k : Int) + 1) := by omega
          have h3 : ¬ (j + 1 = r) := by omega
          simp [hi, hj2, h2, h3]
        · have h2 : ¬ (r ≤ j ∧ j < r + ((k : Int) + 1)) := by omega
          simp [hi, hj, hj2, h2]
    · simp [hi]

theorem removeRow_apply (f : Grid) (r i j : Int) :
    removeRow f r i j
      = if 0 ≤ i ∧ i < PlayWidth then
          (if r ≤ j ∧ j < VisibleHeight - 1 then f i (j + 1)
           else if j = VisibleHeight - 1 then f i VisibleHeight
           else if j = VisibleHeight then 0
           else f i j)
        else f i j := by
  have hn : ∀ k : Int,
      (r ≤ k ∧ k < r + (((VisibleHeight - 1 - r).toNat : Nat) : Int))
        ↔ (r ≤ k ∧ k < VisibleHeight - 1) := by
    intro k
    unfold VisibleHeight
    omega
  rw [removeRow, pullHidden_apply, loopRange, shiftRows_apply, shiftRows_apply]
  simp only [hn]
  by_cases hi : 0 ≤ i ∧ i < PlayWidth
  · simp only [hi, and_self, and_true, if_true]
    by_cases h19 : j = VisibleHeight - 1
    · have h1 : ¬ (r ≤ VisibleHeight ∧ VisibleHeight < VisibleHeight - 1) := by
        unfold VisibleHeight
        omega
      have h2 : ¬ (r ≤ j ∧ j < VisibleHeight - 1) := by omega
      rw [if_pos h19, if_neg h1, if_neg h2, if_pos h19]
    · by_cases h20 : j = VisibleHeight
      · have h2 : ¬ (r ≤ j ∧ j < VisibleHeight - 1) := by omega
        rw [if_neg h19, if_pos h20, if_neg h2, if_neg h19, if_pos h20]
      · rw [if_neg h19, if_neg h20]
        by_cases hr : r ≤ j ∧ j < VisibleHeight - 1
        · rw [if_pos hr, if_pos hr]
        · rw [if_neg hr, if_neg hr, if_neg h19, if_neg h20]
  · simp only [hi, and_false, if_false]

/-! ## Line clearing: the claims -/

theorem findFull_mem (f : Grid) (keys : List Int) (r : Int) (h : r ∈ findFull f keys) :
    0 ≤ r ∧ r < VisibleHeight ∧ rowFull f r = true := by
  simp only [findFull, List.mem_filter, Bool.and_eq_true, Bool.not_eq_true', Bool.or_eq_false_iff,
    decide_eq_false_iff_not] at h
  obtain ⟨_, ⟨h1, h2⟩, h3⟩ := h
  exact ⟨by omega, by omega, h3⟩

theorem clearLines_count (order : List Int → List Int) (g : Game) (p : Piece) :
    (clearLines order g p).2 = (findFull g.Playfield (order (rowKeys p))).length := by
  simp only [clearLines]
  split_ifs with h
  · simp [h]
  · rfl

theorem clearLines_field (order : List Int → List Int) (g : Game) (p : Piece) :
    (clearLines order g p).1.Playfield
      = (findFull g.Playfield (order (rowKeys p))).foldl removeRow g.Playfield := by
  simp only [clearLines]
  split_ifs with h
  · rw [List.length_eq_zero.mp h]
    rfl
  · rfl

/-- C1 (evaluation of the code): `cornerO` has completed rows 0 and 1 and row 2 holds one cell.
Removing the rows from lowest to highest, `clearLines` reports 2 lines, yet row 0 of the result
is still full (it holds the former row 1), row 1 is empty (the former row 2 with its cell is
lost), and so the result is not the former non-full visible rows in their order. -/
theorem clearLines_two_rows_ascending :
    findFull twoRowGame.Playfield (ascending (rowKeys cornerO)) = [0, 1] ∧
    (clearLines ascending twoRowGame cornerO).2 = 2 ∧
    rowFull (clearLines ascending twoRowGame cornerO).1.Playfield 0 = true ∧
    (∀ x : Int, 0 ≤ x → x < PlayWidth →
      (clearLines ascending twoRowGame cornerO).1.Playfield x 1 = 0) ∧
    ¬ CompactedInOrder twoRowGame.Playfield
        (clearLines ascending twoRowGame cornerO).1.Playfield [0, 1] := by
  have hfull : findFull twoRowGame.Playfield (ascending (rowKeys cornerO)) = [0, 1] := by
    decide
  have hnew : ∀ x y : Int, (clearLines ascending twoRowGame cornerO).1.Playfield x y
      = removeRow (removeRow twoRowGame.Playfield 0) 1 x y := by
    intro x y
    rw [clearLines_field, hfull]
    rfl
  have hv : VisibleHeight = 20 := rfl
  have hw : PlayWidth = 10 := rfl
  refine ⟨hfull, ?_, ?_, ?_, ?_⟩
  · rw [clearLines_count, hfull]
    rfl
  · simp only [rowFull, List.all_eq_true, mem_loopRange]
    intro x hx
    rw [hnew]
    simp only [removeRow_apply, hx, and_self, if_true, hv, twoRowGame]
    norm_num
    split_ifs <;> norm_num
  · intro x h0 h1
    rw [hnew]
    simp only [removeRow_apply, h0, h1, and_self, if_true, hv, twoRowGame]
    norm_num
  · intro h
    have h5 := h 0 2 (by decide) 0 (by decide) (by decide)
    rw [Nat.cast_zero, hnew] at h5
    simp only [removeRow_apply, hv, hw, twoRowGame] at h5
    norm_num at h5

/-- C2, as amended: when `r` is the single row removed by `clearLines`, it is a visible row, the
count returned is 1, and in every column: each row `y` with `r ≤ y < VisibleHeight` holds the
former row `y + 1`, the row `VisibleHeight` (the lowest hidden row) is zero, the hidden rows above
`VisibleHeight` are unchanged, and the rows below `r` are unchanged. -/
theorem clearLines_single_row (order : List Int → List Int) (g : Game) (p : Piece) (r : Int)
    (h : findFull g.Playfield (order (rowKeys p)) = [r]) :
    (0 ≤ r ∧ r < VisibleHeight ∧ rowFull g.Playfield r = true) ∧
    (clearLines order g p).2 = 1 ∧
    ∀ x y : Int, 0 ≤ x → x < PlayWidth →
      (r ≤ y → y < VisibleHeight →
        (clearLines order g p).1.Playfield x y = g.Playfield x (y + 1)) ∧
      (y = VisibleHeight → (clearLines order g p).1.Playfield x y = 0) ∧
      (VisibleHeight < y → (clearLines order g p).1.Playfield x y = g.Playfield x y) ∧
      (y < r → (clearLines order g p).1.Playfield x y = g.Playfield x y) := by
  have hr := findFull_mem g.Playfield (order (rowKeys p)) r (by rw [h]; exact List.mem_singleton_self r)
  have hnew : ∀ x y : Int, (clearLines order g p).1.Playfield x y
      = removeRow g.Playfield r x y := by
    intro x y
    rw [clearLines_field, h]
    rfl
  refine ⟨hr, by rw [clearLines_count, h]; rfl, ?_⟩
  intro x y hx0 hx1
  have hx : 0 ≤ x ∧ x < PlayWidth := ⟨hx0, hx1⟩
  obtain ⟨hr0, hr1, _⟩ := hr
  refine ⟨?_, ?_, ?_, ?_⟩
  · intro h1 h2
    rw [hnew, removeRow_apply, if_pos hx]
    by_cases h3 : y < VisibleHeight - 1
    · rw [if_pos ⟨h1, h3⟩]
    · have h4 : y = VisibleHeight - 1 := by omega
      have h5 : ¬ (r ≤ y ∧ y < VisibleHeight - 1) := fun hh => h3 hh.2
      rw [if_neg h5, if_pos h4, h4, sub_add_cancel]
  · intro h1
    have h5 : ¬ (r ≤ y ∧ y < VisibleHeight - 1) := by omega
    have h6 : ¬ (y = VisibleHeight - 1) := by omega
    rw [hnew, removeRow_apply, if_pos hx, if_neg h5, if_neg h6, if_pos h1]
  · intro h1
    have h5 : ¬ (r ≤ y ∧ y < VisibleHeight - 1) := by omega
    have h6 : ¬ (y = VisibleHeight - 1) := by omega
    have h7 : ¬ (y = VisibleHeight) := by omega
    rw [hnew, removeRow_apply, if_pos hx, if_neg h5, if_neg h6, if_neg h7]
  · intro h1
    have h5 : ¬ (r ≤ y ∧ y < VisibleHeight - 1) := by omega
    have h6 : ¬ (y = VisibleHeight - 1) := by omega
    have h7 : ¬ (y = VisibleHeight) := by omega
    rw [hnew, removeRow_apply, if_pos hx, if_neg h5, if_neg h6, if_neg h7]

/-- Witness for C2 as amended: removing the full row 0 of `hiddenBlockGame` leaves the hidden
cell at column 0, row 22 where it was. -/
theorem clearLines_single_row_witness :
    (clearLines ascending hiddenBlockGame flatI).1.Playfield 0 22
      = hiddenBlockGame.Playfield 0 22 :=
  ((clearLines_single_row ascending hiddenBlockGame flatI 0 (by decide)).2.2 0 22 (by decide)
    (by decide)).2.2.1 (by decide)

/-- C2, counterexample to the claim as stated: row 0 of `hiddenBlockGame` is the single row
removed, but the hidden rows are not shifted: row 21 does not take the former row 22. -/
theorem clearLines_hidden_rows_not_shifted :
    findFull hiddenBlockGame.Playfield (ascending (rowKeys flatI)) = [0] ∧
    ¬ ShiftedWholeStack hiddenBlockGame.Playfield
        (clearLines ascending hiddenBlockGame flatI).1.Playfield 0 := by
  have hfull : findFull hiddenBlockGame.Playfield (ascending (rowKeys flatI)) = [0] := by
    decide
  refine ⟨hfull, ?_⟩
  intro h
  have h5 := (h 0 21 (by decide) (by decide) (by decide) (by decide)).1 (by decide) (by decide)
  have hnew : (clearLines ascending hiddenBlockGame flatI).1.Playfield 0 21
      = removeRow hiddenBlockGame.Playfield 0 0 21 := by
    rw [clearLines_field, hfull, List.foldl_cons, List.foldl_nil]
  have hv : VisibleHeight = 20 := rfl
  have hw : PlayWidth = 10 := rfl
  rw [hnew, removeRow_apply] at h5
  simp only [hv, hw, hiddenBlockGame] at h5
  norm_num at h5

/-! ## Gravity interval: the claims -/

/-- C15 (evaluation of the code): at level 28 `gravityForLevel` returns 0 and at level 29 it
returns a negative duration, both below the 1/60 second (16666666 ns) that it returns from level
30 on; neither is a positive ticker interval. -/
theorem gravityForLevel_not_positive :
    gravityForLevel 28 = 0 ∧ gravityForLevel 29 = -16666666 ∧ gravityForLevel 30 = 16666666 := by
  decide

theorem gravityForLevel_tdiv (level : Int) :
    gravityForLevel level = Int.tdiv (1000000000 * gravityTicks level) 60 := by
  unfold gravityForLevel gravityTicks Second
  split_ifs
  · congr 1
    ring
  · congr 1
    ring
  · rfl
  · rfl

/-- C16, as amended: for every level >= 1 other than 29, `gravityForLevel` is the floor of
`10^9 * n / 60` nanoseconds, `n` being 48 - 5 * level for the levels 1 to 9,
28 - 2 * (level - 10) for 10 to 19, 8 - (level - 20) for 20 to 29 and 1 from 30 on. -/
theorem gravityForLevel_floor (level : Int) (h1 : 1 ≤ level) (h29 : level ≠ 29) :
    gravityForLevel level = ⌊((1000000000 * gravityTicks level : Int) : ℚ) / 60⌋ := by
  have hn : 0 ≤ 1000000000 * gravityTicks level := by
    unfold gravityTicks
    split_ifs <;> omega
  have h60 : ((1000000000 * gravityTicks level : Int) : ℚ) / 60
      = ((1000000000 * gravityTicks level : Int) : ℚ) / ((60 : ℕ) : ℚ) := by
    norm_num
  rw [gravityForLevel_tdiv, h60, Rat.floor_intCast_div_natCast, Int.tdiv_eq_ediv hn (by norm_num)]
  rfl

/-- Witness for C16 as amended: level 1 lasts floor(10^9 * 43 / 60) nanoseconds. -/
theorem gravityForLevel_floor_witness :
    gravityForLevel 1 = ⌊((1000000000 * gravityTicks 1 : Int) : ℚ) / 60⌋ :=
  gravityForLevel_floor 1 (by decide) (by decide)

/-- C16, counterexample to the claim as stated: at level 29, where n = 8 - (29 - 20) = -1, the
division of the code truncates toward zero and gives -16666666, which is not the floor
-16666667 of `10^9 * n / 60`. -/
theorem gravityForLevel_level29_not_floor :
    gravityTicks 29 = -1 ∧ gravityForLevel 29 = -16666666 ∧
    ⌊((1000000000 * gravityTicks 29 : Int) : ℚ) / 60⌋ = -16666667 ∧
    gravityForLevel 29 ≠ ⌊((1000000000 * gravityTicks 29 : Int) : ℚ) / 60⌋ := by
  have hfl : ⌊((1000000000 * gravityTicks 29 : Int) : ℚ) / 60⌋ = -16666667 := by
    have ht : gravityTicks 29 = -1 := by decide
    rw [ht, Int.floor_eq_iff]
    constructor <;> norm_num
  refine ⟨by decide, by decide, hfl, ?_⟩
  rw [hfl]
  decide

/-! ## New game: the claims -/

/-- C17 (evaluation of the code): `StartGame` on a finished game with a combo counter of 3 and
the back-to-back flag set resets Score, Level and LinesCleared to 0, 1 and 0 but leaves the
combo counter at 3 and the back-to-back flag set. -/
theorem StartGame_keeps_combo_and_b2b :
    (StartGame noShuffles noShuffles finishedGame).map
        (fun g => (g.Score, g.Level, g.LinesCleared, g.Combo, g.B2B))
      = some (0, 1, 0, 3, true) := by
  decide

/-! ## Rotation -/

theorem buildBlocks_some (id : PieceID) (state : Int) (h0 : 0 ≤ state) (h4 : state < 4) :
    ∃ bs, buildBlocks id state = some bs := by
  have hs : state = 0 ∨ state = 1 ∨ state = 2 ∨ state = 3 := by omega
  have key : ∀ shapes : List (List (List Bool)),
      (shapes = shapesI ∨ shapes = shapesO ∨ shapes = shapesT ∨ shapes = shapesJ ∨
        shapes = shapesL ∨ shapes = shapesS ∨ shapes = shapesZ ∨ shapes = shapesZero) →
      ∀ k : Nat, k < 4 → (fillBlocks (shapes.getD k [])).isSome = true := by
    intro shapes hsh k hk
    have hk4 : k = 0 ∨ k = 1 ∨ k = 2 ∨ k = 3 := by omega
    rcases hsh with h | h | h | h | h | h | h | h <;> subst h <;>
      rcases hk4 with h | h | h | h <;> subst h <;> decide
  have hshape : PieceShapes id = shapesI ∨ PieceShapes id = shapesO ∨ PieceShapes id = shapesT ∨
      PieceShapes id = shapesJ ∨ PieceShapes id = shapesL ∨ PieceShapes id = shapesS ∨
      PieceShapes id = shapesZ ∨ PieceShapes id = shapesZero := by
    unfold PieceShapes
    split_ifs <;> simp
  have hk : state.toNat < 4 := by omega
  exact Option.isSome_iff_exists.mp (key _ hshape _ hk)

/-- C11: for every state with an active piece `p` whose rotation state is not negative (in
particular every Playing state): the blocks `bs` built from the mask of rotation state
`(r + 1) mod 4` exist, and if the piece with these blocks does not collide at the current
position, `rotate` sets the rotation state to `(r + 1) mod 4`, the blocks to `bs` and the rotation
flag to true, the position and all the rest being unchanged; if it collides, `rotate` returns the
state exactly as it was. -/
theorem rotate_in_place (g : Game) (p : Piece) (hc : g.Current = some p)
    (hr : 0 ≤ p.RotationState) :
    ∃ bs : Blocks, buildBlocks p.ID ((p.RotationState + 1) % 4) = some bs ∧
      (¬ Blocked g.Playfield p.Position bs →
        rotate g = some { g with
          Current := some { p with RotationState := (p.RotationState + 1) % 4, Blocks := bs },
          LastMoveWasRotation := true }) ∧
      (Blocked g.Playfield p.Position bs → rotate g = some g) := by
  have hmod : Int.tmod (p.RotationState + 1) 4 = (p.RotationState + 1) % 4 :=
    Int.tmod_eq_emod (by omega) (by norm_num)
  have h0 : 0 ≤ (p.RotationState + 1) % 4 := Int.emod_nonneg _ (by norm_num)
  have h4 : (p.RotationState + 1) % 4 < 4 := Int.emod_lt_of_pos _ (by norm_num)
  obtain ⟨bs, hbs⟩ := buildBlocks_some p.ID _ h0 h4
  have hcol : checkCollision { g with
        Current := some { p with RotationState := (p.RotationState + 1) % 4, Blocks := bs } }
        = true ↔ Blocked g.Playfield p.Position bs :=
    checkCollision_iff _ _ rfl
  refine ⟨bs, hbs, ?_, ?_⟩
  · intro hb
    simp only [rotate, hc, hmod, not_lt.mpr h0, if_false, hbs]
    rw [if_neg (fun h => hb (hcol.mp h))]
  · intro hb
    simp only [rotate, hc, hmod, not_lt.mpr h0, if_false, hbs]
    rw [if_pos (hcol.mpr hb)]
    cases g
    simp only at hc
    subst hc
    rfl

/-- Witness for C11: the I piece in row 6 of the empty grid rotates in place. -/
theorem rotate_in_place_witness :
    rotate floatGame = some { floatGame with
      Current := some { floatingI with
        RotationState := 1, Blocks := ⟨⟨2, 0⟩, ⟨2, 1⟩, ⟨2, 2⟩, ⟨2, 3⟩⟩ },
      LastMoveWasRotation := true } := by
  obtain ⟨bs, hbs, hfree, _⟩ := rotate_in_place floatGame floatingI rfl (by decide)
  have hb : buildBlocks floatingI.ID ((floatingI.RotationState + 1) % 4)
      = some ⟨⟨2, 0⟩, ⟨2, 1⟩, ⟨2, 2⟩, ⟨2, 3⟩⟩ := by decide
  rw [hb] at hbs
  cases hbs
  exact hfree (by decide)

/-! ## Spawning: the result of `spawnNext` -/

theorem placeSpawn_eq (g : Game) (pid : PieceID) (bs : Blocks) :
    placeSpawn g ⟨pid, 0, ⟨3, 22⟩, bs⟩ = spawnPlaced g pid bs := by
  have h23 : (22 : Int) + 1 = 23 := by decide
  have h24 : (23 : Int) + 1 = 24 := by decide
  have h25 : (24 : Int) + 1 = 25 := by decide
  have hB : ∀ y : Int, Blocked g.Playfield ⟨3, y⟩ bs
      ↔ collidesAt g.Playfield ⟨3, y⟩ bs.toList = true := by
    intro y
    rw [collidesAt_iff]
    rfl
  cases e22 : collidesAt g.Playfield ⟨3, 22⟩ bs.toList <;>
    cases e23 : collidesAt g.Playfield ⟨3, 23⟩ bs.toList <;>
    cases e24 : collidesAt g.Playfield ⟨3, 24⟩ bs.toList <;>
    cases e25 : collidesAt g.Playfield ⟨3, 25⟩ bs.toList <;>
    simp [placeSpawn, spawnPlaced, spawnRetry, checkCollision, hB, h23, h24, h25, e22, e23, e24,
      e25]

theorem spawnNext_eq (sh : Shuffles) (g : Game) (pid : PieceID) (rest : List PieceID)
    (bs : Blocks) (hq : queueAtPop sh g = pid :: rest) (hb : buildBlocks pid 0 = some bs) :
    spawnNext sh g
      = some (spawnPlaced { g with NextQueue := queueAfterPop sh rest } pid bs) := by
  have hx : (if Int.tdiv PlayWidth 2 - 2 < 0 then 0 else Int.tdiv PlayWidth 2 - 2) = 3 := by
    decide
  have hy : VisibleHeight + 2 = 22 := by decide
  rw [← placeSpawn_eq]
  unfold spawnNext
  unfold queueAtPop at hq
  unfold queueAfterPop
  by_cases h1 : g.NextQueue.length < 2
  · rw [if_pos h1] at hq
    by_cases h2 : rest.length < 1
    · simp only [h1, h2, if_true, refillBag, hq, hb, hx, hy]
    · simp only [h1, h2, if_true, if_false, refillBag, hq, hb, hx, hy]
  · rw [if_neg h1] at hq
    have h1' : ¬ (pid :: rest).length < 2 := by
      rw [← hq]
      exact h1
    by_cases h2 : rest.length < 1
    · simp only [h1', h2, if_true, if_false, refillBag, hq, hb, hx, hy]
    · simp only [h1', h2, if_false, refillBag, hq, hb, hx, hy]

/-! ## The bag -/

theorem swapAt_perm (l : List PieceID) (i j : Nat) (hi : i < l.length) (hj : j < l.length) :
    (swapAt l i j).Perm l := by
  rw [List.perm_iff_count]
  intro a
  have hci : l[i] = a → 1 ≤ l.count a := by
    intro h
    exact List.count_pos_iff.mpr (h ▸ List.getElem_mem _)
  unfold swapAt
  rw [List.count_set _ _ _ _ (by simpa using hj), List.count_set _ _ _ _ hi]
  simp only [List.getD_eq_getElem _ _ hi, List.getD_eq_getElem _ _ hj, List.getElem_set,
    beq_iff_eq]
  by_cases hij : i = j
  · subst hij
    simp only [if_true]
    by_cases h : l[i] = a
    · have := hci h
      simp only [h, if_true]
      omega
    · simp only [h, if_false]
      omega
  · simp only [hij, if_false]
    by_cases h : l[i] = a
    · have := hci h
      by_cases h' : l[j] = a
      · simp only [h, h', if_true]
        omega
      · simp only [h, h', if_true, if_false]
        omega
    · by_cases h' : l[j] = a
      · simp only [h, h', if_true, if_false]
        omega
      · simp only [h, h', if_false]
        omega

theorem shuffle_perm (sw : List Swap) (bag : List PieceID) (h7 : bag.length = 7) :
    (sw.foldl (fun bag s => swapAt bag s.1 s.2) bag).Perm bag := by
  induction sw generalizing bag with
  | nil => exact List.Perm.refl _
  | cons s rest ih =>
    have hs : (swapAt bag s.1 s.2).Perm bag :=
      swapAt_perm bag s.1 s.2 (by rw [h7]; exact s.1.isLt) (by rw [h7]; exact s.2.isLt)
    rw [List.foldl_cons]
    exact (ih _ (by rw [hs.length_eq, h7])).trans hs

theorem shuffledBag_perm (sw : List Swap) : (shuffledBag sw).Perm [I, O, T, J, L, S, Z] :=
  shuffle_perm sw _ rfl

theorem shuffledBag_length (sw : List Swap) : (shuffledBag sw).length = 7 :=
  (shuffledBag_perm sw).length_eq

theorem shuffledBag_mem (sw : List Swap) (k : PieceID) (h : k ∈ shuffledBag sw) :
    k = I ∨ k = O ∨ k = T ∨ k = J ∨ k = L ∨ k = S ∨ k = Z := by
  have := (shuffledBag_perm sw).mem_iff.mp h
  simpa using this

theorem queueAtPop_ne_nil (sh : Shuffles) (g : Game) :
    ∃ pid rest, queueAtPop sh g = pid :: rest := by
  have hlen : 0 < (queueAtPop sh g).length := by
    unfold queueAtPop
    split_ifs with h
    · rw [List.length_append, shuffledBag_length]
      omega
    · omega
  match hq : queueAtPop sh g with
  | [] => rw [hq] at hlen; simp at hlen
  | pid :: rest => exact ⟨pid, rest, rfl⟩

theorem spawnNext_some (sh : Shuffles) (g : Game) : ∃ g1, spawnNext sh g = some g1 := by
  obtain ⟨pid, rest, hq⟩ := queueAtPop_ne_nil sh g
  obtain ⟨bs, hb⟩ := buildBlocks_some pid 0 (by norm_num) (by norm_num)
  exact ⟨_, spawnNext_eq sh g pid rest bs hq hb⟩

/-! ## Locking: when `lockPiece` returns -/

theorem tdiv60_eq (x : Int) :
    Int.tdiv x 60 = if 0 ≤ x then x / 60 else -((-x) / 60) := by
  split_ifs with h
  · exact Int.tdiv_eq_ediv h (by norm_num)
  · have h2 : Int.tdiv (-x) 60 = (-x) / 60 := Int.tdiv_eq_ediv (by omega) (by norm_num)
    rw [Int.neg_tdiv] at h2
    omega

theorem gravityForLevel_nonpos_iff (level : Int) :
    gravityForLevel level ≤ 0 ↔ level = 28 ∨ level = 29 := by
  rw [gravityForLevel_tdiv, tdiv60_eq]
  unfold gravityTicks
  split_ifs <;> omega

theorem updateScore_rest (g : Game) (n : Int) (p : Piece) :
    (updateScore g n p).LinesCleared = g.LinesCleared ∧ (updateScore g n p).State = g.State ∧
    (updateScore g n p).Current = g.Current ∧ (updateScore g n p).NextQueue = g.NextQueue := by
  unfold updateScore
  split_ifs <;> simp

theorem clearLines_frame (order : List Int → List Int) (g : Game) (p : Piece) :
    (clearLines order g p).1.Level = g.Level ∧ (clearLines order g p).1.Score = g.Score ∧
    (clearLines order g p).1.Combo = g.Combo ∧ (clearLines order g p).1.B2B = g.B2B ∧
    (clearLines order g p).1.Current = g.Current ∧
    (clearLines order g p).1.NextQueue = g.NextQueue ∧
    (clearLines order g p).1.LastMoveWasRotation = g.LastMoveWasRotation := by
  simp only [clearLines]
  split_ifs <;> simp

theorem clearLines_linesCleared (order : List Int → List Int) (g : Game) (p : Piece) :
    (clearLines order g p).1.LinesCleared
      = g.LinesCleared + (findFull g.Playfield (order (rowKeys p))).length := by
  simp only [clearLines]
  split_ifs with h
  · simp [h]
  · rfl

theorem levelUp_none_iff (g : Game) : levelUp g = none ↔ LevelUpPanics g 0 := by
  unfold levelUp adjustGravity LevelUpPanics
  simp only [add_zero, gt_iff_lt]
  by_cases h1 : g.Level < Int.tdiv g.LinesCleared 10 + 1
  · rw [if_pos h1]
    by_cases h2 : gravityForLevel (Int.tdiv g.LinesCleared 10 + 1) ≤ 0
    · rw [if_pos h2]
      exact ⟨fun _ => ⟨h1, h2⟩, fun _ => rfl⟩
    · rw [if_neg h2]
      exact ⟨fun h => Option.noConfusion h, fun h => absurd h.2 h2⟩
  · rw [if_neg h1]
    exact ⟨fun h => Option.noConfusion h, fun h => absurd h.1 h1⟩

theorem levelUp_fields (g g3 : Game) (h : levelUp g = some g3) :
    g3.Playfield = g.Playfield ∧ g3.Current = g.Current ∧ g3.NextQueue = g.NextQueue ∧
    g3.Score = g.Score ∧ g3.LinesCleared = g.LinesCleared ∧ g3.B2B = g.B2B ∧
    g3.Combo = g.Combo ∧ g3.State = g.State ∧
    g3.LastMoveWasRotation = g.LastMoveWasRotation ∧
    g3.Level = max g.Level (Int.tdiv g.LinesCleared 10 + 1) := by
  unfold levelUp adjustGravity at h
  by_cases h1 : Int.tdiv g.LinesCleared 10 + 1 > g.Level
  · rw [if_pos h1] at h
    split_ifs at h
    injection h with h
    subst h
    exact ⟨rfl, rfl, rfl, rfl, rfl, rfl, rfl, rfl, rfl, (max_eq_right (le_of_lt h1)).symm⟩
  · rw [if_neg h1] at h
    injection h with h
    subst h
    exact ⟨rfl, rfl, rfl, rfl, rfl, rfl, rfl, rfl, rfl, (max_eq_left (not_lt.mp h1)).symm⟩

theorem lockTail_spawn (c : Chance) (g : Game) (p : Piece) (g1 : Game)
    (h : lockTail c g p = some g1) :
    ∃ g3, levelUp (updateScore (clearLines c.order g p).1 (clearLines c.order g p).2 p) = some g3 ∧
      spawnNext c.shuffles { g3 with Current := none } = some g1 := by
  unfold lockTail at h
  simp only at h
  cases hl : levelUp (updateScore (clearLines c.order g p).1 (clearLines c.order g p).2 p) with
  | none =>
    rw [hl] at h
    cases h
  | some g3 =>
    rw [hl] at h
    exact ⟨g3, rfl, h⟩

theorem updateScore_levelUpPanics (c : Chance) (g : Game) (p : Piece) :
    LevelUpPanics (updateScore (clearLines c.order g p).1 (clearLines c.order g p).2 p) 0
      ↔ LevelUpPanics g (clearLines c.order g p).2 := by
  unfold LevelUpPanics
  rw [(updateScore_rest _ _ p).1, (updateScore_frame _ _ p).2.1, clearLines_linesCleared,
    (clearLines_frame c.order g p).1, clearLines_count, add_zero]

theorem lockTail_none_iff (c : Chance) (g : Game) (p : Piece) :
    lockTail c g p = none ↔ LevelUpPanics g (clearLines c.order g p).2 := by
  rw [← updateScore_levelUpPanics, ← levelUp_none_iff]
  unfold lockTail
  simp only
  cases hl : levelUp (updateScore (clearLines c.order g p).1 (clearLines c.order g p).2 p) with
  | none => simp
  | some g3 =>
    obtain ⟨g1, e1⟩ := spawnNext_some c.shuffles { g3 with Current := none }
    simp [e1]

theorem lockPiece_eq (c : Chance) (g : Game) (p : Piece) (hc : g.Current = some p) :
    lockPiece c g = lockTail c { g with Playfield := paintBlocks g.Playfield p } p := by
  unfold lockPiece
  cases hg : g.Current with
  | none => rw [hg] at hc; cases hc
  | some q => rw [hg] at hc; cases hc; rfl

theorem lockedRows_eq (c : Chance) (g : Game) (p : Piece) :
    lockedRows c g p
      = (findFull (paintBlocks g.Playfield p) (c.order (rowKeys p))).length := by
  unfold lockedRows
  rw [clearLines_count]

theorem lockPiece_none_iff (c : Chance) (g : Game) (p : Piece) (hc : g.Current = some p) :
    lockPiece c g = none ↔ LevelUpPanics g (lockedRows c g p) := by
  rw [lockPiece_eq c g p hc, lockTail_none_iff]
  rfl

theorem lockPiece_some_iff (c : Chance) (g : Game) (p : Piece) (hc : g.Current = some p) :
    (∃ g1, lockPiece c g = some g1) ↔ ¬ LevelUpPanics g (lockedRows c g p) := by
  rw [← lockPiece_none_iff c g p hc]
  cases lockPiece c g with
  | none => simp
  | some g1 => simp

theorem lockTail_none_iff_of (c : Chance) (g g2 : Game) (p : Piece)
    (hP : g2.Playfield = paintBlocks g.Playfield p) (hL : g2.Level = g.Level)
    (hC : g2.LinesCleared = g.LinesCleared) :
    lockTail c g2 p = none ↔ LevelUpPanics g (lockedRows c g p) := by
  rw [lockTail_none_iff, clearLines_count, lockedRows_eq, hP]
  unfold LevelUpPanics
  rw [hL, hC]

theorem lockPiece_none_iff_of (c : Chance) (g g2 : Game) (q : Piece)
    (hc : g2.Current = some q) (hP : g2.Playfield = g.Playfield) (hL : g2.Level = g.Level)
    (hC : g2.LinesCleared = g.LinesCleared) :
    lockPiece c g2 = none ↔ LevelUpPanics g (lockedRows c g q) := by
  rw [lockPiece_none_iff c g2 q hc, lockedRows_eq, lockedRows_eq, hP]
  unfold LevelUpPanics
  rw [hL, hC]

theorem option_some_of_ne_none {α : Type} (r : Option α) (h : r ≠ none) : ∃ a, r = some a := by
  cases r with
  | none => exact absurd rfl h
  | some a => exact ⟨a, rfl⟩

theorem levelUpPanics_level (g : Game) (n : Int) (h : LevelUpPanics g n) :
    g.Level < 29 ∧
    (Int.tdiv (g.LinesCleared + n) 10 + 1 = 28 ∨ Int.tdiv (g.LinesCleared + n) 10 + 1 = 29) := by
  obtain ⟨h1, h2⟩ := h
  have h3 := (gravityForLevel_nonpos_iff _).mp h2
  exact ⟨by omega, h3⟩

/-! ## Locking and vertical movement -/

theorem paintStep_apply (p : Piece) (b : Point) (f : Grid) (x y : Int) :
    (if p.Position.X + b.X ≥ 0 ∧ p.Position.X + b.X < PlayWidth ∧
        p.Position.Y + b.Y ≥ 0 ∧ p.Position.Y + b.Y < TotalHeight
      then setCell f (p.Position.X + b.X) (p.Position.Y + b.Y) p.ID else f) x y
      = if PaintsCell p b x y then p.ID else f x y := by
  unfold PaintsCell
  by_cases hin : p.Position.X + b.X ≥ 0 ∧ p.Position.X + b.X < PlayWidth ∧
      p.Position.Y + b.Y ≥ 0 ∧ p.Position.Y + b.Y < TotalHeight
  · rw [if_pos hin]
    by_cases hxy : x = p.Position.X + b.X ∧ y = p.Position.Y + b.Y
    · rw [if_pos ⟨hin, hxy⟩, setCell, if_pos hxy]
    · rw [if_neg (fun h => hxy h.2), setCell, if_neg hxy]
  · rw [if_neg hin, if_neg (fun h => hin h.1)]

theorem paintCells_apply (p : Piece) (l : List Point) (f : Grid) (x y : Int) :
    l.foldl
        (fun f b =>
          let x := p.Position.X + b.X
          let y := p.Position.Y + b.Y
          if x ≥ 0 ∧ x < PlayWidth ∧ y ≥ 0 ∧ y < TotalHeight then setCell f x y p.ID else f)
        f x y
      = if ∃ b ∈ l, PaintsCell p b x y then p.ID else f x y := by
  induction l generalizing f with
  | nil => simp
  | cons b rest ih =>
    rw [List.foldl_cons, ih]
    simp only [List.mem_cons, exists_eq_or_imp]
    rw [paintStep_apply]
    by_cases hr : ∃ b ∈ rest, PaintsCell p b x y
    · rw [if_pos hr, if_pos (Or.inr hr)]
    · rw [if_neg hr]
      by_cases hb : PaintsCell p b x y
      · rw [if_pos hb, if_pos (Or.inl hb)]
      · rw [if_neg hb, if_neg (fun h => h.elim hb hr)]

theorem paintBlocks_apply (f : Grid) (p : Piece) (hfree : ¬ Blocked f p.Position p.Blocks)
    (x y : Int) :
    paintBlocks f p x y
      = if ∃ b ∈ p.Blocks.toList, x = p.Position.X + b.X ∧ y = p.Position.Y + b.Y
        then p.ID else f x y := by
  unfold paintBlocks
  rw [paintCells_apply]
  have hin : ∀ b ∈ p.Blocks.toList, p.Position.X + b.X ≥ 0 ∧ p.Position.X + b.X < PlayWidth ∧
      p.Position.Y + b.Y ≥ 0 ∧ p.Position.Y + b.Y < TotalHeight := by
    intro b hb
    by_contra hcon
    apply hfree
    refine ⟨b, hb, ?_⟩
    by_contra hno
    apply hcon
    simp only [not_or, not_lt, not_le] at hno
    exact ⟨hno.1, hno.2.1, hno.2.2.1, hno.2.2.2.1⟩
  by_cases h : ∃ b ∈ p.Blocks.toList, x = p.Position.X + b.X ∧ y = p.Position.Y + b.Y
  · obtain ⟨b, hb, hxy⟩ := h
    rw [if_pos ⟨b, hb, hin b hb, hxy⟩, if_pos ⟨b, hb, hxy⟩]
  · have h2 : ¬ ∃ b ∈ p.Blocks.toList, PaintsCell p b x y := by
      rintro ⟨b, hb, _, hxy⟩
      exact h ⟨b, hb, hxy⟩
    rw [if_neg h2, if_neg h]

/-- C12: for every state with an active piece `p` that does not collide (in particular every
such Playing state): if the piece one row lower is not blocked, `softDrop` only lowers
`Position.Y` by 1 (and clears the rotation flag): grid, score state, queue, phase and the rest of
the piece are unchanged and nothing is locked; if it is blocked, `softDrop` is the lock of the
piece at its unmoved position: the rest of `lockPiece` (line clearing, scoring, spawn) runs on the
grid `paintBlocks g.Playfield p`, in which exactly the cells position + block offset hold the kind
id of the piece and every other cell is as before. `softDrop` returns a state in every case but
one: when the lock raises the level to one whose gravity interval is not positive (28 or 29),
`adjustGravity` panics. -/
theorem softDrop_moves_or_locks (c : Chance) (g : Game) (p : Piece) (hc : g.Current = some p)
    (hfree : ¬ Blocked g.Playfield p.Position p.Blocks) :
    (¬ Blocked g.Playfield ⟨p.Position.X, p.Position.Y - 1⟩ p.Blocks →
      softDrop c g = some { g with
        LastMoveWasRotation := false,
        Current := some { p with Position := ⟨p.Position.X, p.Position.Y - 1⟩ } }) ∧
    (Blocked g.Playfield ⟨p.Position.X, p.Position.Y - 1⟩ p.Blocks →
      softDrop c g = lockTail c { g with
        LastMoveWasRotation := false,
        Current := some p,
        Playfield := paintBlocks g.Playfield p } p) ∧
    (∀ x y : Int, paintBlocks g.Playfield p x y
      = if ∃ b ∈ p.Blocks.toList, x = p.Position.X + b.X ∧ y = p.Position.Y + b.Y
        then p.ID else g.Playfield x y) ∧
    (softDrop c g = none ↔
      Blocked g.Playfield ⟨p.Position.X, p.Position.Y - 1⟩ p.Blocks ∧
        LevelUpPanics g (lockedRows c g p)) ∧
    (¬ LevelUpPanics g (lockedRows c g p) → ∃ g1, softDrop c g = some g1) ∧
    (LevelUpPanics g (lockedRows c g p) →
      g.Level < 29 ∧
      (Int.tdiv (g.LinesCleared + lockedRows c g p) 10 + 1 = 28 ∨
        Int.tdiv (g.LinesCleared + lockedRows c g p) 10 + 1 = 29)) := by
  have hl : checkCollision { g with
        LastMoveWasRotation := false,
        Current := some { p with Position := { p.Position with Y := p.Position.Y - 1 } } } = true
      ↔ Blocked g.Playfield ⟨p.Position.X, p.Position.Y - 1⟩ p.Blocks :=
    checkCollision_iff _ _ rfl
  have hfreeCase : ¬ Blocked g.Playfield ⟨p.Position.X, p.Position.Y - 1⟩ p.Blocks →
      softDrop c g = some { g with
        LastMoveWasRotation := false,
        Current := some { p with Position := ⟨p.Position.X, p.Position.Y - 1⟩ } } := by
    intro hb
    simp only [softDrop, hc]
    rw [if_neg (fun h => hb (hl.mp h))]
  have hlockCase : Blocked g.Playfield ⟨p.Position.X, p.Position.Y - 1⟩ p.Blocks →
      softDrop c g = lockTail c { g with
        LastMoveWasRotation := false,
        Current := some p,
        Playfield := paintBlocks g.Playfield p } p := by
    intro hb
    simp only [softDrop, hc]
    rw [if_pos (hl.mpr hb)]
    rfl
  have hnone : softDrop c g = none ↔
      Blocked g.Playfield ⟨p.Position.X, p.Position.Y - 1⟩ p.Blocks ∧
        LevelUpPanics g (lockedRows c g p) := by
    by_cases hb : Blocked g.Playfield ⟨p.Position.X, p.Position.Y - 1⟩ p.Blocks
    · rw [hlockCase hb, lockTail_none_iff_of c g
        { g with LastMoveWasRotation := false, Current := some p,
                 Playfield := paintBlocks g.Playfield p } p rfl rfl rfl]
      exact ⟨fun h => ⟨hb, h⟩, fun h => h.2⟩
    · rw [hfreeCase hb]
      exact ⟨fun h => Option.noConfusion h, fun h => absurd h.1 hb⟩
  refine ⟨hfreeCase, hlockCase, paintBlocks_apply g.Playfield p hfree, hnone, ?_,
    levelUpPanics_level g _⟩
  intro hno
  exact option_some_of_ne_none _ (fun h => hno (hnone.mp h).2)

/-- Witness for C12: the I piece in row 6 of the empty grid moves down one row, and the I piece
on the floor is locked where it is, which returns a state. -/
theorem softDrop_moves_or_locks_witness :
    softDrop plainChance floatGame = some { floatGame with
      LastMoveWasRotation := false,
      Current := some { floatingI with
        Position := ⟨floatingI.Position.X, floatingI.Position.Y - 1⟩ } } ∧
    softDrop plainChance floorGame = lockTail plainChance { floorGame with
      LastMoveWasRotation := false,
      Current := some flatI,
      Playfield := paintBlocks floorGame.Playfield flatI } flatI ∧
    (∃ g1, softDrop plainChance floorGame = some g1) :=
  ⟨(softDrop_moves_or_locks plainChance floatGame floatingI rfl (by decide)).1 (by decide),
   (softDrop_moves_or_locks plainChance floorGame flatI rfl (by decide)).2.1 (by decide),
   (softDrop_moves_or_locks plainChance floorGame flatI rfl (by decide)).2.2.2.2.1 (by decide)⟩

theorem dropLoop_eq (g : Game) (d : Nat) (p : Piece) (dd : Int)
    (hfree : ∀ k : Nat, 1 ≤ k → k ≤ d →
      ¬ Blocked g.Playfield ⟨p.Position.X, p.Position.Y - (k : Int)⟩ p.Blocks)
    (hblk : Blocked g.Playfield ⟨p.Position.X, p.Position.Y - ((d : Int) + 1)⟩ p.Blocks)
    (hcap : dd + (d : Int) ≤ TotalHeight) :
    dropLoop g p dd
      = ({ p with Position := ⟨p.Position.X, p.Position.Y - (d : Int)⟩ }, dd + (d : Int)) := by
  induction d generalizing p dd with
  | zero =>
    have hcol : checkCollision { g with
        Current := some { p with Position := { p.Position with Y := p.Position.Y - 1 } } }
        = true := by
      rw [checkCollision_iff _ _ rfl]
      simpa using hblk
    rw [dropLoop]
    simp only [hcol, if_true, Nat.cast_zero, sub_zero, add_zero, sub_add_cancel]
  | succ n ih =>
    have hcol : ¬ (checkCollision { g with
        Current := some { p with Position := { p.Position with Y := p.Position.Y - 1 } } }
        = true) := by
      rw [checkCollision_iff _ _ rfl]
      have := hfree 1 (le_refl 1) (by omega)
      simpa using this
    have hcap' : ¬ (dd + 1 > TotalHeight) := by
      push_cast at hcap
      omega
    rw [dropLoop]
    simp only [hcol, if_false, hcap']
    rw [ih]
    · simp only [Nat.cast_succ]
      have e1 : p.Position.Y - 1 - (n : Int) = p.Position.Y - ((n : Int) + 1) := by ring
      have e2 : dd + 1 + (n : Int) = dd + ((n : Int) + 1) := by ring
      rw [e1, e2]
      simp
    · intro k hk1 hk2
      have := hfree (k + 1) (by omega) (by omega)
      have e : p.Position.Y - 1 - (k : Int) = p.Position.Y - ((k + 1 : Nat) : Int) := by
        push_cast
        ring
      simpa only [e] using this
    · have e : p.Position.Y - 1 - ((n : Int) + 1) = p.Position.Y - (((n + 1 : Nat) : Int) + 1) := by
        push_cast
        ring
      simpa only [e] using hblk
    · push_cast at hcap
      omega

theorem exists_drop_distance (f : Grid) (pos : Point) (bs : Blocks)
    (hfree : ¬ Blocked f pos bs) :
    ∃ d : Nat, (d : Int) < TotalHeight ∧
      (∀ k : Nat, 1 ≤ k → k ≤ d → ¬ Blocked f ⟨pos.X, pos.Y - (k : Int)⟩ bs) ∧
      Blocked f ⟨pos.X, pos.Y - ((d : Int) + 1)⟩ bs := by
  have hb0 : bs.b0 ∈ bs.toList := by simp [Blocks.toList]
  have hrow : 0 ≤ pos.Y + bs.b0.Y ∧ pos.Y + bs.b0.Y < TotalHeight := by
    constructor
    · by_contra h
      exact hfree ⟨bs.b0, hb0, Or.inr (Or.inr (Or.inl (by omega)))⟩
    · by_contra h
      exact hfree ⟨bs.b0, hb0, Or.inr (Or.inr (Or.inr (Or.inl (by omega))))⟩
  have hex : ∃ d : Nat, Blocked f ⟨pos.X, pos.Y - ((d : Int) + 1)⟩ bs := by
    refine ⟨(pos.Y + bs.b0.Y).toNat, bs.b0, hb0, Or.inr (Or.inr (Or.inl ?_))⟩
    have := Int.toNat_of_nonneg hrow.1
    show pos.Y - (((pos.Y + bs.b0.Y).toNat : Int) + 1) + bs.b0.Y < 0
    omega
  refine ⟨Nat.find hex, ?_, ?_, Nat.find_spec hex⟩
  · have hle : Nat.find hex ≤ (pos.Y + bs.b0.Y).toNat := by
      apply Nat.find_min'
      refine ⟨bs.b0, hb0, Or.inr (Or.inr (Or.inl ?_))⟩
      have := Int.toNat_of_nonneg hrow.1
      show pos.Y - (((pos.Y + bs.b0.Y).toNat : Int) + 1) + bs.b0.Y < 0
      omega
    have := Int.toNat_of_nonneg hrow.1
    have h2 := hrow.2
    omega
  · intro k hk1 hk2 hblk
    have hlt : k - 1 < Nat.find hex := by omega
    apply Nat.find_min hex hlt
    have e : ((k - 1 : Nat) : Int) + 1 = (k : Int) := by
      omega
    rw [e]
    exact hblk

/-- C13: for every state with an active piece `p` at row `y0` that does not collide (in particular
every such Playing state) there is a number `d` below `TotalHeight`, the largest such that the
piece placed 1, 2, ..., `d` rows below `y0` never collides (it collides `d + 1` rows below); the
loop of `hardDrop`, a total function, is left through the collision test with the piece at row
`y0 - d` and a counter of `d`, so never through the cap `dropDistance > TotalHeight`; if `d = 0`
nothing is locked and the state is unchanged but for the cleared rotation flag; if `d >= 1` the
result is `lockPiece` for the piece at row `y0 - d`. `hardDrop` returns a state in every case
but one: when that lock raises the level to one whose gravity interval is not positive (28 or
29), `adjustGravity` panics. -/
theorem hardDrop_distance (c : Chance) (g : Game) (p : Piece) (hc : g.Current = some p)
    (hfree : ¬ Blocked g.Playfield p.Position p.Blocks) :
    ∃ d : Nat, (d : Int) < TotalHeight ∧
      (∀ k : Nat, 1 ≤ k → k ≤ d →
        ¬ Blocked g.Playfield ⟨p.Position.X, p.Position.Y - (k : Int)⟩ p.Blocks) ∧
      Blocked g.Playfield ⟨p.Position.X, p.Position.Y - ((d : Int) + 1)⟩ p.Blocks ∧
      dropLoop { g with LastMoveWasRotation := false } p 0
        = ({ p with Position := ⟨p.Position.X, p.Position.Y - (d : Int)⟩ }, (d : Int)) ∧
      (d = 0 → hardDrop c g = some { g with LastMoveWasRotation := false }) ∧
      (1 ≤ d → hardDrop c g = lockPiece c { g with
        LastMoveWasRotation := false,
        Current := some { p with Position := ⟨p.Position.X, p.Position.Y - (d : Int)⟩ } }) ∧
      (hardDrop c g = none ↔
        1 ≤ d ∧
        LevelUpPanics g
          (lockedRows c g { p with Position := ⟨p.Position.X, p.Position.Y - (d : Int)⟩ })) ∧
      (¬ LevelUpPanics g
          (lockedRows c g { p with Position := ⟨p.Position.X, p.Position.Y - (d : Int)⟩ }) →
        ∃ g1, hardDrop c g = some g1) := by
  obtain ⟨d, hd, hk, hblk⟩ := exists_drop_distance g.Playfield p.Position p.Blocks hfree
  have hloop : dropLoop { g with LastMoveWasRotation := false } p 0
      = ({ p with Position := ⟨p.Position.X, p.Position.Y - (d : Int)⟩ }, (d : Int)) := by
    have := dropLoop_eq { g with LastMoveWasRotation := false } d p 0 hk hblk (by omega)
    rw [this, zero_add]
  have hloop' := hloop
  simp only [hc] at hloop'
  have h0 : d = 0 → hardDrop c g = some { g with LastMoveWasRotation := false } := by
    intro hd0
    subst hd0
    simp only [hardDrop, hc, hloop', Nat.cast_zero, sub_zero, ne_eq, not_true_eq_false, if_false]
  have h1 : 1 ≤ d → hardDrop c g = lockPiece c { g with
      LastMoveWasRotation := false,
      Current := some { p with Position := ⟨p.Position.X, p.Position.Y - (d : Int)⟩ } } := by
    intro hd1
    have hne : p.Position.Y ≠ p.Position.Y - (d : Int) := by omega
    simp only [hardDrop, hc, hloop', ne_eq, hne, not_false_eq_true, if_true]
  have hnone : hardDrop c g = none ↔
      1 ≤ d ∧
      LevelUpPanics g
        (lockedRows c g { p with Position := ⟨p.Position.X, p.Position.Y - (d : Int)⟩ }) := by
    by_cases hd0 : d = 0
    · rw [h0 hd0]
      exact ⟨fun h => Option.noConfusion h, fun h => absurd hd0 (by omega)⟩
    · rw [h1 (by omega), lockPiece_none_iff_of c g
        { g with
          LastMoveWasRotation := false,
          Current := some { p with Position := ⟨p.Position.X, p.Position.Y - (d : Int)⟩ } }
        { p with Position := ⟨p.Position.X, p.Position.Y - (d : Int)⟩ } rfl rfl rfl rfl]
      exact ⟨fun h => ⟨by omega, h⟩, fun h => h.2⟩
  refine ⟨d, hd, hk, hblk, hloop, h0, h1, hnone, ?_⟩
  intro hno
  exact option_some_of_ne_none _ (fun h => hno (hnone.mp h).2)

/-- Witness for C13: the theorem at the I piece in row 6 of the empty grid, which a hard drop
takes down by 6 rows to the floor, and at the I piece on the floor, which it leaves unlocked. -/
theorem hardDrop_distance_witness :
    (∃ d : Nat, (d : Int) < TotalHeight ∧
      (∀ k : Nat, 1 ≤ k → k ≤ d →
        ¬ Blocked floatGame.Playfield
            ⟨floatingI.Position.X, floatingI.Position.Y - (k : Int)⟩ floatingI.Blocks) ∧
      Blocked floatGame.Playfield
        ⟨floatingI.Position.X, floatingI.Position.Y - ((d : Int) + 1)⟩ floatingI.Blocks ∧
      dropLoop { floatGame with LastMoveWasRotation := false } floatingI 0
        = ({ floatingI with
              Position := ⟨floatingI.Position.X, floatingI.Position.Y - (d : Int)⟩ },
           (d : Int)) ∧
      (d = 0 → hardDrop plainChance floatGame
        = some { floatGame with LastMoveWasRotation := false }) ∧
      (1 ≤ d → hardDrop plainChance floatGame = lockPiece plainChance { floatGame with
        LastMoveWasRotation := false,
        Current := some { floatingI with
          Position := ⟨floatingI.Position.X, floatingI.Position.Y - (d : Int)⟩ } }) ∧
      (hardDrop plainChance floatGame = none ↔
        1 ≤ d ∧
        LevelUpPanics floatGame
          (lockedRows plainChance floatGame { floatingI with
            Position := ⟨floatingI.Position.X, floatingI.Position.Y - (d : Int)⟩ })) ∧
      (¬ LevelUpPanics floatGame
          (lockedRows plainChance floatGame { floatingI with
            Position := ⟨floatingI.Position.X, floatingI.Position.Y - (d : Int)⟩ }) →
        ∃ g1, hardDrop plainChance floatGame = some g1)) :=
  hardDrop_distance plainChance floatGame floatingI rfl (by decide)

/-- C14 (evaluation of the code): `lowGame` is a Playing state whose I piece is at
`Position.Y = 0`, within bounds, with its blocks in row 1 and the floor row 0 free below. There
`softDrop` moves the piece down to `Position.Y = -1` (blocks in row 0) and locks nothing, while
`ApplyGravity`, after the same move, finds `Position.Y < 0`, puts the piece back to
`Position.Y = 0` and locks it: the cells of row 1 hold the kind id 1, row 0 stays empty and the
next piece (kind O) is spawned at row 22. -/
theorem ApplyGravity_differs_from_softDrop :
    lowGame.State = GameState.Playing ∧ lowGame.Current = some lowI ∧
    0 ≤ lowI.Position.Y ∧ lowI.Position.Y < TotalHeight ∧
    (softDrop plainChance lowGame).map
        (fun g => (g.Current.map fun q => (q.ID, q.Position), g.Playfield 0 0, g.Playfield 0 1))
      = some (some (I, ⟨0, -1⟩), 0, 0) ∧
    (ApplyGravity plainChance plainChance lowGame).map
        (fun g => (g.Current.map fun q => (q.ID, q.Position), g.Playfield 0 0, g.Playfield 0 1))
      = some (some (O, ⟨3, 22⟩), 0, 1) := by
  decide

/-! ## Spawning and new game: the claims -/

theorem spawn_free_on_empty (pid : PieceID) (bs : Blocks)
    (hk : pid = I ∨ pid = O ∨ pid = T ∨ pid = J ∨ pid = L ∨ pid = S ∨ pid = Z)
    (hb : buildBlocks pid 0 = some bs) : ¬ Blocked (fun _ _ => 0) ⟨3, 22⟩ bs := by
  have key : (match buildBlocks pid 0 with
      | some b => decide (¬ Blocked (fun _ _ => 0) ⟨3, 22⟩ b)
      | none => false) = true := by
    rcases hk with h | h | h | h | h | h | h <;> subst h <;> decide
  rw [hb] at key
  simpa using key

theorem StartGame_eq (own spawn : Shuffles) (g : Game) :
    ∃ (pid : PieceID) (rest : List PieceID) (bs : Blocks),
      shuffledBag own.first = pid :: rest ∧ rest.length = 6 ∧ buildBlocks pid 0 = some bs ∧
      StartGame own spawn g = some { g with
        Playfield := fun _ _ => 0, Score := 0, Level := 1, LinesCleared := 0,
        NextQueue := rest, State := GameState.Playing,
        Current := some ⟨pid, 0, ⟨3, 22⟩, bs⟩, LastMoveWasRotation := false } := by
  have hlen := shuffledBag_length own.first
  match hbag : shuffledBag own.first with
  | [] => rw [hbag] at hlen; simp at hlen
  | pid :: rest =>
    have hrest : rest.length = 6 := by
      rw [hbag] at hlen
      simpa using hlen
    have hmem : pid ∈ shuffledBag own.first := by
      rw [hbag]
      exact List.mem_cons_self _ _
    have hkind := shuffledBag_mem own.first pid hmem
    obtain ⟨bs, hb⟩ := buildBlocks_some pid 0 (by norm_num) (by norm_num)
    have hfree := spawn_free_on_empty pid bs hkind hb
    refine ⟨pid, rest, bs, rfl, hrest, hb, ?_⟩
    have h2 : ¬ ((pid :: rest).length < 2) := by
      rw [List.length_cons, hrest]
      omega
    have hstart : StartGame own spawn g = spawnNext spawn { g with
        Playfield := fun _ _ => 0, Score := 0, Level := 1, LinesCleared := 0,
        Current := none, NextQueue := pid :: rest, State := GameState.Playing } := by
      simp only [StartGame, refillBag, List.nil_append, hbag, h2, if_false]
    have hq : queueAtPop spawn { g with
        Playfield := fun _ _ => 0, Score := 0, Level := 1, LinesCleared := 0,
        Current := none, NextQueue := pid :: rest, State := GameState.Playing }
        = pid :: rest := by
      simp only [queueAtPop, h2, if_false]
    have h1 : ¬ (rest.length < 1) := by omega
    rw [hstart, spawnNext_eq _ _ pid rest bs hq hb]
    simp only [spawnPlaced, queueAfterPop, h1, if_false, hfree, not_false_eq_true, if_true]

/-- C18: for every prior state and every outcome of the shuffles, `StartGame` returns a state
in which every grid cell is 0, the phase is `Playing` (so not `GameOver`), the rotation flag is
false, the active piece has the kind `pid` that is the first element of the freshly shuffled bag,
rotation state 0, column 3, row 22 and the blocks of that kind, and the queue holds the other 6
kinds of the bag. -/
theorem StartGame_result (own spawn : Shuffles) (g : Game) :
    ∃ (pid : PieceID) (rest : List PieceID) (bs : Blocks) (g1 : Game),
      shuffledBag own.first = pid :: rest ∧ buildBlocks pid 0 = some bs ∧
      StartGame own spawn g = some g1 ∧
      (∀ x y : Int, g1.Playfield x y = 0) ∧
      g1.State = GameState.Playing ∧ g1.State ≠ GameState.GameOver ∧
      g1.Current = some ⟨pid, 0, ⟨3, 22⟩, bs⟩ ∧
      g1.LastMoveWasRotation = false ∧
      g1.NextQueue = rest ∧ g1.NextQueue.length = 6 := by
  obtain ⟨pid, rest, bs, hbag, hrest, hb, hstart⟩ := StartGame_eq own spawn g
  exact ⟨pid, rest, bs, _, hbag, hb, hstart, fun _ _ => rfl, rfl, by simp, rfl, rfl, rfl, hrest⟩

/-- C19: for every grid and queue, with `pid` the kind that `spawnNext` pops and `bs` its blocks
in rotation state 0: `spawnNext` returns a state with the grid exactly as it was; if the piece at
column 3 is blocked in each of the rows 22, 23, 24 and 25 the phase is `GameOver`, otherwise the
phase is as before; and for each `y` of these four rows at which the piece is not blocked while it
is blocked in every row from 22 up to `y`, the active piece is that piece at row `y`. -/
theorem spawnNext_placement (sh : Shuffles) (g : Game) :
    ∃ (pid : PieceID) (rest : List PieceID) (bs : Blocks) (g1 : Game),
      queueAtPop sh g = pid :: rest ∧ buildBlocks pid 0 = some bs ∧
      spawnNext sh g = some g1 ∧ g1.Playfield = g.Playfield ∧
      ((Blocked g.Playfield ⟨3, 22⟩ bs ∧ Blocked g.Playfield ⟨3, 23⟩ bs ∧
          Blocked g.Playfield ⟨3, 24⟩ bs ∧ Blocked g.Playfield ⟨3, 25⟩ bs) →
        g1.State = GameState.GameOver) ∧
      (¬ (Blocked g.Playfield ⟨3, 22⟩ bs ∧ Blocked g.Playfield ⟨3, 23⟩ bs ∧
          Blocked g.Playfield ⟨3, 24⟩ bs ∧ Blocked g.Playfield ⟨3, 25⟩ bs) →
        g1.State = g.State) ∧
      (∀ y : Int, (y = 22 ∨ y = 23 ∨ y = 24 ∨ y = 25) → ¬ Blocked g.Playfield ⟨3, y⟩ bs →
        (∀ y' : Int, 22 ≤ y' → y' < y → Blocked g.Playfield ⟨3, y'⟩ bs) →
        g1.Current = some ⟨pid, 0, ⟨3, y⟩, bs⟩) := by
  obtain ⟨pid, rest, hq⟩ := queueAtPop_ne_nil sh g
  obtain ⟨bs, hb⟩ := buildBlocks_some pid 0 (by norm_num) (by norm_num)
  refine ⟨pid, rest, bs, _, hq, hb, spawnNext_eq sh g pid rest bs hq hb, ?_, ?_, ?_, ?_⟩
  · unfold spawnPlaced
    split_ifs <;> rfl
  · rintro ⟨b22, b23, b24, b25⟩
    simp only [spawnPlaced, b22, b23, b24, b25, not_true_eq_false, if_false]
  · intro hnot
    unfold spawnPlaced
    split_ifs with b22 b23 b24 b25 <;>
      first
        | rfl
        | exact absurd ⟨b22, b23, b24, b25⟩ hnot
  · intro y hy hfree hbelow
    rcases hy with h | h | h | h <;> subst h
    · simp only [spawnPlaced, hfree, not_false_eq_true, if_true]
    · have b22 := hbelow 22 (by norm_num) (by norm_num)
      simp only [spawnPlaced, hfree, b22, not_true_eq_false, not_false_eq_true, if_true, if_false]
    · have b22 := hbelow 22 (by norm_num) (by norm_num)
      have b23 := hbelow 23 (by norm_num) (by norm_num)
      simp only [spawnPlaced, hfree, b22, b23, not_true_eq_false, not_false_eq_true, if_true,
        if_false]
    · have b22 := hbelow 22 (by norm_num) (by norm_num)
      have b23 := hbelow 23 (by norm_num) (by norm_num)
      have b24 := hbelow 24 (by norm_num) (by norm_num)
      simp only [spawnPlaced, hfree, b22, b23, b24, not_true_eq_false, not_false_eq_true,
        if_true, if_false]

/-- Witness for C19: the theorem at the state `floatGame`, whose queue holds the kinds O and T. -/
theorem spawnNext_placement_witness :
    ∃ (pid : PieceID) (rest : List PieceID) (bs : Blocks) (g1 : Game),
      queueAtPop noShuffles floatGame = pid :: rest ∧ buildBlocks pid 0 = some bs ∧
      spawnNext noShuffles floatGame = some g1 ∧ g1.Playfield = floatGame.Playfield ∧
      ((Blocked floatGame.Playfield ⟨3, 22⟩ bs ∧ Blocked floatGame.Playfield ⟨3, 23⟩ bs ∧
          Blocked floatGame.Playfield ⟨3, 24⟩ bs ∧ Blocked floatGame.Playfield ⟨3, 25⟩ bs) →
        g1.State = GameState.GameOver) ∧
      (¬ (Blocked floatGame.Playfield ⟨3, 22⟩ bs ∧ Blocked floatGame.Playfield ⟨3, 23⟩ bs ∧
          Blocked floatGame.Playfield ⟨3, 24⟩ bs ∧ Blocked floatGame.Playfield ⟨3, 25⟩ bs) →
        g1.State = floatGame.State) ∧
      (∀ y : Int, (y = 22 ∨ y = 23 ∨ y = 24 ∨ y = 25) →
        ¬ Blocked floatGame.Playfield ⟨3, y⟩ bs →
        (∀ y' : Int, 22 ≤ y' → y' < y → Blocked floatGame.Playfield ⟨3, y'⟩ bs) →
        g1.Current = some ⟨pid, 0, ⟨3, y⟩, bs⟩) :=
  spawnNext_placement noShuffles floatGame

/-! ## The bag: the sequence of draws -/

theorem queueAtPop_length (sh : Shuffles) (g : Game) : 2 ≤ (queueAtPop sh g).length := by
  unfold queueAtPop
  split_ifs with h
  · rw [List.length_append, shuffledBag_length]
    omega
  · omega

theorem spawnNext_draw (sh : Shuffles) (g : Game) :
    ∃ (pid : PieceID) (rest : List PieceID) (g1 : Game) (p : Piece),
      queueAtPop sh g = pid :: rest ∧ spawnNext sh g = some g1 ∧ g1.NextQueue = rest ∧
      g1.Current = some p ∧ p.ID = pid := by
  obtain ⟨pid, rest, hq⟩ := queueAtPop_ne_nil sh g
  obtain ⟨bs, hb⟩ := buildBlocks_some pid 0 (by norm_num) (by norm_num)
  have hlen := queueAtPop_length sh g
  rw [hq, List.length_cons] at hlen
  have hrest : queueAfterPop sh rest = rest := by
    unfold queueAfterPop
    rw [if_neg (by omega)]
  have hres := spawnNext_eq sh g pid rest bs hq hb
  rw [hrest] at hres
  by_cases b22 : Blocked g.Playfield ⟨3, 22⟩ bs
  · by_cases b23 : Blocked g.Playfield ⟨3, 23⟩ bs
    · by_cases b24 : Blocked g.Playfield ⟨3, 24⟩ bs
      · by_cases b25 : Blocked g.Playfield ⟨3, 25⟩ bs
        · refine ⟨pid, rest, _, ⟨pid, 0, ⟨3, 25⟩, bs⟩, hq, hres, ?_, ?_, rfl⟩ <;>
            simp only [spawnPlaced, b22, b23, b24, b25, not_true_eq_false, if_false]
        · refine ⟨pid, rest, _, ⟨pid, 0, ⟨3, 25⟩, bs⟩, hq, hres, ?_, ?_, rfl⟩ <;>
            simp only [spawnPlaced, b22, b23, b24, b25, not_true_eq_false, not_false_eq_true,
              if_false, if_true]
      · refine ⟨pid, rest, _, ⟨pid, 0, ⟨3, 24⟩, bs⟩, hq, hres, ?_, ?_, rfl⟩ <;>
          simp only [spawnPlaced, b22, b23, b24, not_true_eq_false, not_false_eq_true,
            if_false, if_true]
    · refine ⟨pid, rest, _, ⟨pid, 0, ⟨3, 23⟩, bs⟩, hq, hres, ?_, ?_, rfl⟩ <;>
        simp only [spawnPlaced, b22, b23, not_true_eq_false, not_false_eq_true, if_false,
          if_true]
  · refine ⟨pid, rest, _, ⟨pid, 0, ⟨3, 22⟩, bs⟩, hq, hres, ?_, ?_, rfl⟩ <;>
      simp only [spawnPlaced, b22, not_false_eq_true, if_true]

theorem spawnedKinds_eq (rs : List Round) (g : Game)
    (hplay : ∀ r ∈ rs, ∀ h : Game, (r.play h).NextQueue = h.NextQueue) :
    spawnedKinds g rs
        = (g.NextQueue ++ (appendedBags g.NextQueue.length rs).flatten).take rs.length ∧
      (spawnedKinds g rs).length = rs.length := by
  induction rs generalizing g with
  | nil => simp [spawnedKinds]
  | cons r rest ih =>
    have hq0 : (r.play g).NextQueue = g.NextQueue := hplay r (List.mem_cons_self _ _) g
    obtain ⟨pid, tl, g1, p, hq, hsp, hq1, hcur, hid⟩ := spawnNext_draw r.shuffles (r.play g)
    obtain ⟨ih1, ih2⟩ := ih g1 (fun r' hr' => hplay r' (List.mem_cons_of_mem _ hr'))
    have hstep : spawnedKinds g (r :: rest) = pid :: spawnedKinds g1 rest := by
      simp only [spawnedKinds, hsp, hcur, hid]
    refine ⟨?_, by rw [hstep, List.length_cons, ih2, List.length_cons]⟩
    rw [hstep, ih1, hq1]
    unfold queueAtPop at hq
    rw [hq0] at hq
    by_cases h2 : g.NextQueue.length < 2
    · rw [if_pos h2] at hq
      have hlen : tl.length = g.NextQueue.length + 7 - 1 := by
        have := congrArg List.length hq
        rw [List.length_append, shuffledBag_length, List.length_cons] at this
        omega
      simp only [appendedBags, h2, if_true, List.flatten_cons, List.length_cons]
      rw [← List.append_assoc, hq, hlen, List.cons_append, List.take_succ_cons]
    · rw [if_neg h2] at hq
      have hlen : tl.length = g.NextQueue.length - 1 := by
        have := congrArg List.length hq
        rw [List.length_cons] at this
        omega
      simp only [appendedBags, h2, if_false, List.length_cons]
      rw [hq, hlen, List.cons_append, List.take_succ_cons]
      simp only [List.length_cons, Nat.add_sub_cancel]
      rw [hlen]

theorem appendedBags_perm (rs : List Round) (n : Nat) :
    ∀ b ∈ appendedBags n rs, b.Perm [I, O, T, J, L, S, Z] := by
  induction rs generalizing n with
  | nil => simp [appendedBags]
  | cons r rest ih =>
    intro b hb
    simp only [appendedBags] at hb
    split_ifs at hb
    · rcases List.mem_cons.mp hb with h | h
      · rw [h]
        exact shuffledBag_perm _
      · exact ih _ b h
    · exact ih _ b hb

theorem flatten_window (bags : List (List PieceID)) (h7 : ∀ b ∈ bags, b.length = 7) (k : Nat)
    (hk : 7 * k + 7 ≤ bags.flatten.length) :
    (bags.flatten.drop (7 * k)).take 7 ∈ bags := by
  induction bags generalizing k with
  | nil => simp at hk
  | cons b rest ih =>
    have hb : b.length = 7 := h7 b (List.mem_cons_self _ _)
    rw [List.flatten_cons]
    cases k with
    | zero =>
      rw [Nat.mul_zero, List.drop_zero, List.take_left' hb]
      exact List.mem_cons_self _ _
    | succ j =>
      have e : 7 * (j + 1) = b.length + 7 * j := by omega
      rw [e, List.drop_append]
      apply List.mem_cons_of_mem
      apply ih (fun c hc => h7 c (List.mem_cons_of_mem _ hc))
      rw [List.flatten_cons, List.length_append] at hk
      omega

/-- C20: `refillBag` appends the shuffled bag to the queue and changes nothing else; however the
shuffle swaps, the bag has 7 entries and is a permutation of the 7 kinds. Starting from
`StartGame`, with any play between the spawns that leaves the queue alone, the kind spawned by
`StartGame` followed by the kinds spawned by the successive calls of `spawnNext` are the first
draws of the concatenation of the bag of `StartGame` and the bags appended later, each of them a
permutation of the 7 kinds; so the draws 7k+1 to 7k+7 are a permutation of the 7 kinds. -/
theorem bag_draws :
    (∀ (sw : List Swap) (g : Game),
      refillBag sw g = { g with NextQueue := g.NextQueue ++ shuffledBag sw } ∧
      (shuffledBag sw).length = 7 ∧ (shuffledBag sw).Perm [I, O, T, J, L, S, Z]) ∧
    (∀ (own spawn : Shuffles) (g : Game) (rs : List Round),
      (∀ r ∈ rs, ∀ h : Game, (r.play h).NextQueue = h.NextQueue) →
      ∃ (g0 : Game) (p0 : Piece),
        StartGame own spawn g = some g0 ∧ g0.Current = some p0 ∧
        p0.ID :: spawnedKinds g0 rs
          = ((shuffledBag own.first :: appendedBags 6 rs).flatten).take (rs.length + 1) ∧
        (∀ b ∈ shuffledBag own.first :: appendedBags 6 rs, b.Perm [I, O, T, J, L, S, Z]) ∧
        (∀ k : Nat, 7 * k + 7 ≤ rs.length + 1 →
          (((p0.ID :: spawnedKinds g0 rs).drop (7 * k)).take 7).Perm [I, O, T, J, L, S, Z])) := by
  refine ⟨fun sw g => ⟨rfl, shuffledBag_length sw, shuffledBag_perm sw⟩, ?_⟩
  intro own spawn g rs hplay
  obtain ⟨pid, rest, bs, hbag, hrest, hb, hstart⟩ := StartGame_eq own spawn g
  refine ⟨_, ⟨pid, 0, ⟨3, 22⟩, bs⟩, hstart, rfl, ?_⟩
  obtain ⟨e1, e2⟩ := spawnedKinds_eq rs { g with
      Playfield := fun _ _ => 0, Score := 0, Level := 1, LinesCleared := 0,
      NextQueue := rest, State := GameState.Playing,
      Current := some ⟨pid, 0, ⟨3, 22⟩, bs⟩, LastMoveWasRotation := false } hplay
  simp only [hrest] at e1
  have hperm : ∀ b ∈ shuffledBag own.first :: appendedBags 6 rs,
      b.Perm [I, O, T, J, L, S, Z] := by
    intro b hbm
    rcases List.mem_cons.mp hbm with h | h
    · rw [h]
      exact shuffledBag_perm _
    · exact appendedBags_perm rs 6 b h
  have hkinds : pid :: spawnedKinds { g with
        Playfield := fun _ _ => 0, Score := 0, Level := 1, LinesCleared := 0,
        NextQueue := rest, State := GameState.Playing,
        Current := some ⟨pid, 0, ⟨3, 22⟩, bs⟩, LastMoveWasRotation := false } rs
      = ((shuffledBag own.first :: appendedBags 6 rs).flatten).take (rs.length + 1) := by
    rw [e1, List.flatten_cons, hbag, List.cons_append, List.take_succ_cons]
  refine ⟨hkinds, hperm, ?_⟩
  intro k hk
  have hlen : rs.length + 1 ≤ ((shuffledBag own.first :: appendedBags 6 rs).flatten).length := by
    have := congrArg List.length hkinds
    rw [List.length_cons, e2, List.length_take] at this
    omega
  have hwin : ((pid :: spawnedKinds { g with
        Playfield := fun _ _ => 0, Score := 0, Level := 1, LinesCleared := 0,
        NextQueue := rest, State := GameState.Playing,
        Current := some ⟨pid, 0, ⟨3, 22⟩, bs⟩, LastMoveWasRotation := false } rs).drop
          (7 * k)).take 7
      = (((shuffledBag own.first :: appendedBags 6 rs).flatten).drop (7 * k)).take 7 := by
    rw [hkinds, List.drop_take, List.take_take, Nat.min_eq_left (by omega)]
  rw [hwin]
  exact hperm _ (flatten_window _ (fun b hbm => (hperm b hbm).length_eq) k (by omega))

/-- Witness for C20: a new game followed by 7 rounds of play that change nothing before their
spawn: the first 7 kinds drawn are a permutation of the 7 kinds. -/
theorem bag_draws_witness :
    ∃ (g0 : Game) (p0 : Piece),
      StartGame noShuffles noShuffles freshGame = some g0 ∧ g0.Current = some p0 ∧
      (((p0.ID :: spawnedKinds g0 (List.replicate 7 ⟨id, noShuffles⟩)).drop (7 * 0)).take 7).Perm
        [I, O, T, J, L, S, Z] := by
  obtain ⟨g0, p0, h1, h2, _, _, h5⟩ :=
    bag_draws.2 noShuffles noShuffles freshGame (List.replicate 7 ⟨id, noShuffles⟩)
      (by
        intro r hr h
        rw [List.eq_of_mem_replicate hr]
        rfl)
  exact ⟨g0, p0, h1, h2, h5 0 (by decide)⟩

/-! ## Catalog and queue: the claims -/

/-- C25: for every piece kind (I, O, T, J, L, S, Z) and every rotation state 0..3 the mask in
`PieceShapes` has 4 rows of 4 cells, exactly 4 of which are true. -/
theorem masks_have_four_cells (id : PieceID) (state : Nat)
    (hk : id = I ∨ id = O ∨ id = T ∨ id = J ∨ id = L ∨ id = S ∨ id = Z) (hs : state < 4) :
    ((PieceShapes id).getD state []).length = 4 ∧
    (∀ row ∈ (PieceShapes id).getD state [], row.length = 4) ∧
    trueCells ((PieceShapes id).getD state []) = 4 := by
  have h4 : state = 0 ∨ state = 1 ∨ state = 2 ∨ state = 3 := by omega
  rcases hk with h | h | h | h | h | h | h <;> subst h <;>
    rcases h4 with h | h | h | h <;> subst h <;> decide

/-- Witness for C25: the T piece in rotation state 2. -/
theorem masks_have_four_cells_witness :
    ((PieceShapes T).getD 2 []).length = 4 ∧
    (∀ row ∈ (PieceShapes T).getD 2 [], row.length = 4) ∧
    trueCells ((PieceShapes T).getD 2 []) = 4 :=
  masks_have_four_cells T 2 (by decide) (by decide)

/-- C21: for every state, whatever its queue holds (nothing included), `spawnNext` returns a
state whose queue holds at least one kind and which has an active piece; when the queue was not
empty the kind of that piece is the former head of the queue. -/
theorem spawnNext_queue (sh : Shuffles) (g : Game) :
    ∃ (g1 : Game) (p : Piece),
      spawnNext sh g = some g1 ∧ 1 ≤ g1.NextQueue.length ∧ g1.Current = some p ∧
      (∀ (a : PieceID) (q : List PieceID), g.NextQueue = a :: q → p.ID = a) := by
  obtain ⟨pid, rest, g1, p, hq, hsp, hq1, hcur, hid⟩ := spawnNext_draw sh g
  have hlen := queueAtPop_length sh g
  rw [hq, List.length_cons] at hlen
  refine ⟨g1, p, hsp, by rw [hq1]; omega, hcur, ?_⟩
  intro a q hg
  unfold queueAtPop at hq
  rw [hg] at hq
  split_ifs at hq <;> simp at hq <;> rw [hid, hq.1]

/-- Witness for C21: a spawn from the empty queue. -/
theorem spawnNext_queue_witness :
    ∃ (g1 : Game) (p : Piece),
      spawnNext noShuffles freshGame = some g1 ∧ 1 ≤ g1.NextQueue.length ∧
      g1.Current = some p ∧
      (∀ (a : PieceID) (q : List PieceID), freshGame.NextQueue = a :: q → p.ID = a) :=
  spawnNext_queue noShuffles freshGame

/-! ## Line clearing: the count -/

theorem rowFull_iff (f : Grid) (y : Int) : rowFull f y = true ↔ RowAllNonZero f y := by
  unfold rowFull RowAllNonZero
  simp only [List.all_eq_true, mem_loopRange, bne_iff_ne, ne_eq, and_imp]

theorem mem_rowKeys (p : Piece) (y : Int) : y ∈ rowKeys p ↔ TouchesRow p y := by
  unfold rowKeys TouchesRow
  simp only [List.mem_dedup, List.mem_map]

theorem ascending_reorders : Reorders ascending :=
  fun keys => List.perm_insertionSort _ keys

theorem mem_findFull (order : List Int → List Int) (ho : Reorders order) (f : Grid) (p : Piece)
    (y : Int) :
    y ∈ findFull f (order (rowKeys p))
      ↔ (0 ≤ y ∧ y < VisibleHeight) ∧ TouchesRow p y ∧ RowAllNonZero f y := by
  unfold findFull
  simp only [List.mem_filter, (ho _).mem_iff, mem_rowKeys, Bool.and_eq_true, Bool.not_eq_true',
    Bool.or_eq_false_iff, decide_eq_false_iff_not, rowFull_iff]
  constructor
  · rintro ⟨ht, ⟨h0, h1⟩, hf⟩
    exact ⟨⟨by omega, by omega⟩, ht, hf⟩
  · rintro ⟨⟨h0, h1⟩, ht, hf⟩
    exact ⟨ht, ⟨by omega, by omega⟩, hf⟩

theorem findFull_length (order : List Int → List Int) (ho : Reorders order) (f : Grid)
    (p : Piece) : (findFull f (order (rowKeys p))).length = fullRowCount f p := by
  unfold fullRowCount
  have hnd : (findFull f (order (rowKeys p))).Nodup := by
    unfold findFull
    exact ((ho _).nodup_iff.mpr (List.nodup_dedup _)).filter _
  rw [← List.toFinset_card_of_nodup hnd]
  congr 1
  ext y
  simp only [List.mem_toFinset, Finset.mem_filter, Finset.mem_Ico, mem_findFull order ho]

theorem clearLines_none (order : List Int → List Int) (g : Game) (p : Piece)
    (h : findFull g.Playfield (order (rowKeys p)) = []) : clearLines order g p = (g, 0) := by
  simp only [clearLines, h, List.length_nil, if_true]

theorem spawnPlaced_frame (g : Game) (pid : PieceID) (bs : Blocks) :
    (spawnPlaced g pid bs).Playfield = g.Playfield ∧ (spawnPlaced g pid bs).Score = g.Score ∧
    (spawnPlaced g pid bs).Level = g.Level ∧
    (spawnPlaced g pid bs).LinesCleared = g.LinesCleared ∧
    (spawnPlaced g pid bs).Combo = g.Combo ∧ (spawnPlaced g pid bs).B2B = g.B2B := by
  unfold spawnPlaced
  split_ifs <;> exact ⟨rfl, rfl, rfl, rfl, rfl, rfl⟩

theorem spawnNext_frame (sh : Shuffles) (g g1 : Game) (h : spawnNext sh g = some g1) :
    g1.Playfield = g.Playfield ∧ g1.Score = g.Score ∧ g1.Level = g.Level ∧
    g1.LinesCleared = g.LinesCleared ∧ g1.Combo = g.Combo ∧ g1.B2B = g.B2B := by
  obtain ⟨pid, rest, hq⟩ := queueAtPop_ne_nil sh g
  obtain ⟨bs, hb⟩ := buildBlocks_some pid 0 (by norm_num) (by norm_num)
  rw [spawnNext_eq sh g pid rest bs hq hb] at h
  injection h with h
  subst h
  exact spawnPlaced_frame _ pid bs

theorem lockTail_fields (c : Chance) (g : Game) (p : Piece) (g1 : Game)
    (h : lockTail c g p = some g1) :
    g1.Playfield = (clearLines c.order g p).1.Playfield ∧
    g1.Score = (updateScore (clearLines c.order g p).1 (clearLines c.order g p).2 p).Score ∧
    g1.LinesCleared = (clearLines c.order g p).1.LinesCleared ∧
    g1.Level = max g.Level (Int.tdiv (clearLines c.order g p).1.LinesCleared 10 + 1) ∧
    g1.Combo = (updateScore (clearLines c.order g p).1 (clearLines c.order g p).2 p).Combo ∧
    g1.B2B = (updateScore (clearLines c.order g p).1 (clearLines c.order g p).2 p).B2B := by
  obtain ⟨g3, hl, hs⟩ := lockTail_spawn c g p g1 h
  obtain ⟨f1, f2, f3, f4, f5, f6⟩ := spawnNext_frame _ _ _ hs
  obtain ⟨l1, _, _, l4, l5, l6, l7, _, _, l10⟩ := levelUp_fields _ g3 hl
  obtain ⟨u1, u2, _⟩ :=
    updateScore_frame (clearLines c.order g p).1 (clearLines c.order g p).2 p
  obtain ⟨v1, _⟩ := updateScore_rest (clearLines c.order g p).1 (clearLines c.order g p).2 p
  obtain ⟨w1, _⟩ := clearLines_frame c.order g p
  simp only at f1 f2 f3 f4 f5 f6
  refine ⟨?_, ?_, ?_, ?_, ?_, ?_⟩
  · rw [f1, l1, u1]
  · rw [f2, l4]
  · rw [f4, l5, v1]
  · rw [f3, l10, u2, v1, w1]
  · rw [f5, l7]
  · rw [f6, l6]

/-- C24: every lock of an active piece that returns, returns a state in which `LinesCleared` is
the former total plus the rows cleared by this lock and `Level` is the maximum of the former
`Level` and `LinesCleared / 10 + 1` (truncating division) for that new total, so `Level` never
decreases; the score is the one `updateScore` computes on the state returned by `clearLines`,
whose `Level` is still the former one. The lock returns unless it raises the level to one whose
gravity interval is not positive, which are the levels 28 and 29: there `adjustGravity` panics
after `Level` was set. -/
theorem lockPiece_level (c : Chance) (g : Game) (p : Piece) (hc : g.Current = some p) :
    (lockPiece c g = none ↔ LevelUpPanics g (lockedRows c g p)) ∧
    (LevelUpPanics g (lockedRows c g p) →
      g.Level < 29 ∧
      (Int.tdiv (g.LinesCleared + lockedRows c g p) 10 + 1 = 28 ∨
        Int.tdiv (g.LinesCleared + lockedRows c g p) 10 + 1 = 29)) ∧
    (¬ LevelUpPanics g (lockedRows c g p) → ∃ g1, lockPiece c g = some g1) ∧
    ∀ g1, lockPiece c g = some g1 →
      g1.LinesCleared
        = g.LinesCleared + (clearLines c.order { g with Playfield := paintBlocks g.Playfield p } p).2 ∧
      g1.Level = max g.Level (Int.tdiv g1.LinesCleared 10 + 1) ∧
      g.Level ≤ g1.Level ∧
      (clearLines c.order { g with Playfield := paintBlocks g.Playfield p } p).1.Level = g.Level ∧
      g1.Score
        = (updateScore (clearLines c.order { g with Playfield := paintBlocks g.Playfield p } p).1
            (clearLines c.order { g with Playfield := paintBlocks g.Playfield p } p).2 p).Score := by
  refine ⟨lockPiece_none_iff c g p hc, levelUpPanics_level g _,
    (lockPiece_some_iff c g p hc).mpr, ?_⟩
  intro g1 h1
  rw [lockPiece_eq c g p hc] at h1
  obtain ⟨_, f2, f3, f4, _, _⟩ := lockTail_fields c _ p g1 h1
  obtain ⟨w1, _⟩ := clearLines_frame c.order { g with Playfield := paintBlocks g.Playfield p } p
  have hl := clearLines_linesCleared c.order { g with Playfield := paintBlocks g.Playfield p } p
  have hn := clearLines_count c.order { g with Playfield := paintBlocks g.Playfield p } p
  refine ⟨?_, ?_, ?_, w1, f2⟩
  · rw [f3, hl, hn]
  · rw [f4, f3]
  · rw [f4]
    exact le_max_left _ _

set_option maxRecDepth 100000 in
theorem ninthLineGame_lock :
    (lockPiece plainChance ninthLineGame).map (fun g1 => (g1.LinesCleared, g1.Level, g1.Score))
      = some (10, 2, 100) := by
  decide

/-- Witness for C24: the tenth line is cleared at level 1; the lock returns, scores the 100 points
of a single line at level 1 and raises the level to 2. -/
theorem lockPiece_level_witness :
    ninthLineGame.Level = 1 ∧ ninthLineGame.LinesCleared = 9 ∧ ninthLineGame.Score = 0 ∧
    (lockPiece plainChance ninthLineGame).map (fun g1 => (g1.LinesCleared, g1.Level, g1.Score))
      = some (10, 2, 100) ∧
    (∃ g1, lockPiece plainChance ninthLineGame = some g1) ∧
    ∀ g1, lockPiece plainChance ninthLineGame = some g1 →
      g1.LinesCleared
        = ninthLineGame.LinesCleared +
          (clearLines plainChance.order
            { ninthLineGame with Playfield := paintBlocks ninthLineGame.Playfield flatI } flatI).2 ∧
      g1.Level = max ninthLineGame.Level (Int.tdiv g1.LinesCleared 10 + 1) ∧
      ninthLineGame.Level ≤ g1.Level ∧
      (clearLines plainChance.order
        { ninthLineGame with Playfield := paintBlocks ninthLineGame.Playfield flatI } flatI).1.Level
        = ninthLineGame.Level ∧
      g1.Score
        = (updateScore
            (clearLines plainChance.order
              { ninthLineGame with Playfield := paintBlocks ninthLineGame.Playfield flatI } flatI).1
            (clearLines plainChance.order
              { ninthLineGame with Playfield := paintBlocks ninthLineGame.Playfield flatI } flatI).2
            flatI).Score :=
  ⟨rfl, rfl, rfl, ninthLineGame_lock,
    (lockPiece_level plainChance ninthLineGame flatI rfl).2.2.1 (by decide),
    (lockPiece_level plainChance ninthLineGame flatI rfl).2.2.2⟩

theorem lockPiece_levelReached (c : Chance) (g g1 : Game) (p : Piece)
    (hc : g.Current = some p) (h : lockPiece c g = some g1) : LevelReached g1 := by
  rw [lockPiece_eq c g p hc] at h
  obtain ⟨_, _, f3, f4, _, _⟩ := lockTail_fields c _ p g1 h
  unfold LevelReached
  rw [f4, f3]
  exact le_max_right _ _

theorem StartGame_levelReached (own spawn : Shuffles) (g g1 : Game)
    (h : StartGame own spawn g = some g1) : LevelReached g1 := by
  obtain ⟨pid, rest, bs, _, _, _, he⟩ := StartGame_eq own spawn g
  rw [he] at h
  injection h with h
  subst h
  unfold LevelReached
  norm_num

/-- C23: for every state whose level is at least `LinesCleared / 10 + 1` (as after `StartGame`
and after every lock) and every active piece whose lock completes no visible row, whatever the
order in which the rows are visited: `clearLines` returns 0 and the painted state unchanged (the
phase is not touched), and `lockPiece` returns a state in which every cell inside the grid that is
covered by a block of the piece holds the kind id of the piece, every other cell is as before,
and `Score`, `LinesCleared` and `Level` are unchanged. -/
theorem lockPiece_without_full_row (c : Chance) (g : Game) (p : Piece)
    (hc : g.Current = some p) (ho : Reorders c.order)
    (hnone : fullRowCount (paintBlocks g.Playfield p) p = 0) (hlevel : LevelReached g) :
    clearLines c.order { g with Playfield := paintBlocks g.Playfield p } p
      = ({ g with Playfield := paintBlocks g.Playfield p }, 0) ∧
    ∃ g1, lockPiece c g = some g1 ∧
      (∀ x y, g1.Playfield x y
        = if ∃ b ∈ p.Blocks.toList, PaintsCell p b x y then p.ID else g.Playfield x y) ∧
      g1.Score = g.Score ∧ g1.LinesCleared = g.LinesCleared ∧ g1.Level = g.Level ∧
      LevelReached g1 := by
  have hfind : findFull (paintBlocks g.Playfield p) (c.order (rowKeys p)) = [] := by
    rw [← findFull_length c.order ho] at hnone
    exact List.length_eq_zero.mp hnone
  have hcl := clearLines_none c.order { g with Playfield := paintBlocks g.Playfield p } p hfind
  refine ⟨hcl, ?_⟩
  have hrows : lockedRows c g p = 0 := by
    unfold lockedRows
    rw [hcl]
  have hno : ¬ LevelUpPanics g (lockedRows c g p) := by
    rw [hrows]
    unfold LevelUpPanics LevelReached at *
    rw [add_zero]
    exact fun h => absurd h.1 (not_lt.mpr hlevel)
  obtain ⟨g1, h1⟩ := (lockPiece_some_iff c g p hc).mpr hno
  refine ⟨g1, h1, ?_, ?_, ?_, ?_, lockPiece_levelReached c g g1 p hc h1⟩
  all_goals
    rw [lockPiece_eq c g p hc] at h1
    obtain ⟨f1, f2, f3, f4, _, _⟩ := lockTail_fields c _ p g1 h1
    rw [hcl] at f1 f2 f3 f4
    simp only [updateScore_zero] at f1 f2 f3 f4
  · intro x y
    rw [f1]
    exact paintCells_apply p p.Blocks.toList g.Playfield x y
  · exact f2
  · exact f3
  · rw [f4]
    exact max_eq_left hlevel

/-- Witness for C23: the piece `flatI` is locked on the floor of the empty grid, where it fills
four of the ten cells of row 0. -/
theorem lockPiece_without_full_row_witness :
    clearLines plainChance.order
        { floorGame with Playfield := paintBlocks floorGame.Playfield flatI } flatI
      = ({ floorGame with Playfield := paintBlocks floorGame.Playfield flatI }, 0) ∧
    ∃ g1, lockPiece plainChance floorGame = some g1 ∧
      (∀ x y, g1.Playfield x y
        = if ∃ b ∈ flatI.Blocks.toList, PaintsCell flatI b x y then flatI.ID
          else floorGame.Playfield x y) ∧
      g1.Score = floorGame.Score ∧ g1.LinesCleared = floorGame.LinesCleared ∧
      g1.Level = floorGame.Level ∧ LevelReached g1 :=
  lockPiece_without_full_row plainChance floorGame flatI rfl ascending_reorders (by decide)
    (by decide)

/-! ## Input outside active play -/

theorem HandleInput_pause (own : Shuffles) (c : Chance) (g : Game) (ev : EventKey)
    (hs : g.State = GameState.Playing) (hk : PauseKey ev) :
    HandleInput own c g ev = some { g with State := GameState.Paused } := by
  unfold HandleInput
  unfold PauseKey at hk
  rw [hs]
  exact if_pos hk

theorem HandleInput_resume (own : Shuffles) (c : Chance) (g : Game) (ev : EventKey)
    (hs : g.State = GameState.Paused) (hk : ResumeKey ev) :
    HandleInput own c g ev = some { g with State := GameState.Playing } := by
  unfold HandleInput
  unfold ResumeKey at hk
  rw [hs]
  exact if_pos hk

theorem HandleInput_paused_other (own : Shuffles) (c : Chance) (g : Game) (ev : EventKey)
    (hs : g.State = GameState.Paused) (hk : ¬ ResumeKey ev) :
    HandleInput own c g ev = some g := by
  unfold HandleInput
  unfold ResumeKey at hk
  rw [hs]
  exact if_neg hk

theorem HandleInput_animating (own : Shuffles) (c : Chance) (g : Game) (ev : EventKey)
    (hs : g.State = GameState.Animating) : HandleInput own c g ev = some g := by
  unfold HandleInput
  rw [hs]

/-- C26: in `Playing` a pause key (Escape, p, P) changes only `State`, to `Paused`; in `Paused` a
resume key (Escape, Enter, space, p, P) changes only `State`, to `Playing`, and every other key,
the movement, rotation and drop keys included, returns the state as it is; in `Animating` every
key returns the state as it is; a pause key followed by a resume key returns the state before the
pause. -/
theorem HandleInput_changes_only_phase (own own2 : Shuffles) (c c2 : Chance) (g : Game)
    (ev ev2 : EventKey) :
    (g.State = GameState.Playing → PauseKey ev →
      HandleInput own c g ev = some { g with State := GameState.Paused }) ∧
    (g.State = GameState.Paused → ResumeKey ev →
      HandleInput own c g ev = some { g with State := GameState.Playing }) ∧
    (g.State = GameState.Paused → ¬ ResumeKey ev → HandleInput own c g ev = some g) ∧
    (g.State = GameState.Paused →
      ev.key = Key.KeyLeft ∨ ev.key = Key.KeyRight ∨ ev.key = Key.KeyDown ∨ ev.key = Key.KeyUp →
      HandleInput own c g ev = some g) ∧
    (g.State = GameState.Animating → HandleInput own c g ev = some g) ∧
    (g.State = GameState.Playing → PauseKey ev → ResumeKey ev2 →
      (HandleInput own c g ev).bind (fun g1 => HandleInput own2 c2 g1 ev2) = some g) := by
  refine ⟨HandleInput_pause own c g ev, HandleInput_resume own c g ev,
    HandleInput_paused_other own c g ev, ?_, HandleInput_animating own c g ev, ?_⟩
  · intro hs hk
    apply HandleInput_paused_other own c g ev hs
    unfold ResumeKey
    rcases hk with h | h | h | h <;> rw [h] <;> simp
  · intro hs hk hk2
    rw [HandleInput_pause own c g ev hs hk, Option.some_bind,
      HandleInput_resume own2 c2 _ ev2 rfl hk2]
    cases g
    simp only at hs
    subst hs
    rfl

/-- Witness for C26: Escape and then p in the state `floatGame`, the left arrow in the paused
state and the space bar during the animation. -/
theorem HandleInput_changes_only_phase_witness :
    HandleInput noShuffles plainChance floatGame ⟨Key.KeyEscape, 'x'⟩
      = some { floatGame with State := GameState.Paused } ∧
    HandleInput noShuffles plainChance { floatGame with State := GameState.Paused }
        ⟨Key.KeyRune, 'p'⟩
      = some { floatGame with State := GameState.Playing } ∧
    HandleInput noShuffles plainChance { floatGame with State := GameState.Paused }
        ⟨Key.KeyLeft, 'x'⟩
      = some { floatGame with State := GameState.Paused } ∧
    HandleInput noShuffles plainChance { floatGame with State := GameState.Animating }
        ⟨Key.KeyRune, space⟩
      = some { floatGame with State := GameState.Animating } ∧
    (HandleInput noShuffles plainChance floatGame ⟨Key.KeyEscape, 'x'⟩).bind
        (fun g1 => HandleInput noShuffles plainChance g1 ⟨Key.KeyRune, 'p'⟩)
      = some floatGame :=
  ⟨(HandleInput_changes_only_phase noShuffles noShuffles plainChance plainChance floatGame
      ⟨Key.KeyEscape, 'x'⟩ ⟨Key.KeyRune, 'p'⟩).1 rfl (by decide),
   (HandleInput_changes_only_phase noShuffles noShuffles plainChance plainChance
      { floatGame with State := GameState.Paused } ⟨Key.KeyRune, 'p'⟩ ⟨Key.KeyRune, 'p'⟩).2.1
      rfl (by decide),
   (HandleInput_changes_only_phase noShuffles noShuffles plainChance plainChance
      { floatGame with State := GameState.Paused } ⟨Key.KeyLeft, 'x'⟩ ⟨Key.KeyRune, 'p'⟩).2.2.2.1
      rfl (by decide),
   (HandleInput_changes_only_phase noShuffles noShuffles plainChance plainChance
      { floatGame with State := GameState.Animating } ⟨Key.KeyRune, space⟩
      ⟨Key.KeyRune, 'p'⟩).2.2.2.2.1 rfl,
   (HandleInput_changes_only_phase noShuffles noShuffles plainChance plainChance floatGame
      ⟨Key.KeyEscape, 'x'⟩ ⟨Key.KeyRune, 'p'⟩).2.2.2.2.2 rfl (by decide) (by decide)⟩

/-! ## Grid accesses stay inside the array -/

theorem readCell_inGrid (f : Grid) (x y : Int) (h : InGrid x y) :
    readCell f x y = some (f x y) := if_pos h

theorem writeCell_inGrid (f : Grid) (x y v : Int) (h : InGrid x y) :
    writeCell f x y v = some (setCell f x y v) := if_pos h

theorem foldlM_some {α β : Type} (step : β → α → Option β) (next : β → α → β) (l : List α)
    (h : ∀ a ∈ l, ∀ s, step s a = some (next s a)) (s : β) :
    l.foldlM step s = some (l.foldl next s) := by
  induction l generalizing s with
  | nil => rfl
  | cons a rest ih =>
    rw [List.foldlM_cons, h a (List.mem_cons_self _ _) s, List.foldl_cons]
    exact ih (fun b hb => h b (List.mem_cons_of_mem _ hb)) _

theorem collidesAtChecked_eq (f : Grid) (pos : Point) (l : List Point) :
    collidesAtChecked f pos l = some (collidesAt f pos l) := by
  induction l with
  | nil => rfl
  | cons b rest ih =>
    simp only [collidesAtChecked, collidesAt]
    by_cases h1 : pos.X + b.X < 0 ∨ pos.X + b.X ≥ PlayWidth
    · rw [if_pos h1, if_pos h1]
    · rw [if_neg h1, if_neg h1]
      by_cases h2 : pos.Y + b.Y < 0
      · rw [if_pos h2, if_pos h2]
      · rw [if_neg h2, if_neg h2]
        by_cases h3 : pos.Y + b.Y ≥ TotalHeight
        · rw [if_pos h3, if_pos h3]
        · rw [if_neg h3, if_neg h3]
          have hin : InGrid (pos.X + b.X) (pos.Y + b.Y) := by
            unfold InGrid
            omega
          rw [readCell_inGrid f _ _ hin]
          simp only
          by_cases h4 : f (pos.X + b.X) (pos.Y + b.Y) ≠ 0
          · rw [if_pos h4, if_pos h4]
          · rw [if_neg h4, if_neg h4]
            exact ih

theorem checkCollisionChecked_eq (g : Game) :
    checkCollisionChecked g = some (checkCollision g) := by
  unfold checkCollisionChecked checkCollision
  cases g.Current with
  | none => rfl
  | some p => exact collidesAtChecked_eq _ _ _

theorem paintBlocksChecked_eq (f : Grid) (p : Piece) :
    paintBlocksChecked f p = some (paintBlocks f p) := by
  unfold paintBlocksChecked paintBlocks
  apply foldlM_some
  intro b _ s
  simp only
  split_ifs with h
  · exact writeCell_inGrid s _ _ _ ⟨h.1, h.2.1, h.2.2.1, h.2.2.2⟩
  · rfl

theorem rowFullChecked_eq (f : Grid) (row : Int) (hr : 0 ≤ row ∧ row < TotalHeight)
    (l : List Int) (hl : ∀ x ∈ l, 0 ≤ x ∧ x < PlayWidth) :
    rowFullChecked f row l = some (l.all fun x => f x row != 0) := by
  induction l with
  | nil => rfl
  | cons x rest ih =>
    have hx := hl x (List.mem_cons_self _ _)
    have hin : InGrid x row := ⟨hx.1, hx.2, hr.1, hr.2⟩
    simp only [rowFullChecked, readCell_inGrid f x row hin, List.all_cons]
    by_cases h0 : f x row = 0
    · simp [h0]
    · rw [if_neg h0, ih (fun y hy => hl y (List.mem_cons_of_mem _ hy))]
      simp [h0]

theorem findFullChecked_eq (f : Grid) (keys : List Int) :
    findFullChecked f keys = some (findFull f keys) := by
  induction keys with
  | nil => rfl
  | cons row rest ih =>
    simp only [findFullChecked, ih]
    by_cases h : row < 0 ∨ row ≥ VisibleHeight
    · rw [if_pos h]
      have hd : (!(decide (row < 0) || decide (row ≥ VisibleHeight)) && rowFull f row) = false := by
        rcases h with h | h <;> simp [h]
      simp only [findFull, List.filter_cons, hd, Bool.false_eq_true, if_false]
    · rw [if_neg h]
      have hr : 0 ≤ row ∧ row < TotalHeight := by
        simp only [VisibleHeight, TotalHeight] at *
        omega
      rw [rowFullChecked_eq f row hr _ (fun x hx => (mem_loopRange _ _ _).mp hx)]
      have hd : (!(decide (row < 0) || decide (row ≥ VisibleHeight))) = true := by
        simp only [not_or, not_lt, ge_iff_le, not_le] at h
        simp [h.1, h.2]
      simp only [findFull, List.filter_cons, hd, Bool.true_and, rowFull]

theorem shiftRowChecked_eq (f : Grid) (y : Int) (hy : 0 ≤ y ∧ y + 1 < TotalHeight) :
    shiftRowChecked f y = some (shiftRow f y) := by
  unfold shiftRowChecked shiftRow
  apply foldlM_some
  intro x hx s
  have hx2 := (mem_loopRange _ _ _).mp hx
  rw [readCell_inGrid s x (y + 1) ⟨hx2.1, hx2.2, by omega, hy.2⟩]
  exact writeCell_inGrid s x y _ ⟨hx2.1, hx2.2, hy.1, by omega⟩

theorem pullHiddenChecked_eq (f : Grid) : pullHiddenChecked f = some (pullHidden f) := by
  unfold pullHiddenChecked pullHidden
  apply foldlM_some
  intro x hx s
  have hx2 := (mem_loopRange _ _ _).mp hx
  have hlt : VisibleHeight < TotalHeight := by decide
  rw [if_pos hlt, if_pos hlt, readCell_inGrid s x VisibleHeight ⟨hx2.1, hx2.2, by decide, hlt⟩]
  simp only
  rw [writeCell_inGrid s x (VisibleHeight - 1) _ ⟨hx2.1, hx2.2, by decide, by decide⟩]
  exact writeCell_inGrid _ x VisibleHeight 0 ⟨hx2.1, hx2.2, by decide, hlt⟩

theorem removeRowChecked_eq (f : Grid) (row : Int) (hr : 0 ≤ row) :
    removeRowChecked f row = some (removeRow f row) := by
  unfold removeRowChecked removeRow
  have h1 : (loopRange row (VisibleHeight - 1)).foldlM shiftRowChecked f
      = some ((loopRange row (VisibleHeight - 1)).foldl shiftRow f) := by
    apply foldlM_some
    intro y hy s
    have hy2 := (mem_loopRange _ _ _).mp hy
    apply shiftRowChecked_eq
    simp only [VisibleHeight, TotalHeight] at *
    omega
  rw [h1]
  exact pullHiddenChecked_eq _

theorem clearLinesChecked_eq (order : List Int → List Int) (g : Game) (p : Piece) :
    clearLinesChecked order g p = some (clearLines order g p) := by
  unfold clearLinesChecked
  rw [findFullChecked_eq]
  simp only [clearLines]
  split_ifs with h
  · rfl
  · have h1 : (findFull g.Playfield (order (rowKeys p))).foldlM removeRowChecked g.Playfield
        = some ((findFull g.Playfield (order (rowKeys p))).foldl removeRow g.Playfield) := by
      apply foldlM_some
      intro r hr s
      exact removeRowChecked_eq s r (findFull_mem _ _ _ hr).1
    rw [h1]

theorem detectTSpinChecked_eq (g : Game) (p : Piece) :
    detectTSpinChecked g p = some (detectTSpin g p) := by
  unfold detectTSpinChecked detectTSpin
  split_ifs with h
  · rfl
  · simp only
    rw [foldlM_some _
      (fun (occupied : Int) (c : Point) =>
        if c.X < 0 ∨ c.X ≥ PlayWidth ∨ c.Y < 0 ∨ c.Y ≥ TotalHeight ∨ g.Playfield c.X c.Y ≠ 0
        then occupied + 1 else occupied)]
    intro c _ s
    by_cases hout : c.X < 0 ∨ c.X ≥ PlayWidth ∨ c.Y < 0 ∨ c.Y ≥ TotalHeight
    · have h2 : c.X < 0 ∨ c.X ≥ PlayWidth ∨ c.Y < 0 ∨ c.Y ≥ TotalHeight ∨ g.Playfield c.X c.Y ≠ 0 := by
        rcases hout with h | h | h | h
        · exact Or.inl h
        · exact Or.inr (Or.inl h)
        · exact Or.inr (Or.inr (Or.inl h))
        · exact Or.inr (Or.inr (Or.inr (Or.inl h)))
      rw [if_pos hout, if_pos h2]
    · rw [if_neg hout]
      have hin : InGrid c.X c.Y := by
        unfold InGrid
        simp only [not_or, not_lt, ge_iff_le, not_le] at hout
        exact ⟨hout.1, hout.2.1, hout.2.2.1, hout.2.2.2⟩
      rw [readCell_inGrid _ _ _ hin]
      simp only
      by_cases hv : g.Playfield c.X c.Y ≠ 0
      · rw [if_pos hv, if_pos (Or.inr (Or.inr (Or.inr (Or.inr hv))))]
      · rw [if_neg hv, if_neg (fun hh => by
          rcases hh with h | h | h | h | h
          · exact hout (Or.inl h)
          · exact hout (Or.inr (Or.inl h))
          · exact hout (Or.inr (Or.inr (Or.inl h)))
          · exact hout (Or.inr (Or.inr (Or.inr h)))
          · exact hv h)]

/-- C27: for every state, every order of the rows and every piece at any integer position, the
functions `checkCollision`, `clearLines`, `detectTSpin` and the painting loop of `lockPiece`,
run with the bounds check of the array at each access to the grid, never fail that check: each
returns the result of the function without the check. `checkCollision` is true exactly when some
block of the active piece lies outside `[0, PlayWidth) x [0, TotalHeight)` or on a non-zero
cell; the painting loop writes the kind id to the cells inside the grid that a block covers and
to no other cell; `detectTSpin` counts a corner outside the grid as occupied. -/
theorem grid_accesses_in_bounds (order : List Int → List Int) (g : Game) (p : Piece) :
    checkCollisionChecked g = some (checkCollision g) ∧
    paintBlocksChecked g.Playfield p = some (paintBlocks g.Playfield p) ∧
    clearLinesChecked order g p = some (clearLines order g p) ∧
    detectTSpinChecked g p = some (detectTSpin g p) ∧
    (checkCollision g = true
      ↔ ∃ q, g.Current = some q ∧ Blocked g.Playfield q.Position q.Blocks) ∧
    (∀ x y, paintBlocks g.Playfield p x y
      = if ∃ b ∈ p.Blocks.toList, PaintsCell p b x y then p.ID else g.Playfield x y) ∧
    detectTSpin g p = (g.LastMoveWasRotation && decide (3 ≤ occupiedCorners g p)) := by
  refine ⟨checkCollisionChecked_eq g, paintBlocksChecked_eq _ p, clearLinesChecked_eq order g p,
    detectTSpinChecked_eq g p, ?_, ?_, detectTSpin_eq g p⟩
  · cases hc : g.Current with
    | none =>
      simp [checkCollision, hc]
    | some q =>
      rw [checkCollision_iff g q hc]
      constructor
      · intro h
        exact ⟨q, rfl, h⟩
      · rintro ⟨q2, hq, h⟩
        injection hq with hq
        subst hq
        exact h
  · intro x y
    exact paintCells_apply p p.Blocks.toList g.Playfield x y

/-! ## Where gravity locks -/

/-- C30 (evaluation of the code): in the Playing state `lowGame` the I piece at `Position.Y = 0`
does not collide and would not collide one row lower, yet `ApplyGravity` locks it where it is:
the result is that of `lockPiece` on the piece at `Position.Y = 0`, row 1 holds the kind id and
row 0 stays empty. In the Playing state `overhangGame` the I piece at `Position.Y = -1` lies in
row 0 without colliding, under a locked cell of row 1; `ApplyGravity` sets the phase to
`GameOver`, puts the piece to `Position.Y = 0` and locks it there, so that the cell at column 0
of row 1, which held 5, is overwritten with the kind id 1. The ticker of `loop` does not call
`ApplyGravity` in that second state. -/
theorem ApplyGravity_locks_off_the_stack :
    lowGame.State = GameState.Playing ∧ lowGame.Current = some lowI ∧
    checkCollision lowGame = false ∧
    ¬ Blocked lowGame.Playfield ⟨lowI.Position.X, lowI.Position.Y - 1⟩ lowI.Blocks ∧
    ApplyGravity plainChance plainChance lowGame
      = lockPiece plainChance { lowGame with LastMoveWasRotation := false } ∧
    (ApplyGravity plainChance plainChance lowGame).map
        (fun g => (g.Playfield 0 0, g.Playfield 0 1, g.Playfield 3 1))
      = some (0, 1, 1) ∧
    overhangGame.State = GameState.Playing ∧ overhangGame.Current = some flatI ∧
    checkCollision overhangGame = false ∧ overhangGame.Playfield 0 1 = 5 ∧
    (ApplyGravity plainChance plainChance overhangGame).map
        (fun g => (g.State, g.Playfield 0 1, g.Playfield 0 0))
      = some (GameState.GameOver, 1, 0) ∧
    (gravityTick plainChance plainChance overhangGame).map
        (fun g => (g.State, g.Current, g.Playfield 0 1))
      = some (GameState.Playing, some flatI, 5) := by
  refine ⟨rfl, rfl, by decide, by decide, ?_, by decide, rfl, rfl, by decide, by decide,
    by decide, by decide⟩
  rfl

/-! ## Gravity interval: order of the levels -/

theorem gravityForLevel_le_iff (a b : Int) :
    gravityForLevel b ≤ gravityForLevel a ↔ gravityTicks b ≤ gravityTicks a := by
  rw [gravityForLevel_tdiv, gravityForLevel_tdiv, tdiv60_eq, tdiv60_eq]
  generalize gravityTicks a = m
  generalize gravityTicks b = n
  split_ifs <;> omega

/-- C33 (evaluation of the code): the interval is not monotone in the level. From level 9 to
level 10 it grows from 3/60 s to 28/60 s, and from the levels 28 and 29 (0 and a negative
duration) to level 30 it grows to 1/60 s. The order of two intervals is the order of the numbers
of sixtieths `gravityTicks`, so the interval does not grow within the levels 1 to 9, within the
levels 10 to 29 and from level 30 on. -/
theorem gravityForLevel_not_monotone :
    gravityForLevel 9 = 50000000 ∧ gravityForLevel 10 = 466666666 ∧
    ¬ gravityForLevel 10 ≤ gravityForLevel 9 ∧
    ¬ gravityForLevel 30 ≤ gravityForLevel 29 ∧ ¬ gravityForLevel 30 ≤ gravityForLevel 28 ∧
    (∀ a b : Int, gravityForLevel b ≤ gravityForLevel a ↔ gravityTicks b ≤ gravityTicks a) ∧
    (∀ a b : Int, 1 ≤ a → a ≤ b → b ≤ 9 ∨ (10 ≤ a ∧ b ≤ 29) ∨ 30 ≤ a →
      gravityForLevel b ≤ gravityForLevel a) := by
  refine ⟨by decide, by decide, by decide, by decide, by decide, gravityForLevel_le_iff, ?_⟩
  intro a b h1 hab hr
  rw [gravityForLevel_le_iff]
  unfold gravityTicks
  split_ifs <;> omega

/-! ## The blocks of the active piece follow its rotation state -/

theorem buildBlocks_catalog (id : PieceID) (state : Int) (hk : IsKind id) (h0 : 0 ≤ state)
    (h4 : state < 4) (bs : Blocks) (hb : buildBlocks id state = some bs) :
    bs.toList = catalogOffsets id state := by
  have hs : state = 0 ∨ state = 1 ∨ state = 2 ∨ state = 3 := by omega
  have key : (buildBlocks id state).map Blocks.toList = some (catalogOffsets id state) := by
    rcases hk with h | h | h | h | h | h | h <;> subst h <;>
      rcases hs with h | h | h | h <;> subst h <;> decide
  rw [hb] at key
  simpa using key

theorem catalogOffsets_distinct (id : PieceID) (state : Int) (hk : IsKind id) (h0 : 0 ≤ state)
    (h4 : state < 4) :
    (catalogOffsets id state).length = 4 ∧ (catalogOffsets id state).Nodup ∧
    ∀ b ∈ catalogOffsets id state, 0 ≤ b.X ∧ b.X < 4 ∧ 0 ≤ b.Y ∧ b.Y < 4 := by
  have hs : state = 0 ∨ state = 1 ∨ state = 2 ∨ state = 3 := by omega
  rcases hk with h | h | h | h | h | h | h <;> subst h <;>
    rcases hs with h | h | h | h <;> subst h <;> decide

theorem spawnNext_shaped (sh : Shuffles) (g : Game) (hk : KindsOnly g) :
    ∃ g1, spawnNext sh g = some g1 ∧ Shaped g1 := by
  obtain ⟨pid, rest, hq⟩ := queueAtPop_ne_nil sh g
  obtain ⟨bs, hb⟩ := buildBlocks_some pid 0 (by norm_num) (by norm_num)
  refine ⟨_, spawnNext_eq sh g pid rest bs hq hb, ?_⟩
  have hall : ∀ k ∈ queueAtPop sh g, IsKind k := by
    intro k hm
    unfold queueAtPop at hm
    split_ifs at hm
    · rcases List.mem_append.mp hm with h | h
      · exact hk k h
      · exact shuffledBag_mem _ k h
    · exact hk k hm
  rw [hq] at hall
  have hpid : IsKind pid := hall pid (List.mem_cons_self _ _)
  have hrest : ∀ k ∈ queueAfterPop sh rest, IsKind k := by
    intro k hm
    unfold queueAfterPop at hm
    split_ifs at hm
    · rcases List.mem_append.mp hm with h | h
      · exact hall k (List.mem_cons_of_mem _ h)
      · exact shuffledBag_mem _ k h
    · exact hall k (List.mem_cons_of_mem _ hm)
  have hw : ∀ pos : Point, WellShaped ⟨pid, 0, pos, bs⟩ := fun pos =>
    ⟨hpid, le_refl _, by norm_num, buildBlocks_catalog pid 0 hpid (le_refl _) (by norm_num) bs hb⟩
  unfold spawnPlaced
  split_ifs
  · exact ⟨hrest, _, rfl, hw _⟩
  · exact ⟨hrest, _, rfl, hw _⟩
  · exact ⟨hrest, _, rfl, hw _⟩
  · exact ⟨hrest, _, rfl, hw _⟩
  · exact ⟨hrest, _, rfl, hw _⟩

theorem moveLeft_shaped (g : Game) (h : Shaped g) : ∃ g1, moveLeft g = some g1 ∧ Shaped g1 := by
  obtain ⟨hk, p, hc, hw⟩ := h
  unfold moveLeft
  simp only [hc]
  split_ifs
  · exact ⟨_, rfl, hk, _, rfl, hw⟩
  · exact ⟨_, rfl, hk, _, rfl, hw⟩

theorem moveRight_shaped (g : Game) (h : Shaped g) :
    ∃ g1, moveRight g = some g1 ∧ Shaped g1 := by
  obtain ⟨hk, p, hc, hw⟩ := h
  unfold moveRight
  simp only [hc]
  split_ifs
  · exact ⟨_, rfl, hk, _, rfl, hw⟩
  · exact ⟨_, rfl, hk, _, rfl, hw⟩

theorem dropLoop_shape (g : Game) (n : Nat) :
    ∀ (p : Piece) (dd : Int), (TotalHeight + 1 - dd).toNat ≤ n →
      (dropLoop g p dd).1.ID = p.ID ∧ (dropLoop g p dd).1.RotationState = p.RotationState ∧
      (dropLoop g p dd).1.Blocks = p.Blocks := by
  induction n with
  | zero =>
    intro p dd h
    rw [dropLoop]
    split_ifs with h1 h2
    · exact ⟨rfl, rfl, rfl⟩
    · exact ⟨rfl, rfl, rfl⟩
    · exfalso
      simp only [TotalHeight] at *
      omega
  | succ k ih =>
    intro p dd h
    rw [dropLoop]
    split_ifs with h1 h2
    · exact ⟨rfl, rfl, rfl⟩
    · exact ⟨rfl, rfl, rfl⟩
    · refine ih _ (dd + 1) ?_
      simp only [TotalHeight] at *
      omega

theorem rotate_shaped (g : Game) (h : Shaped g) : ∃ g1, rotate g = some g1 ∧ Shaped g1 := by
  obtain ⟨hk, p, hc, hid, h0, h4, hb⟩ := h
  have hr0 : 0 ≤ Int.tmod (p.RotationState + 1) 4 := Int.tmod_nonneg _ (by omega)
  have hr4 : Int.tmod (p.RotationState + 1) 4 < 4 := Int.tmod_lt_of_pos _ (by norm_num)
  obtain ⟨bs, hbs⟩ := buildBlocks_some p.ID _ hr0 hr4
  unfold rotate
  simp only [hc, hbs, if_neg (not_lt.mpr hr0)]
  split_ifs
  · exact ⟨_, rfl, hk, _, rfl, hid, h0, h4, hb⟩
  · exact ⟨_, rfl, hk, _, rfl, hid, hr0, hr4, buildBlocks_catalog p.ID _ hid hr0 hr4 bs hbs⟩

theorem dropLoop_piece (g : Game) (p : Piece) :
    (dropLoop g p 0).1 = { p with Position := (dropLoop g p 0).1.Position } := by
  obtain ⟨s1, s2, s3⟩ := dropLoop_shape g _ p 0 (le_refl _)
  cases hr : (dropLoop g p 0).1 with
  | mk id rs pos bs =>
    rw [hr] at s1 s2 s3
    simp only at s1 s2 s3
    rw [s1, s2, s3]

theorem spawnNext_spawn_row (sh : Shuffles) (g g1 : Game) (h : spawnNext sh g = some g1) :
    ∃ q, g1.Current = some q ∧ 22 ≤ q.Position.Y := by
  obtain ⟨pid, rest, hq⟩ := queueAtPop_ne_nil sh g
  obtain ⟨bs, hb⟩ := buildBlocks_some pid 0 (by norm_num) (by norm_num)
  rw [spawnNext_eq sh g pid rest bs hq hb] at h
  injection h with h
  subst h
  unfold spawnPlaced
  split_ifs <;> exact ⟨_, rfl, by norm_num⟩

theorem tdiv10_eq (x : Int) :
    Int.tdiv x 10 = if 0 ≤ x then x / 10 else -((-x) / 10) := by
  split_ifs with h
  · exact Int.tdiv_eq_ediv h (by norm_num)
  · have h2 : Int.tdiv (-x) 10 = (-x) / 10 := Int.tdiv_eq_ediv (by omega) (by norm_num)
    rw [Int.neg_tdiv] at h2
    omega

theorem lockedRows_le (c : Chance) (g : Game) (p : Piece) (ho : Reorders c.order) :
    0 ≤ lockedRows c g p ∧ lockedRows c g p ≤ 4 := by
  rw [lockedRows_eq]
  have h1 : (findFull (paintBlocks g.Playfield p) (c.order (rowKeys p))).length
      ≤ (c.order (rowKeys p)).length := by
    unfold findFull
    exact List.length_filter_le _ _
  have h2 : (c.order (rowKeys p)).length = (rowKeys p).length := (ho _).length_eq
  have h3 : (rowKeys p).length ≤ 4 := by
    unfold rowKeys
    have := (List.dedup_sublist (p.Blocks.toList.map fun b => p.Position.Y + b.Y)).length_le
    simpa [Blocks.toList] using this
  constructor
  · exact Int.natCast_nonneg _
  · have : (findFull (paintBlocks g.Playfield p) (c.order (rowKeys p))).length ≤ 4 := by omega
    exact_mod_cast this

theorem panicsIn_lines (cs : List Chance) (g : Game) (h : PanicsIn cs g) :
    g.Level < 29 ∧ ((∀ c ∈ cs, Reorders c.order) → 266 ≤ g.LinesCleared) := by
  obtain ⟨c, hc, p, pos, _, hp⟩ := h
  obtain ⟨h1, h2⟩ := levelUpPanics_level g _ hp
  refine ⟨h1, fun hfair => ?_⟩
  obtain ⟨n0, n4⟩ := lockedRows_le c g { p with Position := pos } (hfair c hc)
  rw [tdiv10_eq] at h2
  split_ifs at h2 <;> omega

theorem lockPiece_returnsOrPanics (c : Chance) (cs : List Chance) (hcs : c ∈ cs)
    (g g2 : Game) (p : Piece) (pos : Point) (P : Game → Prop)
    (hg : g.Current = some p) (hc : g2.Current = some { p with Position := pos })
    (hP : g2.Playfield = g.Playfield) (hL : g2.Level = g.Level)
    (hC : g2.LinesCleared = g.LinesCleared)
    (hsome : ∀ g1, lockPiece c g2 = some g1 → P g1) :
    ReturnsOrPanics cs g (lockPiece c g2) P := by
  cases h : lockPiece c g2 with
  | none =>
    exact Or.inr ⟨rfl, c, hcs, p, pos, hg, (lockPiece_none_iff_of c g g2 _ hc hP hL hC).mp h⟩
  | some g1 => exact Or.inl ⟨g1, rfl, hsome g1 h⟩

theorem lockPiece_shaped (c : Chance) (g : Game) (p : Piece) (g1 : Game)
    (h : lockPiece c g = some g1) (hk : KindsOnly g) (hc : g.Current = some p) : Shaped g1 := by
  rw [lockPiece_eq c g p hc] at h
  obtain ⟨g3, hl, hs⟩ := lockTail_spawn c _ p g1 h
  obtain ⟨_, _, l3, _⟩ := levelUp_fields _ g3 hl
  obtain ⟨_, _, _, hq⟩ := updateScore_rest
    (clearLines c.order { g with Playfield := paintBlocks g.Playfield p } p).1
    (clearLines c.order { g with Playfield := paintBlocks g.Playfield p } p).2 p
  obtain ⟨_, _, _, _, _, hq2, _⟩ :=
    clearLines_frame c.order { g with Playfield := paintBlocks g.Playfield p } p
  have hk3 : KindsOnly { g3 with Current := none } := by
    unfold KindsOnly
    simp only [l3, hq, hq2]
    exact hk
  obtain ⟨g1', e, sh⟩ := spawnNext_shaped c.shuffles { g3 with Current := none } hk3
  rw [hs] at e
  injection e with e
  rw [e]
  exact sh

theorem lockPiece_spawn_row (c : Chance) (g : Game) (p : Piece) (g1 : Game)
    (hc : g.Current = some p) (h : lockPiece c g = some g1) :
    ∃ q, g1.Current = some q ∧ 22 ≤ q.Position.Y := by
  rw [lockPiece_eq c g p hc] at h
  obtain ⟨g3, _, hs⟩ := lockTail_spawn c _ p g1 h
  exact spawnNext_spawn_row _ _ _ hs

theorem ApplyGravity_eq (c1 c2 : Chance) (g : Game) (p : Piece) (hc : g.Current = some p)
    (hs : g.State = GameState.Playing) :
    ApplyGravity c1 c2 g =
      if checkCollision { g with
          LastMoveWasRotation := false,
          Current := some { p with Position := ⟨p.Position.X, p.Position.Y - 1⟩ } } = true then
        (if p.Position.Y ≥ 0 ∧ p.Position.Y < TotalHeight then
          lockPiece c1 { g with
            LastMoveWasRotation := false,
            Current := some { p with Position := ⟨p.Position.X, p.Position.Y⟩ } }
        else if p.Position.Y < 0 then
          lockPiece c2 { g with
            LastMoveWasRotation := false, State := GameState.GameOver,
            Current := some { p with Position := ⟨p.Position.X, 0⟩ } }
        else
          some { g with
            LastMoveWasRotation := false, State := GameState.GameOver,
            Current := some { p with Position := ⟨p.Position.X, p.Position.Y⟩ } })
      else
        (if p.Position.Y - 1 < 0 then
          lockPiece c2 { g with
            LastMoveWasRotation := false,
            Current := some { p with Position := ⟨p.Position.X, 0⟩ } }
        else
          some { g with
            LastMoveWasRotation := false,
            Current := some { p with Position := ⟨p.Position.X, p.Position.Y - 1⟩ } }) := by
  unfold ApplyGravity
  rw [if_neg (not_not.mpr hs)]
  simp only [hc]
  by_cases h1 : checkCollision { g with
      LastMoveWasRotation := false,
      Current := some { p with Position := ⟨p.Position.X, p.Position.Y - 1⟩ } } = true
  · rw [if_pos h1, if_pos h1]
    by_cases h2 : p.Position.Y ≥ 0 ∧ p.Position.Y < TotalHeight
    · rw [if_pos h2, if_pos h2]
      cases e4 : lockPiece c1
          { g with LastMoveWasRotation := false,
                   Current := some { p with Position := ⟨p.Position.X, p.Position.Y⟩ } } with
      | none => rfl
      | some g4 =>
        obtain ⟨q, hq, hrow⟩ := lockPiece_spawn_row c1 _ _ g4 rfl e4
        simp only [hq, if_neg (show ¬ q.Position.Y < 0 by omega)]
    · rw [if_neg h2, if_neg h2]
  · rw [if_neg h1, if_neg h1]

theorem softDrop_shaped (c : Chance) (g : Game) (h : Shaped g) :
    ReturnsOrPanics [c] g (softDrop c g) Shaped := by
  obtain ⟨hk, p, hc, hw⟩ := h
  unfold softDrop
  simp only [hc]
  split_ifs
  · exact lockPiece_returnsOrPanics c [c] (List.mem_singleton.mpr rfl) g
      { g with LastMoveWasRotation := false,
               Current := some { p with Position := ⟨p.Position.X, p.Position.Y⟩ } }
      p ⟨p.Position.X, p.Position.Y⟩ Shaped hc rfl rfl rfl rfl
      (fun g1 h1 => lockPiece_shaped c _ _ g1 h1 hk rfl)
  · exact Or.inl ⟨_, rfl, hk, _, rfl, hw⟩

theorem hardDrop_shaped (c : Chance) (g : Game) (h : Shaped g) :
    ReturnsOrPanics [c] g (hardDrop c g) Shaped := by
  obtain ⟨hk, p, hc, hw⟩ := h
  have hp := dropLoop_piece { g with LastMoveWasRotation := false, Current := some p } p
  obtain ⟨s1, s2, s3⟩ :=
    dropLoop_shape { g with LastMoveWasRotation := false, Current := some p } _ p 0 (le_refl _)
  have hw2 : WellShaped
      (dropLoop { g with LastMoveWasRotation := false, Current := some p } p 0).1 := by
    unfold WellShaped
    rw [s1, s2, s3]
    exact hw
  unfold hardDrop
  simp only [hc]
  split_ifs
  · exact lockPiece_returnsOrPanics c [c] (List.mem_singleton.mpr rfl) g
      { g with
        LastMoveWasRotation := false,
        Current := some
          (dropLoop { g with LastMoveWasRotation := false, Current := some p } p 0).1 }
      p (dropLoop { g with LastMoveWasRotation := false, Current := some p } p 0).1.Position
      Shaped hc (congrArg some hp) rfl rfl rfl
      (fun g1 h1 => lockPiece_shaped c _ _ g1 h1 hk rfl)
  · exact Or.inl ⟨_, rfl, hk, _, rfl, hw2⟩

theorem ApplyGravity_shaped (c1 c2 : Chance) (g : Game) (h : Shaped g) :
    ReturnsOrPanics [c1, c2] g (ApplyGravity c1 c2 g) Shaped := by
  have hsh := h
  obtain ⟨hk, p, hc, hw⟩ := h
  by_cases hs : g.State = GameState.Playing
  · rw [ApplyGravity_eq c1 c2 g p hc hs]
    split_ifs
    · exact lockPiece_returnsOrPanics c1 [c1, c2] (List.mem_cons_self _ _) g
        { g with LastMoveWasRotation := false,
                 Current := some { p with Position := ⟨p.Position.X, p.Position.Y⟩ } }
        p ⟨p.Position.X, p.Position.Y⟩ Shaped hc rfl rfl rfl rfl
        (fun g1 h1 => lockPiece_shaped c1 _ _ g1 h1 hk rfl)
    · exact lockPiece_returnsOrPanics c2 [c1, c2]
        (List.mem_cons_of_mem _ (List.mem_singleton.mpr rfl)) g
        { g with LastMoveWasRotation := false, State := GameState.GameOver,
                 Current := some { p with Position := ⟨p.Position.X, 0⟩ } }
        p ⟨p.Position.X, 0⟩ Shaped hc rfl rfl rfl rfl
        (fun g1 h1 => lockPiece_shaped c2 _ _ g1 h1 hk rfl)
    · exact Or.inl ⟨_, rfl, hk, _, rfl, hw⟩
    · exact lockPiece_returnsOrPanics c2 [c1, c2]
        (List.mem_cons_of_mem _ (List.mem_singleton.mpr rfl)) g
        { g with LastMoveWasRotation := false,
                 Current := some { p with Position := ⟨p.Position.X, 0⟩ } }
        p ⟨p.Position.X, 0⟩ Shaped hc rfl rfl rfl rfl
        (fun g1 h1 => lockPiece_shaped c2 _ _ g1 h1 hk rfl)
    · exact Or.inl ⟨_, rfl, hk, _, rfl, hw⟩
  · unfold ApplyGravity
    rw [if_pos hs]
    exact Or.inl ⟨g, rfl, hsh⟩

theorem runOp_shaped (op : Op) (g : Game) (h : Shaped g) :
    ReturnsOrPanics (opChances op) g (runOp op g) Shaped := by
  cases op with
  | moveLeft => exact Or.inl (moveLeft_shaped g h)
  | moveRight => exact Or.inl (moveRight_shaped g h)
  | softDrop c => exact softDrop_shaped c g h
  | hardDrop c => exact hardDrop_shaped c g h
  | rotate => exact Or.inl (rotate_shaped g h)
  | ApplyGravity c1 c2 => exact ApplyGravity_shaped c1 c2 g h

theorem runOps_shaped (ops : List Op) (g : Game) (h : Shaped g) :
    (∃ g2, runOps ops g = some g2 ∧ Shaped g2) ∨
    (runOps ops g = none ∧ OpsPanic ops g Shaped) := by
  induction ops generalizing g with
  | nil => exact Or.inl ⟨g, rfl, h⟩
  | cons op rest ih =>
    rcases runOp_shaped op g h with ⟨g1, e1, s1⟩ | ⟨e1, hp⟩
    · rcases ih g1 s1 with ⟨g2, e2, s2⟩ | ⟨e2, pre, op2, post, g3, hsplit, hpre, s3, hnone, hp⟩
      · left
        refine ⟨g2, ?_, s2⟩
        simp only [runOps, e1]
        exact e2
      · right
        refine ⟨?_, op :: pre, op2, post, g3, ?_, ?_, s3, hnone, hp⟩
        · simp only [runOps, e1]
          exact e2
        · rw [hsplit]
          rfl
        · simp only [runOps, e1]
          exact hpre
    · right
      refine ⟨?_, [], op, rest, g, rfl, rfl, h, e1, hp⟩
      simp only [runOps, e1]

theorem lockPiece_lines (c : Chance) (g : Game) (p : Piece) (g1 : Game)
    (h : lockPiece c g = some g1) (hc : g.Current = some p) (ho : Reorders c.order) :
    g1.LinesCleared ≤ g.LinesCleared + 4 := by
  rw [lockPiece_eq c g p hc] at h
  obtain ⟨_, _, f3, _⟩ := lockTail_fields c _ p g1 h
  have hle := (lockedRows_le c g p ho).2
  unfold lockedRows at hle
  rw [f3, clearLines_linesCleared, ← clearLines_count]
  simp only
  omega

theorem runOp_lines (op : Op) (g g1 : Game) (p : Piece) (hc : g.Current = some p)
    (hfair : ∀ c ∈ opChances op, Reorders c.order) (h : runOp op g = some g1) :
    g1.LinesCleared ≤ g.LinesCleared + 4 := by
  have hsame : ∀ g2 : Game, some g2 = some g1 → g2.LinesCleared = g.LinesCleared →
      g1.LinesCleared ≤ g.LinesCleared + 4 := by
    intro g2 e h2
    injection e with e
    rw [← e, h2]
    omega
  cases op with
  | moveLeft =>
    simp only [runOp, moveLeft, hc] at h
    split_ifs at h
    · exact hsame _ h rfl
    · exact hsame _ h rfl
  | moveRight =>
    simp only [runOp, moveRight, hc] at h
    split_ifs at h
    · exact hsame _ h rfl
    · exact hsame _ h rfl
  | rotate =>
    simp only [runOp, rotate, hc] at h
    split_ifs at h
    cases hb : buildBlocks p.ID (Int.tmod (p.RotationState + 1) 4) with
    | none => simp only [hb] at h; cases h
    | some bs =>
      simp only [hb] at h
      split_ifs at h
      · exact hsame _ h rfl
      · exact hsame _ h rfl
  | softDrop c =>
    have ho := hfair c (List.mem_singleton.mpr rfl)
    simp only [runOp, softDrop, hc] at h
    split_ifs at h
    · have hl := lockPiece_lines c _ _ g1 h rfl ho
      exact hl
    · exact hsame _ h rfl
  | hardDrop c =>
    have ho := hfair c (List.mem_singleton.mpr rfl)
    simp only [runOp, hardDrop, hc] at h
    split_ifs at h
    · have hl := lockPiece_lines c _ _ g1 h rfl ho
      exact hl
    · exact hsame _ h rfl
  | ApplyGravity c1 c2 =>
    have ho1 := hfair c1 (List.mem_cons_self _ _)
    have ho2 := hfair c2 (List.mem_cons_of_mem _ (List.mem_singleton.mpr rfl))
    simp only [runOp] at h
    by_cases hs : g.State = GameState.Playing
    · rw [ApplyGravity_eq c1 c2 g p hc hs] at h
      split_ifs at h
      · have hl := lockPiece_lines c1 _ _ g1 h rfl ho1
        exact hl
      · have hl := lockPiece_lines c2 _ _ g1 h rfl ho2
        exact hl
      · exact hsame _ h rfl
      · have hl := lockPiece_lines c2 _ _ g1 h rfl ho2
        exact hl
      · exact hsame _ h rfl
    · unfold ApplyGravity at h
      rw [if_pos hs] at h
      exact hsame _ h rfl

theorem runOps_returns (ops : List Op) (g : Game) (h : Shaped g)
    (hfair : ∀ op ∈ ops, ∀ c ∈ opChances op, Reorders c.order)
    (hlines : g.LinesCleared + 4 * (ops.length : Int) < 270) :
    ∃ g2, runOps ops g = some g2 := by
  induction ops generalizing g with
  | nil => exact ⟨g, rfl⟩
  | cons op rest ih =>
    have hf := hfair op (List.mem_cons_self _ _)
    rw [List.length_cons] at hlines
    push_cast at hlines
    rcases runOp_shaped op g h with ⟨g1, e1, s1⟩ | ⟨_, hp⟩
    · obtain ⟨_, p, hc, _⟩ := h
      have hl := runOp_lines op g g1 p hc hf e1
      obtain ⟨g2, e2⟩ := ih g1 s1 (fun o ho => hfair o (List.mem_cons_of_mem _ ho)) (by omega)
      refine ⟨g2, ?_⟩
      simp only [runOps, e1]
      exact e2
    · have := (panicsIn_lines _ g hp).2 hf
      omega

/-- C28: from every state whose queue holds kinds of the catalog only (the queues built by
`refillBag`, the empty queue included), `spawnNext` returns a state, and every state that a
sequence of `moveLeft`, `moveRight`, `softDrop`, `hardDrop`, `rotate` and `ApplyGravity` returns
from there has an active piece whose rotation state is in `[0, 4)` and whose blocks are, in
row-major order, the offsets `(x, y)` of `[0, 4) x [0, 4)` at which the mask of its kind and
rotation state is true; these are 4 distinct offsets. The sequence returns a state unless one of
its locks panics in `adjustGravity`, in a state that the operations before it returned and that
has the same property; the level of that state is below 29 and, when the map orders are
permutations, at least 266 lines were cleared. A sequence of `k` operations with permutations
as map orders returns a state when `LinesCleared + 4 * k < 270`. -/
theorem blocks_follow_rotation_state (sh : Shuffles) (g : Game) (ops : List Op)
    (hk : KindsOnly g) :
    ∃ g1, spawnNext sh g = some g1 ∧
      (∀ g2, runOps ops g1 = some g2 →
        ∃ p, g2.Current = some p ∧
          0 ≤ p.RotationState ∧ p.RotationState < 4 ∧
          p.Blocks.toList = catalogOffsets p.ID p.RotationState ∧
          (catalogOffsets p.ID p.RotationState).length = 4 ∧
          (catalogOffsets p.ID p.RotationState).Nodup ∧
          ∀ b ∈ catalogOffsets p.ID p.RotationState, 0 ≤ b.X ∧ b.X < 4 ∧ 0 ≤ b.Y ∧ b.Y < 4) ∧
      (runOps ops g1 = none → OpsPanic ops g1 Shaped) ∧
      (∀ (cs : List Chance) (g3 : Game), PanicsIn cs g3 →
        g3.Level < 29 ∧ ((∀ c ∈ cs, Reorders c.order) → 266 ≤ g3.LinesCleared)) ∧
      ((∀ op ∈ ops, ∀ c ∈ opChances op, Reorders c.order) →
        g.LinesCleared + 4 * (ops.length : Int) < 270 → ∃ g2, runOps ops g1 = some g2) := by
  obtain ⟨g1, e1, s1⟩ := spawnNext_shaped sh g hk
  have hlc : g1.LinesCleared = g.LinesCleared := (spawnNext_frame sh g g1 e1).2.2.2.1
  refine ⟨g1, e1, ?_, ?_, panicsIn_lines, ?_⟩
  · intro g2 e2
    rcases runOps_shaped ops g1 s1 with ⟨g2', e2', _, p, hc, hid, h0, h4, hb⟩ | ⟨e2', _⟩
    · rw [e2] at e2'
      injection e2' with e2'
      subst e2'
      obtain ⟨d1, d2, d3⟩ := catalogOffsets_distinct p.ID p.RotationState hid h0 h4
      exact ⟨p, hc, h0, h4, hb, d1, d2, d3⟩
    · rw [e2] at e2'
      cases e2'
  · intro hnone
    rcases runOps_shaped ops g1 s1 with ⟨g2', e2', _⟩ | ⟨_, hp⟩
    · rw [hnone] at e2'
      cases e2'
    · exact hp
  · intro hfair hlines
    exact runOps_returns ops g1 s1 hfair (by rw [hlc]; exact hlines)

/-- Witness for C28: a spawn from the empty queue followed by a rotation, a move to the left, a
soft drop, a gravity step, a move to the right and a hard drop, which return a state. -/
theorem blocks_follow_rotation_state_witness :
    ∃ g1, spawnNext noShuffles freshGame = some g1 ∧
      (∃ g2, runOps [Op.rotate, Op.moveLeft, Op.softDrop plainChance,
        Op.ApplyGravity plainChance plainChance, Op.moveRight, Op.hardDrop plainChance] g1
        = some g2) ∧
      (∀ g2, runOps [Op.rotate, Op.moveLeft, Op.softDrop plainChance,
        Op.ApplyGravity plainChance plainChance, Op.moveRight, Op.hardDrop plainChance] g1
        = some g2 →
        ∃ p, g2.Current = some p ∧
          0 ≤ p.RotationState ∧ p.RotationState < 4 ∧
          p.Blocks.toList = catalogOffsets p.ID p.RotationState ∧
          (catalogOffsets p.ID p.RotationState).length = 4 ∧
          (catalogOffsets p.ID p.RotationState).Nodup ∧
          ∀ b ∈ catalogOffsets p.ID p.RotationState,
            0 ≤ b.X ∧ b.X < 4 ∧ 0 ≤ b.Y ∧ b.Y < 4) :=
  match blocks_follow_rotation_state noShuffles freshGame
      [Op.rotate, Op.moveLeft, Op.softDrop plainChance,
        Op.ApplyGravity plainChance plainChance, Op.moveRight, Op.hardDrop plainChance]
      (fun _ hm => nomatch hm) with
  | ⟨g1, e1, hshape, _, _, hret⟩ =>
    ⟨g1, e1,
      hret (by
        intro op hop c hc
        have hc2 : c = plainChance := by
          simp only [List.mem_cons, List.mem_singleton, List.not_mem_nil, or_false] at hop
          rcases hop with h | h | h | h | h | h <;> subst h <;>
            simp [opChances] at hc <;> exact hc
        rw [hc2]
        exact ascending_reorders) (by decide),
      hshape⟩

/-! ## The active piece never collides during play -/

theorem spawnNext_free (sh : Shuffles) (g g1 : Game) (h : spawnNext sh g = some g1) :
    Free g1 := by
  obtain ⟨pid, rest, hq⟩ := queueAtPop_ne_nil sh g
  obtain ⟨bs, hb⟩ := buildBlocks_some pid 0 (by norm_num) (by norm_num)
  rw [spawnNext_eq sh g pid rest bs hq hb] at h
  injection h with h
  subst h
  unfold spawnPlaced
  split_ifs with b1 b2 b3 b4 <;> intro q hq hs
  all_goals first
    | (rcases hs with h | h <;> cases h)
    | (simp only [Option.some.injEq] at hq
       subst hq
       first | exact b1 | exact b2 | exact b3 | exact b4)

theorem lockPiece_free (c : Chance) (g : Game) (p : Piece) (hc : g.Current = some p)
    (g1 : Game) (h : lockPiece c g = some g1) : Free g1 := by
  rw [lockPiece_eq c g p hc] at h
  obtain ⟨g3, _, hs⟩ := lockTail_spawn c _ p g1 h
  exact spawnNext_free _ _ _ hs

theorem moveLeft_free (g : Game) (p : Piece) (hc : g.Current = some p)
    (hf : ¬ Blocked g.Playfield p.Position p.Blocks) (g1 : Game) (h : moveLeft g = some g1) :
    Free g1 := by
  unfold moveLeft at h
  simp only [hc] at h
  split_ifs at h with hcol
  · injection h with h
    subst h
    intro q hq _
    simp only [Option.some.injEq] at hq
    subst hq
    simp only [sub_add_cancel]
    exact hf
  · injection h with h
    subst h
    intro q hq _
    simp only [Option.some.injEq] at hq
    subst hq
    exact fun hb => hcol ((checkCollision_iff _ _ rfl).mpr hb)

theorem moveRight_free (g : Game) (p : Piece) (hc : g.Current = some p)
    (hf : ¬ Blocked g.Playfield p.Position p.Blocks) (g1 : Game) (h : moveRight g = some g1) :
    Free g1 := by
  unfold moveRight at h
  simp only [hc] at h
  split_ifs at h with hcol
  · injection h with h
    subst h
    intro q hq _
    simp only [Option.some.injEq] at hq
    subst hq
    simp only [add_sub_cancel_right]
    exact hf
  · injection h with h
    subst h
    intro q hq _
    simp only [Option.some.injEq] at hq
    subst hq
    exact fun hb => hcol ((checkCollision_iff _ _ rfl).mpr hb)

theorem softDrop_free (c : Chance) (g : Game) (p : Piece) (hc : g.Current = some p)
    (g1 : Game) (h : softDrop c g = some g1) : Free g1 := by
  unfold softDrop at h
  simp only [hc] at h
  split_ifs at h with hcol
  · exact lockPiece_free c _ _ rfl g1 h
  · injection h with h
    subst h
    intro q hq _
    simp only [Option.some.injEq] at hq
    subst hq
    exact fun hb => hcol ((checkCollision_iff _ _ rfl).mpr hb)

theorem rotate_free (g : Game) (p : Piece) (hc : g.Current = some p)
    (hf : ¬ Blocked g.Playfield p.Position p.Blocks) (g1 : Game) (h : rotate g = some g1) :
    Free g1 := by
  unfold rotate at h
  simp only [hc] at h
  split_ifs at h with hneg
  cases hb : buildBlocks p.ID (Int.tmod (p.RotationState + 1) 4) with
  | none => simp only [hb] at h; cases h
  | some bs =>
    simp only [hb] at h
    split_ifs at h with hcol
    · injection h with h
      subst h
      intro q hq _
      simp only [Option.some.injEq] at hq
      subst hq
      exact hf
    · injection h with h
      subst h
      intro q hq _
      simp only [Option.some.injEq] at hq
      subst hq
      exact fun hb => hcol ((checkCollision_iff _ _ rfl).mpr hb)

theorem hardDrop_free (c : Chance) (g : Game) (p : Piece) (hc : g.Current = some p)
    (hf : ¬ Blocked g.Playfield p.Position p.Blocks) (g1 : Game) (h : hardDrop c g = some g1) :
    Free g1 := by
  obtain ⟨d, hd, hk, hblk⟩ := exists_drop_distance g.Playfield p.Position p.Blocks hf
  have hloop := dropLoop_eq { g with LastMoveWasRotation := false } d p 0 hk hblk (by omega)
  simp only [hc, zero_add] at hloop
  unfold hardDrop at h
  simp only [hc, hloop] at h
  split_ifs at h with hne
  · exact lockPiece_free c _ _ rfl g1 h
  · injection h with h
    subst h
    intro q hq _
    simp only [Option.some.injEq] at hq
    subst hq
    have hd0 : (d : Int) = 0 := by
      simp only [ne_eq, not_not] at hne
      omega
    simp only [hd0, sub_zero]
    exact hf

theorem ApplyGravity_free (c1 c2 : Chance) (g : Game) (hfree : Free g) (g1 : Game)
    (h : ApplyGravity c1 c2 g = some g1) : Free g1 := by
  have tail : ∀ g4 : Game, Free g4 →
      (match g4.Current with
        | none => some g4
        | some q =>
          if q.Position.Y < 0 then
            lockPiece c2
              { g4 with Current := some { q with Position := { q.Position with Y := 0 } } }
          else some g4) = some g1 → Free g1 := by
    intro g4 h4 e
    cases hc4 : g4.Current with
    | none =>
      simp only [hc4] at e
      injection e with e
      subst e
      exact h4
    | some q =>
      simp only [hc4] at e
      split_ifs at e
      · exact lockPiece_free c2 _ _ rfl g1 e
      · injection e with e
        subst e
        exact h4
  unfold ApplyGravity at h
  by_cases hs : g.State ≠ GameState.Playing
  · rw [if_pos hs] at h
    injection h with h
    subst h
    exact hfree
  · rw [if_neg hs] at h
    cases hc : g.Current with
    | none =>
      simp only [hc] at h
      injection h with h
      subst h
      exact hfree
    | some p =>
      simp only [hc] at h
      split_ifs at h with h1 h2
      · cases e4 : lockPiece c1
            { g with LastMoveWasRotation := false,
                     Current := some { p with Position := { p.Position with Y := p.Position.Y } } }
          with
        | none =>
          simp only at e4
          simp only [e4] at h
          cases h
        | some g4 =>
          simp only at e4
          simp only [e4] at h
          exact tail g4 (lockPiece_free c1 _ _ rfl g4 e4) h
      · refine tail
          { g with LastMoveWasRotation := false, State := GameState.GameOver,
                   Current := some { p with Position := { p.Position with Y := p.Position.Y } } }
          ?_ h
        intro q _ hs2
        rcases hs2 with h | h <;> cases h
      · refine tail
          { g with LastMoveWasRotation := false,
                   Current := some { p with Position := { p.Position with Y := p.Position.Y - 1 } } }
          ?_ h
        intro q hq _
        simp only [Option.some.injEq] at hq
        subst hq
        exact fun hb => h1 ((checkCollision_iff _ _ rfl).mpr hb)

theorem StartGame_sound (own spawn : Shuffles) (g : Game) :
    ∃ g1, StartGame own spawn g = some g1 ∧ Sound g1 ∧ g1.LinesCleared = 0 := by
  obtain ⟨pid, rest, bs, hbag, _, hb, he⟩ := StartGame_eq own spawn g
  have hall : ∀ k ∈ pid :: rest, IsKind k := by
    intro k hm
    rw [← hbag] at hm
    exact shuffledBag_mem _ k hm
  have hpid : IsKind pid := hall pid (List.mem_cons_self _ _)
  refine ⟨_, he, ⟨⟨?_, _, rfl, hpid, le_refl _, by norm_num,
    buildBlocks_catalog pid 0 hpid (le_refl _) (by norm_num) bs hb⟩, ?_⟩, rfl⟩
  · intro k hm
    exact hall k (List.mem_cons_of_mem _ hm)
  · intro q hq _
    simp only [Option.some.injEq] at hq
    subst hq
    exact spawn_free_on_empty pid bs hpid hb

theorem sound_of (cs cs2 : List Chance) (g : Game) (r : Option Game)
    (hsub : ∀ c ∈ cs, c ∈ cs2) (h : ReturnsOrPanics cs g r Shaped)
    (hq : ∀ g1, r = some g1 → Free g1) : ReturnsOrPanics cs2 g r Sound := by
  rcases h with ⟨g1, e1, s1⟩ | ⟨e1, c, hc, hp⟩
  · exact Or.inl ⟨g1, e1, s1, hq g1 e1⟩
  · exact Or.inr ⟨e1, c, hsub c hc, hp⟩

theorem sound_same (cs : List Chance) (g : Game) (hs : Sound g) :
    ReturnsOrPanics cs g (some g) Sound :=
  Or.inl ⟨g, rfl, hs⟩

theorem HandleInput_sound (own : Shuffles) (c : Chance) (g : Game) (ev : EventKey)
    (hsound : Sound g) : ReturnsOrPanics [c] g (HandleInput own c g ev) Sound := by
  obtain ⟨hs, hf⟩ := id hsound
  obtain ⟨hk, p, hc, hw⟩ := id hs
  cases hst : g.State with
  | MainMenu =>
    unfold HandleInput
    simp only [hst]
    split_ifs
    · obtain ⟨g1, e1, s1, _⟩ := StartGame_sound own c.shuffles g
      exact Or.inl ⟨g1, e1, s1⟩
    · exact sound_same _ g hsound
  | GameOver =>
    unfold HandleInput
    simp only [hst]
    split_ifs
    · obtain ⟨g1, e1, s1, _⟩ := StartGame_sound own c.shuffles g
      exact Or.inl ⟨g1, e1, s1⟩
    · exact sound_same _ g hsound
  | Animating =>
    unfold HandleInput
    simp only [hst]
    exact sound_same _ g hsound
  | Paused =>
    unfold HandleInput
    simp only [hst]
    split_ifs
    · exact Or.inl ⟨_, rfl, ⟨hk, p, hc, hw⟩, fun q hq _ => hf q hq (Or.inr hst)⟩
    · exact sound_same _ g hsound
  | Playing =>
    have hfp := hf p hc (Or.inl hst)
    unfold HandleInput
    simp only [hst]
    by_cases hp : ev.key = Key.KeyEscape ∨ (ev.key = Key.KeyRune ∧ (ev.rune = 'p' ∨ ev.rune = 'P'))
    · rw [if_pos hp]
      exact Or.inl ⟨_, rfl, ⟨hk, p, hc, hw⟩, fun q hq _ => hf q hq (Or.inl hst)⟩
    · rw [if_neg hp]
      simp only [hc]
      cases hkey : ev.key with
      | KeyLeft =>
        obtain ⟨g1, e1, s1⟩ := moveLeft_shaped g hs
        exact Or.inl ⟨g1, e1, s1, moveLeft_free g p hc hfp g1 e1⟩
      | KeyRight =>
        obtain ⟨g1, e1, s1⟩ := moveRight_shaped g hs
        exact Or.inl ⟨g1, e1, s1, moveRight_free g p hc hfp g1 e1⟩
      | KeyDown =>
        exact sound_of [c] [c] g _ (fun _ h => h) (softDrop_shaped c g hs)
          (fun g1 e1 => softDrop_free c g p hc g1 e1)
      | KeyUp =>
        obtain ⟨g1, e1, s1⟩ := rotate_shaped g hs
        exact Or.inl ⟨g1, e1, s1, rotate_free g p hc hfp g1 e1⟩
      | KeyRune =>
        simp only
        by_cases hsp : ev.rune = space
        · rw [if_pos hsp]
          exact sound_of [c] [c] g _ (fun _ h => h) (hardDrop_shaped c g hs)
            (fun g1 e1 => hardDrop_free c g p hc hfp g1 e1)
        · rw [if_neg hsp]
          exact sound_same _ g hsound
      | KeyEnter => exact sound_same _ g hsound
      | KeyEscape => exact sound_same _ g hsound
      | KeyOther => exact sound_same _ g hsound

theorem ApplyGravity_sound (c1 c2 : Chance) (g : Game) (hsound : Sound g) :
    ReturnsOrPanics [c1, c2] g (ApplyGravity c1 c2 g) Sound :=
  sound_of [c1, c2] [c1, c2] g _ (fun _ h => h) (ApplyGravity_shaped c1 c2 g hsound.1)
    (fun g1 e1 => ApplyGravity_free c1 c2 g hsound.2 g1 e1)

theorem gravityTick_sound (c1 c2 : Chance) (g : Game) (hsound : Sound g) :
    ReturnsOrPanics [c1, c2] g (gravityTick c1 c2 g) Sound := by
  obtain ⟨_, p, hc, _⟩ := id hsound.1
  unfold gravityTick
  simp only [hc]
  split_ifs
  · exact ApplyGravity_sound c1 c2 g hsound
  · exact sound_same _ g hsound
  · exact sound_same _ g hsound

theorem runEvent_sound (e : Event) (g : Game) (hsound : Sound g) :
    ReturnsOrPanics (eventChances e) g (runEvent e g) Sound := by
  cases e with
  | input own c ev => exact HandleInput_sound own c g ev hsound
  | gravity c1 c2 => exact ApplyGravity_sound c1 c2 g hsound
  | tick c1 c2 => exact gravityTick_sound c1 c2 g hsound

theorem runEvents_sound (events : List Event) (g : Game) (h : Sound g) :
    (∃ g2, runEvents events g = some g2 ∧ Sound g2) ∨
    (runEvents events g = none ∧ EventsPanic events g Sound) := by
  induction events generalizing g with
  | nil => exact Or.inl ⟨g, rfl, h⟩
  | cons e rest ih =>
    rcases runEvent_sound e g h with ⟨g1, e1, s1⟩ | ⟨e1, hp⟩
    · rcases ih g1 s1 with ⟨g2, e2, s2⟩ | ⟨e2, pre, ev2, post, g3, hsplit, hpre, s3, hnone, hp⟩
      · left
        refine ⟨g2, ?_, s2⟩
        simp only [runEvents, e1]
        exact e2
      · right
        refine ⟨?_, e :: pre, ev2, post, g3, ?_, ?_, s3, hnone, hp⟩
        · simp only [runEvents, e1]
          exact e2
        · rw [hsplit]
          rfl
        · simp only [runEvents, e1]
          exact hpre
    · right
      refine ⟨?_, [], e, rest, g, rfl, rfl, h, e1, hp⟩
      simp only [runEvents, e1]

theorem runEvent_lines (e : Event) (g g1 : Game) (bound : Int) (hsound : Sound g)
    (hfair : ∀ c ∈ eventChances e, Reorders c.order) (h0 : 0 ≤ bound)
    (hb : g.LinesCleared ≤ bound) (h : runEvent e g = some g1) :
    g1.LinesCleared ≤ bound + 4 := by
  obtain ⟨_, p, hc, _⟩ := id hsound.1
  have hsame : ∀ g2 : Game, some g2 = some g1 → g2.LinesCleared = g.LinesCleared →
      g1.LinesCleared ≤ bound + 4 := by
    intro g2 e h2
    injection e with e
    rw [← e, h2]
    omega
  have hstart : ∀ own spawn, StartGame own spawn g = some g1 → g1.LinesCleared ≤ bound + 4 := by
    intro own spawn hst
    obtain ⟨g1', e1, _, hl⟩ := StartGame_sound own spawn g
    rw [hst] at e1
    injection e1 with e1
    rw [e1, hl]
    omega
  have hop : ∀ op : Op, opChances op ⊆ eventChances e → runOp op g = some g1 →
      g1.LinesCleared ≤ bound + 4 := by
    intro op hsub hr
    have := runOp_lines op g g1 p hc (fun c hcm => hfair c (hsub hcm)) hr
    omega
  cases e with
  | gravity c1 c2 => exact hop (Op.ApplyGravity c1 c2) (fun _ hm => hm) h
  | tick c1 c2 =>
    simp only [runEvent, gravityTick, hc] at h
    split_ifs at h
    · exact hop (Op.ApplyGravity c1 c2) (fun _ hm => hm) h
    · exact hsame _ h rfl
    · exact hsame _ h rfl
  | input own c ev =>
    simp only [runEvent] at h
    cases hst : g.State with
    | MainMenu =>
      simp only [HandleInput, hst] at h
      split_ifs at h
      · exact hstart _ _ h
      · exact hsame _ h rfl
    | GameOver =>
      simp only [HandleInput, hst] at h
      split_ifs at h
      · exact hstart _ _ h
      · exact hsame _ h rfl
    | Animating =>
      simp only [HandleInput, hst] at h
      exact hsame _ h rfl
    | Paused =>
      simp only [HandleInput, hst] at h
      split_ifs at h
      · exact hsame _ h rfl
      · exact hsame _ h rfl
    | Playing =>
      unfold HandleInput at h
      simp only [hst] at h
      by_cases hp : ev.key = Key.KeyEscape ∨
          (ev.key = Key.KeyRune ∧ (ev.rune = 'p' ∨ ev.rune = 'P'))
      · rw [if_pos hp] at h
        exact hsame _ h rfl
      · rw [if_neg hp] at h
        simp only [hc] at h
        cases hkey : ev.key with
        | KeyLeft =>
          rw [hkey] at h
          exact hop Op.moveLeft (fun _ hm => nomatch hm) h
        | KeyRight =>
          rw [hkey] at h
          exact hop Op.moveRight (fun _ hm => nomatch hm) h
        | KeyDown =>
          rw [hkey] at h
          exact hop (Op.softDrop c) (fun _ hm => hm) h
        | KeyUp =>
          rw [hkey] at h
          exact hop Op.rotate (fun _ hm => nomatch hm) h
        | KeyRune =>
          rw [hkey] at h
          simp only at h
          by_cases hsp : ev.rune = space
          · rw [if_pos hsp] at h
            exact hop (Op.hardDrop c) (fun _ hm => hm) h
          · rw [if_neg hsp] at h
            exact hsame _ h rfl
        | KeyEnter =>
          rw [hkey] at h
          exact hsame _ h rfl
        | KeyEscape =>
          rw [hkey] at h
          exact hsame _ h rfl
        | KeyOther =>
          rw [hkey] at h
          exact hsame _ h rfl

theorem runEvents_returns (events : List Event) (g : Game) (bound : Int) (h : Sound g)
    (hfair : ∀ e ∈ events, ∀ c ∈ eventChances e, Reorders c.order) (h0 : 0 ≤ bound)
    (hb : g.LinesCleared ≤ bound) (hlines : bound + 4 * (events.length : Int) < 270) :
    ∃ g2, runEvents events g = some g2 := by
  induction events generalizing g bound with
  | nil => exact ⟨g, rfl⟩
  | cons e rest ih =>
    have hf := hfair e (List.mem_cons_self _ _)
    rw [List.length_cons] at hlines
    push_cast at hlines
    rcases runEvent_sound e g h with ⟨g1, e1, s1⟩ | ⟨_, hp⟩
    · have hl := runEvent_lines e g g1 bound h hf h0 hb e1
      obtain ⟨g2, e2⟩ := ih g1 (bound + 4) s1
        (fun o ho => hfair o (List.mem_cons_of_mem _ ho)) (by omega) hl (by omega)
      refine ⟨g2, ?_⟩
      simp only [runEvents, e1]
      exact e2
    · have := (panicsIn_lines _ g hp).2 hf
      omega

/-- C29: `StartGame` from any state returns a state, and in every state that a sequence of key
events passed to `HandleInput`, calls of `ApplyGravity` and firings of the gravity ticker returns
from there, whenever the phase is `Playing` and there is an active piece, that piece does not
collide: `checkCollision` is false, and every block lies inside
`[0, PlayWidth) x [0, TotalHeight)` on a cell that holds 0. The sequence returns a state unless
one of its locks panics in `adjustGravity`, in a state that the events before it returned and in
which the property holds as well; the level of that state is below 29 and, when the map orders
are permutations, at least 266 lines were cleared. A sequence of `k` events with permutations
as map orders returns a state when `4 * k < 270`. -/
theorem active_piece_never_collides (own spawn : Shuffles) (g0 : Game) (events : List Event) :
    ∃ g1, StartGame own spawn g0 = some g1 ∧
      (∀ g2, runEvents events g1 = some g2 →
        ∀ p, g2.State = GameState.Playing → g2.Current = some p →
          checkCollision g2 = false ∧
          ∀ b ∈ p.Blocks.toList,
            InGrid (p.Position.X + b.X) (p.Position.Y + b.Y) ∧
            g2.Playfield (p.Position.X + b.X) (p.Position.Y + b.Y) = 0) ∧
      (runEvents events g1 = none → EventsPanic events g1 Sound) ∧
      (∀ (cs : List Chance) (g3 : Game), PanicsIn cs g3 →
        g3.Level < 29 ∧ ((∀ c ∈ cs, Reorders c.order) → 266 ≤ g3.LinesCleared)) ∧
      ((∀ e ∈ events, ∀ c ∈ eventChances e, Reorders c.order) →
        4 * (events.length : Int) < 270 → ∃ g2, runEvents events g1 = some g2) := by
  obtain ⟨g1, e1, s1, hl⟩ := StartGame_sound own spawn g0
  refine ⟨g1, e1, ?_, ?_, panicsIn_lines, ?_⟩
  · intro g2 e2 p hst hc
    have f2 : Free g2 := by
      rcases runEvents_sound events g1 s1 with ⟨g2', e2', s2⟩ | ⟨e2', _⟩
      · rw [e2] at e2'
        injection e2' with e2'
        rw [e2']
        exact s2.2
      · rw [e2] at e2'
        cases e2'
    have hfree := f2 p hc (Or.inl hst)
    constructor
    · cases hcol : checkCollision g2 with
      | false => rfl
      | true => exact absurd ((checkCollision_iff g2 p hc).mp hcol) hfree
    · intro b hb
      unfold InGrid
      by_contra hcon
      apply hfree
      refine ⟨b, hb, ?_⟩
      by_contra hno
      apply hcon
      simp only [not_or, not_lt, not_le, ne_eq, not_not] at hno
      exact ⟨⟨hno.1, hno.2.1, hno.2.2.1, hno.2.2.2.1⟩, hno.2.2.2.2⟩
  · intro hnone
    rcases runEvents_sound events g1 s1 with ⟨g2', e2', _⟩ | ⟨_, hp⟩
    · rw [hnone] at e2'
      cases e2'
    · exact hp
  · intro hfair hlines
    exact runEvents_returns events g1 0 s1 hfair (le_refl _) (le_of_eq hl) (by omega)

/-- Witness for C29: a new game from `finishedGame`, then a rotation, a move to the left, a
soft drop, a pause, a resume, a hard drop, a call of `ApplyGravity` and a firing of the ticker,
which return a state. -/
theorem active_piece_never_collides_witness :
    ∃ g1, StartGame noShuffles noShuffles finishedGame = some g1 ∧
      (∃ g2, runEvents
        [Event.input noShuffles plainChance ⟨Key.KeyUp, 'x'⟩,
         Event.input noShuffles plainChance ⟨Key.KeyLeft, 'x'⟩,
         Event.input noShuffles plainChance ⟨Key.KeyDown, 'x'⟩,
         Event.input noShuffles plainChance ⟨Key.KeyRune, 'p'⟩,
         Event.input noShuffles plainChance ⟨Key.KeyEscape, 'x'⟩,
         Event.input noShuffles plainChance ⟨Key.KeyRune, space⟩,
         Event.gravity plainChance plainChance,
         Event.tick plainChance plainChance] g1 = some g2) ∧
      (∀ g2, runEvents
        [Event.input noShuffles plainChance ⟨Key.KeyUp, 'x'⟩,
         Event.input noShuffles plainChance ⟨Key.KeyLeft, 'x'⟩,
         Event.input noShuffles plainChance ⟨Key.KeyDown, 'x'⟩,
         Event.input noShuffles plainChance ⟨Key.KeyRune, 'p'⟩,
         Event.input noShuffles plainChance ⟨Key.KeyEscape, 'x'⟩,
         Event.input noShuffles plainChance ⟨Key.KeyRune, space⟩,
         Event.gravity plainChance plainChance,
         Event.tick plainChance plainChance] g1 = some g2 →
        ∀ p, g2.State = GameState.Playing → g2.Current = some p →
          checkCollision g2 = false ∧
          ∀ b ∈ p.Blocks.toList,
            InGrid (p.Position.X + b.X) (p.Position.Y + b.Y) ∧
            g2.Playfield (p.Position.X + b.X) (p.Position.Y + b.Y) = 0) :=
  match active_piece_never_collides noShuffles noShuffles finishedGame
      [Event.input noShuffles plainChance ⟨Key.KeyUp, 'x'⟩,
       Event.input noShuffles plainChance ⟨Key.KeyLeft, 'x'⟩,
       Event.input noShuffles plainChance ⟨Key.KeyDown, 'x'⟩,
       Event.input noShuffles plainChance ⟨Key.KeyRune, 'p'⟩,
       Event.input noShuffles plainChance ⟨Key.KeyEscape, 'x'⟩,
       Event.input noShuffles plainChance ⟨Key.KeyRune, space⟩,
       Event.gravity plainChance plainChance,
       Event.tick plainChance plainChance] with
  | ⟨g1, e1, hfree, _, _, hret⟩ =>
    ⟨g1, e1,
      hret (by
        intro e he c hc
        have hc2 : c = plainChance := by
          simp only [List.mem_cons, List.mem_singleton, List.not_mem_nil, or_false] at he
          rcases he with h | h | h | h | h | h | h | h <;> subst h <;>
            simp [eventChances] at hc <;> exact hc
        rw [hc2]
        exact ascending_reorders) (by decide),
      hfree⟩

/-! ## Locks during play are scored without T-spin -/

theorem updateScore_flag_false (g : Game) (n : Nat) (p : Piece)
    (hflag : g.LastMoveWasRotation = false) :
    detectTSpin g p = false ∧ isTspinOf g p = false ∧
    (updateScore g n p).Score = g.Score + plainDelta g.Level g.B2B g.Combo n := by
  have hd : detectTSpin g p = false := by simp [detectTSpin, hflag]
  have hi : isTspinOf g p = false := by simp [isTspinOf, hd]
  refine ⟨hd, hi, ?_⟩
  by_cases hn : (n : Int) = 0
  · rw [hn, updateScore_zero]
    simp [plainDelta]
  · have hpos : (0 : Int) < n := by omega
    rw [updateScore_score g n p hpos]
    simp only [plainDelta, ptsBeforeCombo, hi, basePts, hn, if_false, Bool.false_eq_true,
      or_false]
    ring

theorem lockPiece_flag_false (c : Chance) (g : Game) (p : Piece) (g1 : Game)
    (hc : g.Current = some p) (hflag : g.LastMoveWasRotation = false)
    (h : lockPiece c g = some g1) :
    (clearLines c.order { g with Playfield := paintBlocks g.Playfield p } p).1.LastMoveWasRotation
      = false ∧
    detectTSpin (clearLines c.order { g with Playfield := paintBlocks g.Playfield p } p).1 p
      = false ∧
    g1.Score = g.Score + plainDelta g.Level g.B2B g.Combo
      (clearLines c.order { g with Playfield := paintBlocks g.Playfield p } p).2 := by
  rw [lockPiece_eq c g p hc] at h
  obtain ⟨_, f2, _⟩ := lockTail_fields c _ p g1 h
  obtain ⟨w1, w2, w3, w4, _, _, w7⟩ :=
    clearLines_frame c.order { g with Playfield := paintBlocks g.Playfield p } p
  have hflag2 :
      (clearLines c.order { g with Playfield := paintBlocks g.Playfield p } p).1.LastMoveWasRotation
        = false := by
    rw [w7]
    exact hflag
  have hn := clearLines_count c.order { g with Playfield := paintBlocks g.Playfield p } p
  obtain ⟨u1, _, u3⟩ := updateScore_flag_false
    (clearLines c.order { g with Playfield := paintBlocks g.Playfield p } p).1
    (findFull (paintBlocks g.Playfield p) (c.order (rowKeys p))).length p hflag2
  refine ⟨hflag2, u1, ?_⟩
  rw [f2, hn, u3, w1, w2, w3, w4]

theorem lock_case (c : Chance) (g : Game) (p : Piece) (g2 : Game) (pos : Point)
    (h1 : g2.LastMoveWasRotation = false) (h2 : g2.Current = some { p with Position := pos })
    (h3 : g2.Playfield = g.Playfield) (h4 : g2.Score = g.Score)
    (h5 : g2.LinesCleared = g.LinesCleared) (h6 : g2.Level = g.Level)
    (h7 : g2.Combo = g.Combo) (h8 : g2.B2B = g.B2B) :
    (∃ g1, lockPiece c g2 = some g1 ∧ LockedWithFlagFalse c g p g1) ∨
    (lockPiece c g2 = none ∧ PanickedWithFlagFalse c g p) := by
  cases e1 : lockPiece c g2 with
  | none => exact Or.inr ⟨rfl, g2, pos, h1, h2, h3, h4, h5, h6, h7, h8, e1⟩
  | some g1 => exact Or.inl ⟨g1, rfl, g2, pos, h1, h2, h3, h4, h5, h6, h7, h8, e1⟩

theorem softDrop_lock_cases (c : Chance) (g : Game) (p : Piece) (hc : g.Current = some p) :
    (∃ g1, softDrop c g = some g1 ∧ (Unlocked g g1 ∨ LockedWithFlagFalse c g p g1)) ∨
    (softDrop c g = none ∧ PanickedWithFlagFalse c g p) := by
  unfold softDrop
  simp only [hc]
  split_ifs
  · rcases lock_case c g p
      { g with LastMoveWasRotation := false,
               Current := some { p with Position := ⟨p.Position.X, p.Position.Y⟩ } }
      ⟨p.Position.X, p.Position.Y⟩ rfl rfl rfl rfl rfl rfl rfl rfl with ⟨g1, e1, l1⟩ | ⟨e1, l1⟩
    · exact Or.inl ⟨g1, e1, Or.inr l1⟩
    · exact Or.inr ⟨e1, l1⟩
  · exact Or.inl ⟨_, rfl, Or.inl ⟨rfl, rfl, rfl, rfl, rfl, rfl, rfl⟩⟩

theorem hardDrop_lock_cases (c : Chance) (g : Game) (p : Piece) (hc : g.Current = some p) :
    (∃ g1, hardDrop c g = some g1 ∧ (Unlocked g g1 ∨ LockedWithFlagFalse c g p g1)) ∨
    (hardDrop c g = none ∧ PanickedWithFlagFalse c g p) := by
  have hp := dropLoop_piece { g with LastMoveWasRotation := false, Current := some p } p
  unfold hardDrop
  simp only [hc]
  split_ifs
  · rcases lock_case c g p
      { g with
        LastMoveWasRotation := false,
        Current := some
          (dropLoop { g with LastMoveWasRotation := false, Current := some p } p 0).1 }
      (dropLoop { g with LastMoveWasRotation := false, Current := some p } p 0).1.Position
      rfl (congrArg some hp) rfl rfl rfl rfl rfl rfl with ⟨g1, e1, l1⟩ | ⟨e1, l1⟩
    · exact Or.inl ⟨g1, e1, Or.inr l1⟩
    · exact Or.inr ⟨e1, l1⟩
  · exact Or.inl ⟨_, rfl, Or.inl ⟨rfl, rfl, rfl, rfl, rfl, rfl, rfl⟩⟩

theorem ApplyGravity_lock_cases (c1 c2 : Chance) (g : Game) (p : Piece)
    (hc : g.Current = some p) :
    (∃ g1, ApplyGravity c1 c2 g = some g1 ∧
      (Unlocked g g1 ∨ LockedWithFlagFalse c1 g p g1 ∨ LockedWithFlagFalse c2 g p g1)) ∨
    (ApplyGravity c1 c2 g = none ∧
      (PanickedWithFlagFalse c1 g p ∨ PanickedWithFlagFalse c2 g p)) := by
  by_cases hs : g.State = GameState.Playing
  · rw [ApplyGravity_eq c1 c2 g p hc hs]
    split_ifs
    · rcases lock_case c1 g p
        { g with LastMoveWasRotation := false,
                 Current := some { p with Position := ⟨p.Position.X, p.Position.Y⟩ } }
        ⟨p.Position.X, p.Position.Y⟩ rfl rfl rfl rfl rfl rfl rfl rfl with ⟨g1, e1, l1⟩ | ⟨e1, l1⟩
      · exact Or.inl ⟨g1, e1, Or.inr (Or.inl l1)⟩
      · exact Or.inr ⟨e1, Or.inl l1⟩
    · rcases lock_case c2 g p
        { g with LastMoveWasRotation := false, State := GameState.GameOver,
                 Current := some { p with Position := ⟨p.Position.X, 0⟩ } }
        ⟨p.Position.X, 0⟩ rfl rfl rfl rfl rfl rfl rfl rfl with ⟨g1, e1, l1⟩ | ⟨e1, l1⟩
      · exact Or.inl ⟨g1, e1, Or.inr (Or.inr l1)⟩
      · exact Or.inr ⟨e1, Or.inr l1⟩
    · exact Or.inl ⟨_, rfl, Or.inl ⟨rfl, rfl, rfl, rfl, rfl, rfl, rfl⟩⟩
    · rcases lock_case c2 g p
        { g with LastMoveWasRotation := false,
                 Current := some { p with Position := ⟨p.Position.X, 0⟩ } }
        ⟨p.Position.X, 0⟩ rfl rfl rfl rfl rfl rfl rfl rfl with ⟨g1, e1, l1⟩ | ⟨e1, l1⟩
      · exact Or.inl ⟨g1, e1, Or.inr (Or.inr l1)⟩
      · exact Or.inr ⟨e1, Or.inr l1⟩
    · exact Or.inl ⟨_, rfl, Or.inl ⟨rfl, rfl, rfl, rfl, rfl, rfl, rfl⟩⟩
  · unfold ApplyGravity
    rw [if_pos hs]
    exact Or.inl ⟨g, rfl, Or.inl ⟨rfl, rfl, rfl, rfl, rfl, rfl, rfl⟩⟩

theorem lockedWithFlagFalse_score (c : Chance) (g : Game) (p : Piece) (g1 : Game)
    (h : LockedWithFlagFalse c g p g1) :
    ∃ (g2 : Game) (q : Piece) (n : Nat),
      lockPiece c g2 = some g1 ∧ g2.LastMoveWasRotation = false ∧
      (clearLines c.order { g2 with Playfield := paintBlocks g2.Playfield q } q).2 = n ∧
      detectTSpin (clearLines c.order { g2 with Playfield := paintBlocks g2.Playfield q } q).1 q
        = false ∧
      g1.LinesCleared = g.LinesCleared + n ∧
      g1.Score = g.Score + plainDelta g.Level g.B2B g.Combo n := by
  obtain ⟨g2, pos, hflag, hcur, _, h2, h3, h4, h5, h6, hl⟩ := h
  obtain ⟨_, d, sc⟩ := lockPiece_flag_false c g2 _ g1 hcur hflag hl
  have hn := clearLines_count c.order
    { g2 with Playfield := paintBlocks g2.Playfield { p with Position := pos } }
    { p with Position := pos }
  have hlc := hl
  rw [lockPiece_eq c g2 _ hcur] at hlc
  obtain ⟨_, _, f3, _⟩ := lockTail_fields c _ _ g1 hlc
  rw [clearLines_linesCleared] at f3
  refine ⟨g2, { p with Position := pos }, _, hl, hflag, hn, d, ?_, ?_⟩
  · rw [f3, ← h3]
  · rw [sc, hn, h2, h4, h5, h6]

theorem panickedWithFlagFalse_score (c : Chance) (g : Game) (p : Piece)
    (h : PanickedWithFlagFalse c g p) :
    ∃ (g2 : Game) (q : Piece) (n : Nat),
      lockPiece c g2 = none ∧ g2.LastMoveWasRotation = false ∧ g2.Current = some q ∧
      (clearLines c.order { g2 with Playfield := paintBlocks g2.Playfield q } q).2 = n ∧
      detectTSpin (clearLines c.order { g2 with Playfield := paintBlocks g2.Playfield q } q).1 q
        = false ∧
      (updateScore (clearLines c.order { g2 with Playfield := paintBlocks g2.Playfield q } q).1
        n q).Score = g.Score + plainDelta g.Level g.B2B g.Combo n ∧
      LevelUpPanics g n ∧ g.Level < 29 ∧ (Reorders c.order → 266 ≤ g.LinesCleared) := by
  obtain ⟨g2, pos, hflag, hcur, _, h2, h3, h4, h5, h6, hl⟩ := h
  obtain ⟨w1, w2, w3, w4, _, _, w7⟩ :=
    clearLines_frame c.order
      { g2 with Playfield := paintBlocks g2.Playfield { p with Position := pos } }
      { p with Position := pos }
  have hflag2 : (clearLines c.order
      { g2 with Playfield := paintBlocks g2.Playfield { p with Position := pos } }
      { p with Position := pos }).1.LastMoveWasRotation = false := by
    rw [w7]
    exact hflag
  have hn := clearLines_count c.order
    { g2 with Playfield := paintBlocks g2.Playfield { p with Position := pos } }
    { p with Position := pos }
  obtain ⟨u1, _, u3⟩ := updateScore_flag_false
    (clearLines c.order
      { g2 with Playfield := paintBlocks g2.Playfield { p with Position := pos } }
      { p with Position := pos }).1
    (findFull (paintBlocks g2.Playfield { p with Position := pos })
      (c.order (rowKeys { p with Position := pos }))).length { p with Position := pos } hflag2
  have hpanic : LevelUpPanics g (lockedRows c g2 { p with Position := pos }) := by
    have := (lockPiece_none_iff c g2 _ hcur).mp hl
    unfold LevelUpPanics at this ⊢
    rw [h3, h4] at this
    exact this
  have hrows : lockedRows c g2 { p with Position := pos }
      = ((findFull (paintBlocks g2.Playfield { p with Position := pos })
          (c.order (rowKeys { p with Position := pos }))).length : Int) := lockedRows_eq c g2 _
  rw [hrows] at hpanic
  obtain ⟨l1, l2⟩ := levelUpPanics_level g _ hpanic
  refine ⟨g2, { p with Position := pos }, _, hl, hflag, hcur, hn, u1, ?_, hpanic, l1, ?_⟩
  · rw [u3, w1, w2, w3, w4, h2, h4, h5, h6]
  · intro ho
    obtain ⟨n0, n4⟩ := lockedRows_le c g2 { p with Position := pos } ho
    rw [hrows] at n0 n4
    rw [tdiv10_eq] at l2
    split_ifs at l2 <;> omega

theorem lock_cases_return (c c2 : Chance) (g : Game) (p : Piece) (hc : g.Current = some p)
    (h : 29 ≤ g.Level ∨ (Reorders c.order ∧ Reorders c2.order ∧ g.LinesCleared < 266)) :
    (∃ g1, softDrop c g = some g1) ∧ (∃ g1, hardDrop c g = some g1) ∧
    (∃ g1, ApplyGravity c c2 g = some g1) := by
  have hno : ∀ c3, (c3 = c ∨ c3 = c2) → ¬ PanickedWithFlagFalse c3 g p := by
    intro c3 h3 hp
    obtain ⟨_, _, _, _, _, _, _, _, _, _, l1, l2⟩ := panickedWithFlagFalse_score c3 g p hp
    rcases h with h | ⟨ho, ho2, hl⟩
    · omega
    · rcases h3 with h3 | h3
      · rw [h3] at l2
        have := l2 ho
        omega
      · rw [h3] at l2
        have := l2 ho2
        omega
  refine ⟨?_, ?_, ?_⟩
  · rcases softDrop_lock_cases c g p hc with ⟨g1, e1, _⟩ | ⟨_, hp⟩
    · exact ⟨g1, e1⟩
    · exact absurd hp (hno c (Or.inl rfl))
  · rcases hardDrop_lock_cases c g p hc with ⟨g1, e1, _⟩ | ⟨_, hp⟩
    · exact ⟨g1, e1⟩
    · exact absurd hp (hno c (Or.inl rfl))
  · rcases ApplyGravity_lock_cases c c2 g p hc with ⟨g1, e1, _⟩ | ⟨_, hp | hp⟩
    · exact ⟨g1, e1⟩
    · exact absurd hp (hno c (Or.inl rfl))
    · exact absurd hp (hno c2 (Or.inr rfl))

set_option maxRecDepth 100000 in
theorem tspinGame_softDrop :
    (softDrop plainChance tspinGame).map (fun g1 => (g1.Score, g1.LinesCleared, g1.B2B))
      = some (100, 1, false) := by
  decide

/-- C31: for every state with an active piece `p` (in particular every Playing state), whatever
the grid and the rotation flag: each of `softDrop`, `hardDrop` and `ApplyGravity` either returns
a state that comes from the given one without a lock or by one call of `lockPiece` on a state
whose rotation flag is false, or does not return because such a call, again on a state whose
rotation flag is false, panics in `adjustGravity`. In both kinds of lock the flag is still false
when `updateScore` runs, `detectTSpin` is false there, and the score grows by the value of the
line count without T-spin: the entry of `basePoints` times the level, with the back-to-back
factor for a fourth row only, plus the combo bonus. A panic needs a level below 29 and, when the
map order is a permutation, at least 266 cleared lines; at level 29 or more, or with fewer than
266 cleared lines and permutations as map orders, the three functions return a state. -/
theorem locks_are_scored_without_tspin (c c2 : Chance) (g : Game) (p : Piece)
    (hc : g.Current = some p) :
    ((∃ g1, softDrop c g = some g1 ∧ (Unlocked g g1 ∨ LockedWithFlagFalse c g p g1)) ∨
      (softDrop c g = none ∧ PanickedWithFlagFalse c g p)) ∧
    ((∃ g1, hardDrop c g = some g1 ∧ (Unlocked g g1 ∨ LockedWithFlagFalse c g p g1)) ∨
      (hardDrop c g = none ∧ PanickedWithFlagFalse c g p)) ∧
    ((∃ g1, ApplyGravity c c2 g = some g1 ∧
        (Unlocked g g1 ∨ LockedWithFlagFalse c g p g1 ∨ LockedWithFlagFalse c2 g p g1)) ∨
      (ApplyGravity c c2 g = none ∧
        (PanickedWithFlagFalse c g p ∨ PanickedWithFlagFalse c2 g p))) ∧
    (∀ (c3 : Chance) (g1 : Game), LockedWithFlagFalse c3 g p g1 →
      ∃ (g2 : Game) (q : Piece) (n : Nat),
        lockPiece c3 g2 = some g1 ∧ g2.LastMoveWasRotation = false ∧
        (clearLines c3.order { g2 with Playfield := paintBlocks g2.Playfield q } q).2 = n ∧
        detectTSpin (clearLines c3.order { g2 with Playfield := paintBlocks g2.Playfield q } q).1 q
          = false ∧
        g1.LinesCleared = g.LinesCleared + n ∧
        g1.Score = g.Score + plainDelta g.Level g.B2B g.Combo n) ∧
    (∀ (c3 : Chance), PanickedWithFlagFalse c3 g p →
      ∃ (g2 : Game) (q : Piece) (n : Nat),
        lockPiece c3 g2 = none ∧ g2.LastMoveWasRotation = false ∧ g2.Current = some q ∧
        (clearLines c3.order { g2 with Playfield := paintBlocks g2.Playfield q } q).2 = n ∧
        detectTSpin (clearLines c3.order { g2 with Playfield := paintBlocks g2.Playfield q } q).1 q
          = false ∧
        (updateScore
          (clearLines c3.order { g2 with Playfield := paintBlocks g2.Playfield q } q).1
          n q).Score = g.Score + plainDelta g.Level g.B2B g.Combo n ∧
        LevelUpPanics g n ∧ g.Level < 29 ∧ (Reorders c3.order → 266 ≤ g.LinesCleared)) ∧
    ((29 ≤ g.Level ∨ (Reorders c.order ∧ Reorders c2.order ∧ g.LinesCleared < 266)) →
      (∃ g1, softDrop c g = some g1) ∧ (∃ g1, hardDrop c g = some g1) ∧
      (∃ g1, ApplyGravity c c2 g = some g1)) :=
  ⟨softDrop_lock_cases c g p hc, hardDrop_lock_cases c g p hc,
    ApplyGravity_lock_cases c c2 g p hc, fun c3 g1 h => lockedWithFlagFalse_score c3 g p g1 h,
    fun c3 h => panickedWithFlagFalse_score c3 g p h,
    fun h => lock_cases_return c c2 g p hc h⟩

/-- Witness for C31: in `tspinGame` the rotation flag is set, the active piece is a T and 3 of
the 4 corners of its pivot are occupied; the soft drop that locks it and completes row 0 returns
a state and scores the 100 points of a single row, not the 800 of a T-spin; the hard drop and
`ApplyGravity` return a state as well. -/
theorem locks_are_scored_without_tspin_witness :
    tspinGame.LastMoveWasRotation = true ∧ cornerT.ID = T ∧
    3 ≤ occupiedCorners tspinGame cornerT ∧
    (softDrop plainChance tspinGame).map (fun g1 => (g1.Score, g1.LinesCleared, g1.B2B))
      = some (100, 1, false) ∧
    (∃ g1, softDrop plainChance tspinGame = some g1 ∧
      (Unlocked tspinGame g1 ∨ LockedWithFlagFalse plainChance tspinGame cornerT g1)) ∧
    (∃ g1, hardDrop plainChance tspinGame = some g1 ∧
      (Unlocked tspinGame g1 ∨ LockedWithFlagFalse plainChance tspinGame cornerT g1)) ∧
    (∃ g1, ApplyGravity plainChance plainChance tspinGame = some g1 ∧
      (Unlocked tspinGame g1 ∨ LockedWithFlagFalse plainChance tspinGame cornerT g1 ∨
        LockedWithFlagFalse plainChance tspinGame cornerT g1)) ∧
    (∀ (c3 : Chance) (g1 : Game), LockedWithFlagFalse c3 tspinGame cornerT g1 →
      ∃ (g2 : Game) (q : Piece) (n : Nat),
        lockPiece c3 g2 = some g1 ∧ g2.LastMoveWasRotation = false ∧
        (clearLines c3.order { g2 with Playfield := paintBlocks g2.Playfield q } q).2 = n ∧
        detectTSpin (clearLines c3.order { g2 with Playfield := paintBlocks g2.Playfield q } q).1 q
          = false ∧
        g1.LinesCleared = tspinGame.LinesCleared + n ∧
        g1.Score = tspinGame.Score
          + plainDelta tspinGame.Level tspinGame.B2B tspinGame.Combo n) :=
  match locks_are_scored_without_tspin plainChance plainChance tspinGame cornerT rfl with
  | ⟨hsoft, hhard, hgrav, hscore, _, hret⟩ =>
    have hr := hret (Or.inr ⟨ascending_reorders, ascending_reorders, by decide⟩)
    ⟨rfl, rfl, by decide, tspinGame_softDrop,
      hsoft.resolve_right (fun h => match hr.1, h with
        | ⟨_, e1⟩, ⟨e2, _⟩ => Option.noConfusion (e1.symm.trans e2)),
      hhard.resolve_right (fun h => match hr.2.1, h with
        | ⟨_, e1⟩, ⟨e2, _⟩ => Option.noConfusion (e1.symm.trans e2)),
      hgrav.resolve_right (fun h => match hr.2.2, h with
        | ⟨_, e1⟩, ⟨e2, _⟩ => Option.noConfusion (e1.symm.trans e2)),
      hscore⟩

/-! ## The own corner of the T piece -/

theorem occupiedCorners_split (g : Game) (p : Piece) :
    occupiedCorners g p
      = otherCorners g p
        + (if cornerOccupied g.Playfield (p.Position.X + 1 + 1) (p.Position.Y + 1 + 1) = true
           then 1 else 0) := by
  unfold occupiedCorners otherCorners
  simp only [List.filter_cons, List.filter_nil]
  split_ifs <;> simp

theorem own_corner_painted (f : Grid) (p : Piece) (hid : p.ID ≠ 0)
    (hb : (⟨2, 2⟩ : Point) ∈ p.Blocks.toList) :
    cornerOccupied (paintBlocks f p) (p.Position.X + 1 + 1) (p.Position.Y + 1 + 1) = true := by
  unfold cornerOccupied
  rw [decide_eq_true_iff]
  by_cases hin : InGrid (p.Position.X + 1 + 1) (p.Position.Y + 1 + 1)
  · have hcell : paintBlocks f p (p.Position.X + 1 + 1) (p.Position.Y + 1 + 1) = p.ID := by
      unfold paintBlocks
      rw [paintCells_apply, if_pos]
      refine ⟨⟨2, 2⟩, hb, ?_, ?_, ?_⟩
      · unfold InGrid at hin
        simp only
        refine ⟨?_, ?_, ?_, ?_⟩ <;> omega
      · simp only
        omega
      · simp only
        omega
    rw [hcell]
    exact Or.inr (Or.inr (Or.inr (Or.inr hid)))
  · unfold InGrid at hin
    by_contra hcon
    apply hin
    simp only [not_or, not_lt, not_le] at hcon
    exact ⟨hcon.1, hcon.2.1, hcon.2.2.1, hcon.2.2.2.1⟩

theorem catalogOffsets_T_corner (state : Int) (h0 : 0 ≤ state) (h4 : state < 4) :
    (⟨2, 2⟩ : Point) ∈ catalogOffsets T state := by
  have hs : state = 0 ∨ state = 1 ∨ state = 2 ∨ state = 3 := by omega
  rcases hs with h | h | h | h <;> subst h <;> decide

/-- C32, as amended: in every rotation state of the T piece the offset (2,2) is a block of the
piece. On the grid as it is right after the painting loop of `lockPiece`, the corner
`(cx + 1, cy + 1)` is therefore counted as occupied, 3 of the 4 corners are occupied exactly
when 2 of the other 3 are, and `detectTSpin` is the rotation flag together with that test. The
call of `detectTSpin` inside `lockPiece` reads the grid returned by `clearLines`; its result is
the one on the painted grid when `clearLines` removes no row. -/
theorem tspin_own_corner_on_painted_grid (c : Chance) (g : Game) (p : Piece) (hT : p.ID = T)
    (hw : WellShaped p) :
    (⟨2, 2⟩ : Point) ∈ p.Blocks.toList ∧
    cornerOccupied (paintBlocks g.Playfield p) (p.Position.X + 1 + 1) (p.Position.Y + 1 + 1)
      = true ∧
    occupiedCorners { g with Playfield := paintBlocks g.Playfield p } p
      = otherCorners { g with Playfield := paintBlocks g.Playfield p } p + 1 ∧
    detectTSpin { g with Playfield := paintBlocks g.Playfield p } p
      = (g.LastMoveWasRotation &&
          decide (2 ≤ otherCorners { g with Playfield := paintBlocks g.Playfield p } p)) ∧
    ((clearLines c.order { g with Playfield := paintBlocks g.Playfield p } p).2 = 0 →
      detectTSpin (clearLines c.order { g with Playfield := paintBlocks g.Playfield p } p).1 p
        = detectTSpin { g with Playfield := paintBlocks g.Playfield p } p) := by
  obtain ⟨_, h0, h4, hblocks⟩ := hw
  have hb : (⟨2, 2⟩ : Point) ∈ p.Blocks.toList := by
    rw [hblocks, hT]
    exact catalogOffsets_T_corner _ h0 h4
  have hid : p.ID ≠ 0 := by
    rw [hT]
    decide
  have hcorner := own_corner_painted g.Playfield p hid hb
  have hsplit : occupiedCorners { g with Playfield := paintBlocks g.Playfield p } p
      = otherCorners { g with Playfield := paintBlocks g.Playfield p } p + 1 := by
    rw [occupiedCorners_split]
    simp only [hcorner, if_true]
  refine ⟨hb, hcorner, hsplit, ?_, ?_⟩
  · rw [detectTSpin_eq, hsplit]
    congr 1
    simp only [decide_eq_decide]
    omega
  · intro hzero
    rw [clearLines_count] at hzero
    have hnil : findFull (paintBlocks g.Playfield p) (c.order (rowKeys p)) = [] :=
      List.length_eq_zero.mp (by exact_mod_cast hzero)
    rw [clearLines_none c.order _ p hnil]

/-- Witness for C32 as amended: the T piece `cornerT` on the floor of the empty grid, where the
lock completes no row. -/
theorem tspin_own_corner_on_painted_grid_witness :
    (⟨2, 2⟩ : Point) ∈ cornerT.Blocks.toList ∧
    cornerOccupied (paintBlocks cornerGame.Playfield cornerT) (cornerT.Position.X + 1 + 1)
      (cornerT.Position.Y + 1 + 1) = true ∧
    occupiedCorners { cornerGame with Playfield := paintBlocks cornerGame.Playfield cornerT } cornerT
      = otherCorners { cornerGame with Playfield := paintBlocks cornerGame.Playfield cornerT }
          cornerT + 1 ∧
    detectTSpin { cornerGame with Playfield := paintBlocks cornerGame.Playfield cornerT } cornerT
      = (cornerGame.LastMoveWasRotation &&
          decide (2 ≤ otherCorners
            { cornerGame with Playfield := paintBlocks cornerGame.Playfield cornerT } cornerT)) ∧
    ((clearLines plainChance.order
        { cornerGame with Playfield := paintBlocks cornerGame.Playfield cornerT } cornerT).2 = 0 →
      detectTSpin (clearLines plainChance.order
        { cornerGame with Playfield := paintBlocks cornerGame.Playfield cornerT } cornerT).1 cornerT
        = detectTSpin
            { cornerGame with Playfield := paintBlocks cornerGame.Playfield cornerT } cornerT) :=
  tspin_own_corner_on_painted_grid plainChance cornerGame cornerT rfl (by decide)

theorem stemGame_cleared (x y : Int) :
    (clearLines ascending { stemGame with Playfield := paintBlocks stemGame.Playfield stemT }
        stemT).1.Playfield x y
      = removeRow (paintBlocks stemGame.Playfield stemT) 1 x y := by
  have hfull : findFull (paintBlocks stemGame.Playfield stemT) (ascending (rowKeys stemT))
      = [1] := by
    decide
  rw [clearLines_field]
  simp only [hfull, List.foldl_cons, List.foldl_nil]

/-- C32, counterexample to the claim as stated: `stemGame` has the rotation flag set and its T
piece, whose block at offset (2,2) is the cell (1,2), completes row 1. On the painted grid the
corner (1,2) is occupied and, with the two corners outside the left wall, 3 corners are. The
call of `detectTSpin` inside `lockPiece` comes after `clearLines` has removed row 1: there the
cell (1,2) is empty, the corner is not counted, 2 of the other 3 corners are occupied and yet
`detectTSpin` is false, so that the lock scores the 100 points of a plain single row. -/
theorem tspin_own_corner_empty_after_clear :
    stemGame.LastMoveWasRotation = true ∧ stemT.ID = T ∧ WellShaped stemT ∧
    occupiedCorners { stemGame with Playfield := paintBlocks stemGame.Playfield stemT } stemT
      = 3 ∧
    (clearLines ascending { stemGame with Playfield := paintBlocks stemGame.Playfield stemT }
      stemT).2 = 1 ∧
    cornerOccupied
      (clearLines ascending { stemGame with Playfield := paintBlocks stemGame.Playfield stemT }
        stemT).1.Playfield (stemT.Position.X + 1 + 1) (stemT.Position.Y + 1 + 1) = false ∧
    otherCorners
      (clearLines ascending { stemGame with Playfield := paintBlocks stemGame.Playfield stemT }
        stemT).1 stemT = 2 ∧
    detectTSpin
      (clearLines ascending { stemGame with Playfield := paintBlocks stemGame.Playfield stemT }
        stemT).1 stemT = false ∧
    ∃ g1, lockPiece plainChance stemGame = some g1 ∧ g1.Score = 100 := by
  have hv : VisibleHeight = 20 := rfl
  have hw : PlayWidth = 10 := rfl
  have ht : TotalHeight = 40 := rfl
  have hx : stemT.Position.X = -1 := rfl
  have hy : stemT.Position.Y = 0 := rfl
  have p13 : paintBlocks stemGame.Playfield stemT 1 3 = 0 := by decide
  have p10 : paintBlocks stemGame.Playfield stemT 1 0 = 0 := by decide
  have hcount : (clearLines ascending
      { stemGame with Playfield := paintBlocks stemGame.Playfield stemT } stemT).2 = 1 := by
    have hfull : findFull (paintBlocks stemGame.Playfield stemT) (ascending (rowKeys stemT))
        = [1] := by
      decide
    rw [clearLines_count]
    simp only [hfull, List.length_singleton, Nat.cast_one]
  have c12 : cornerOccupied
      (clearLines ascending { stemGame with Playfield := paintBlocks stemGame.Playfield stemT }
        stemT).1.Playfield 1 2 = false := by
    unfold cornerOccupied
    rw [stemGame_cleared, removeRow_apply]
    simp only [hv, hw, ht]
    norm_num
    exact p13
  have c10 : cornerOccupied
      (clearLines ascending { stemGame with Playfield := paintBlocks stemGame.Playfield stemT }
        stemT).1.Playfield 1 0 = false := by
    unfold cornerOccupied
    rw [stemGame_cleared, removeRow_apply]
    simp only [hv, hw, ht]
    norm_num
    exact p10
  have cw0 : ∀ f : Grid, cornerOccupied f (-1) 0 = true := by
    intro f
    simp [cornerOccupied]
  have cw2 : ∀ f : Grid, cornerOccupied f (-1) 2 = true := by
    intro f
    simp [cornerOccupied]
  have hother : otherCorners
      (clearLines ascending { stemGame with Playfield := paintBlocks stemGame.Playfield stemT }
        stemT).1 stemT = 2 := by
    simp only [otherCorners, hx, hy]
    norm_num
    simp only [List.filter_cons, cw0, cw2, c10, if_true, Bool.false_eq_true, if_false,
      List.filter_nil, List.length_cons, List.length_nil]
  have hcorner : cornerOccupied
      (clearLines ascending { stemGame with Playfield := paintBlocks stemGame.Playfield stemT }
        stemT).1.Playfield (stemT.Position.X + 1 + 1) (stemT.Position.Y + 1 + 1) = false := by
    simp only [hx, hy]
    norm_num
    exact c12
  have hocc : occupiedCorners
      (clearLines ascending { stemGame with Playfield := paintBlocks stemGame.Playfield stemT }
        stemT).1 stemT = 2 := by
    rw [occupiedCorners_split, hother, hcorner]
    rfl
  have hdet : detectTSpin
      (clearLines ascending { stemGame with Playfield := paintBlocks stemGame.Playfield stemT }
        stemT).1 stemT = false := by
    rw [detectTSpin_eq, hocc]
    simp
  refine ⟨rfl, rfl, by decide, by decide, hcount, hcorner, hother, hdet, ?_⟩
  have hrows : lockedRows plainChance stemGame stemT = 1 := hcount
  obtain ⟨g1, e1⟩ := (lockPiece_some_iff plainChance stemGame stemT rfl).mpr (by
    rw [hrows]
    decide)
  refine ⟨g1, e1, ?_⟩
  rw [lockPiece_eq plainChance stemGame stemT rfl] at e1
  obtain ⟨_, f2, _⟩ := lockTail_fields plainChance _ stemT g1 e1
  have hc2 : (clearLines plainChance.order
      { stemGame with Playfield := paintBlocks stemGame.Playfield stemT } stemT)
      = (clearLines ascending
      { stemGame with Playfield := paintBlocks stemGame.Playfield stemT } stemT) := rfl
  rw [hc2, hcount, updateScore_score _ 1 stemT (by norm_num)] at f2
  obtain ⟨w1, w2, w3, w4, _⟩ := clearLines_frame ascending
    { stemGame with Playfield := paintBlocks stemGame.Playfield stemT } stemT
  have hi : isTspinOf (clearLines ascending
      { stemGame with Playfield := paintBlocks stemGame.Playfield stemT } stemT).1 stemT
      = false := by
    simp [isTspinOf, hdet]
  rw [f2]
  simp only [ptsBeforeCombo, hi, basePts, w1, w2, w3, w4, comboPoints]
  decide

/-! ## A T-spin with four lines -/

theorem rowKeys_T_length (p : Piece) (hT : p.ID = T) (hw : WellShaped p) :
    (rowKeys p).length ≤ 3 := by
  obtain ⟨_, h0, h4, hb⟩ := hw
  have hmap : (p.Blocks.toList.map fun b => p.Position.Y + b.Y)
      = (p.Blocks.toList.map fun b => b.Y).map fun y => p.Position.Y + y := by
    rw [List.map_map]
    rfl
  unfold rowKeys
  rw [hmap, List.dedup_map_of_injective (fun a b h => by simpa using h), List.length_map, hb, hT]
  have hs : p.RotationState = 0 ∨ p.RotationState = 1 ∨ p.RotationState = 2 ∨
      p.RotationState = 3 := by omega
  rcases hs with h | h | h | h <;> rw [h] <;> decide

theorem lockedRows_T_le (c : Chance) (g : Game) (p : Piece) (hT : p.ID = T)
    (hw : WellShaped p) (ho : Reorders c.order) : lockedRows c g p ≤ 3 := by
  rw [lockedRows_eq]
  have h1 : (findFull (paintBlocks g.Playfield p) (c.order (rowKeys p))).length
      ≤ (c.order (rowKeys p)).length := by
    unfold findFull
    exact List.length_filter_le _ _
  have h2 : (c.order (rowKeys p)).length = (rowKeys p).length := (ho _).length_eq
  have h3 := rowKeys_T_length p hT hw
  omega

/-- C9, amended: when `updateScore` is given `linesCleared = 4` for a T piece that `detectTSpin`
classifies as a T-spin, the base points are 0, not the 800 of a Tetris: the score grows by the
combo bonus only, the back-to-back flag is set and the combo counter grows by 1. The case does
not occur in a lock: for a T piece whose blocks are those of its rotation state, `lockPiece`
passes a line count of at most 3 to `updateScore` when the map order is a permutation. -/
theorem tspin_four_lines_adds_combo_only (g : Game) (p : Piece) (hT : p.ID = T)
    (hd : detectTSpin g p = true) :
    (updateScore g 4 p).Score = g.Score + comboPoints g.Combo g.Level ∧
    (updateScore g 4 p).B2B = true ∧ (updateScore g 4 p).Combo = g.Combo + 1 ∧
    ∀ (c : Chance) (g2 : Game), WellShaped p → Reorders c.order →
      (clearLines c.order { g2 with Playfield := paintBlocks g2.Playfield p } p).2 ≤ 3 := by
  have hi : isTspinOf g p = true := by simp [isTspinOf, hT, hd]
  refine ⟨?_, ?_, updateScore_combo_field g 4 p (by norm_num), ?_⟩
  · rw [updateScore_score g 4 p (by norm_num)]
    simp [ptsBeforeCombo, basePts, hi, timesOneAndHalf]
  · rw [updateScore_b2b_field g 4 p (by norm_num)]
    simp
  · intro c g2 hw ho
    exact lockedRows_T_le c g2 p hT hw ho

/-- Witness for C9, amended: the T piece in the bottom-left corner after a rotation. -/
theorem tspin_four_lines_adds_combo_only_witness :
    cornerT.ID = T ∧ detectTSpin rotatedGame cornerT = true ∧
    (updateScore rotatedGame 4 cornerT).Score
      = rotatedGame.Score + comboPoints rotatedGame.Combo rotatedGame.Level ∧
    (updateScore rotatedGame 4 cornerT).B2B = true ∧
    (updateScore rotatedGame 4 cornerT).Combo = rotatedGame.Combo + 1 ∧
    ∀ (c : Chance) (g2 : Game), WellShaped cornerT → Reorders c.order →
      (clearLines c.order { g2 with Playfield := paintBlocks g2.Playfield cornerT } cornerT).2
        ≤ 3 :=
  ⟨rfl, by decide,
    tspin_four_lines_adds_combo_only rotatedGame cornerT rfl (by decide)⟩

end Tetris
